import Mathlib

/-!
# Solarus: the Lua movement API (`src/lua/MovementAPI.cpp`) and the savegame (`src/Savegame.cpp`)

A shallow embedding of the movement bindings: the factory `sol.movement.create`,
the common methods `start` and `stop`, the registry `sol.movements_on_points`
of the movements that drive an x,y table, the per-type setters and getters, and
the notifications sent back to Lua; and of the saved values of a savegame: the
typed accessors `is_*`, `get_*`, `set_*` and `unset` over the map `saved_values`,
the text written by `save()` and the `__newindex` function that stores the
assignments of a savegame file.

Conventions of the embedding:
* objects (movements, entities, drawables, Lua tables, Lua functions) are named
  by a `Ref`; the C++ heap and the Lua heap are maps from `Ref`;
* a Lua number is an integer (fractional numbers are outside the model);
* a Lua string may hold NUL characters; where the C++ code builds a
  `std::string` from the `const char*` of a Lua string, the embedding applies
  `std_string`, which stops before the first NUL;
* a Lua error (`luaL_error` and friends unwind the C++ frame) is returned as a
  value, together with the state reached when it was raised;
* a Lua function called by the engine (handler or callback) is script code: the
  call is recorded in `LuaContext.events`, its body is not run;
* a failed assertion of the savegame stops the program: it is returned as an
  error carrying the message.
-/

namespace solarus

/-- Identity of an object of the C++ heap or of the Lua heap. -/
abbrev Ref := Nat

/-- Values found on the Lua stack. Userdata are split by their registered type:
movements, map entities and drawables. -/
inductive LuaValue where
  | nil
  | boolean (b : Bool)
  | number (n : Int)
  | string (s : String)
  | table (t : Ref)
  | function (f : Ref)
  | movement (m : Ref)
  | entity (e : Ref)
  | drawable (d : Ref)
  deriving DecidableEq, Repr

/-- Errors raised to the Lua caller. `arg_error` is `LuaContext::arg_error`
(bad argument, with a message), `type_error` is `luaL_typerror` (bad argument,
"tname expected"); both name the index of the offending argument. -/
inductive LuaError where
  | arg_error (narg : Int) (message : String)
  | type_error (narg : Int) (tname : String)
  deriving DecidableEq, Repr

/-- The nine Lua types of movement, one per `movement_*_module_name`. -/
inductive MovementKind where
  | straight
  | random
  | target
  | path
  | random_path
  | path_finding
  | circle
  | jump
  | pixel
  deriving DecidableEq, Repr

/-- The module names of lines 39-48, without the common stem `sol.movement.`. -/
def MovementKind.module_name : MovementKind → String
  | .straight => "straight"
  | .random => "random"
  | .target => "target"
  | .path => "path"
  | .random_path => "random_path"
  | .path_finding => "path_finding"
  | .circle => "circle"
  | .jump => "jump"
  | .pixel => "pixel"

/-- The object built by one `new ...Movement(...)` expression of
`movement_api_create`, with the constructor arguments as written there. -/
inductive NewMovement where
  | StraightMovement (ignore_obstacles smooth : Bool)
  | RandomMovement (speed : Int)
  | TargetMovement (target_entity : Option Ref) (x y : Int) (moving_speed : Int)
      (ignore_obstacles : Bool)
  | PathMovement (path : String) (speed : Int) (loop ignore_obstacles must_be_aligned : Bool)
  | RandomPathMovement (speed : Int)
  | PathFindingMovement (speed : Int) (target : Option Ref)
  | CircleMovement (ignore_obstacles : Bool)
  | JumpMovement (direction8 distance speed : Int) (ignore_obstacles : Bool)
  | PixelMovement (trajectory_string : String) (delay : Nat) (loop ignore_obstacles : Bool)
  deriving DecidableEq, Repr

/-- The Lua type of a freshly built movement: the class that was instantiated. -/
def NewMovement.kind : NewMovement → MovementKind
  | .StraightMovement _ _ => .straight
  | .RandomMovement _ => .random
  | .TargetMovement _ _ _ _ _ => .target
  | .PathMovement _ _ _ _ _ => .path
  | .RandomPathMovement _ => .random_path
  | .PathFindingMovement _ _ => .path_finding
  | .CircleMovement _ => .circle
  | .JumpMovement _ _ _ _ => .jump
  | .PixelMovement _ _ _ _ => .pixel

/-- Argument `i` (1-based) of a call whose arguments are `args`; an absent
argument reads as nil. -/
def arg (args : List LuaValue) (i : Nat) : LuaValue :=
  args.getD (i - 1) .nil

/-- Number of arguments of the call (`lua_gettop` on entry). -/
def lua_gettop (args : List LuaValue) : Nat := args.length

/-- Lua library `luaL_checkstring`: a string is returned as it is, a number is
converted to its decimal text, anything else is a type error. -/
def luaL_checkstring (args : List LuaValue) (narg : Nat) : Except LuaError String :=
  match arg args narg with
  | .string s => .ok s
  | .number n => .ok (toString n)
  | _ => .error (.type_error narg "string")

/-- Standard library `std::string(const char*)`: the conversion that the
bindings apply to the `const char*` given by `luaL_checkstring` and
`lua_tostring`. A Lua string may hold NUL characters; the `std::string` built
from its characters ends before the first of them. -/
def std_string (chars : String) : String :=
  ⟨chars.data.takeWhile (fun c => c ≠ Char.ofNat 0)⟩

/-- Embedding of `LuaContext::movement_api_create` (lines 389-451). `hero` is
`some h` when a game is running (`get_main_loop().get_game() != NULL`) and `h`
is its hero. The error branch raises, so the final `push_movement` is reached
only with a movement. -/
def movement_api_create (hero : Option Ref) (args : List LuaValue) :
    Except LuaError NewMovement :=
  match luaL_checkstring args 1 with
  | .error e => .error e
  | .ok chars =>
    let type := std_string chars
    if type = "straight" then
      .ok (.StraightMovement false true)
    else if type = "random" then
      .ok (.RandomMovement 32)
    else if type = "target" then
      match hero with
      | some h => .ok (.TargetMovement (some h) 0 0 96 false)
      | none => .ok (.TargetMovement none 0 0 32 false)
    else if type = "path" then
      .ok (.PathMovement "" 32 false false false)
    else if type = "random_path" then
      .ok (.RandomPathMovement 32)
    else if type = "path_finding" then
      .ok (.PathFindingMovement 32 hero)
    else if type = "circle" then
      .ok (.CircleMovement false)
    else if type = "jump" then
      .ok (.JumpMovement 0 0 0 false)
    else if type = "pixel" then
      .ok (.PixelMovement "" 30 false false)
    else
      .error (.arg_error 1 ("should be one of: " ++
        "\"straight\", " ++
        "\"random\", " ++
        "\"target\", " ++
        "\"path\", " ++
        "\"random_path\", " ++
        "\"path_finding\", " ++
        "\"circle\", " ++
        "\"jump\" or " ++
        "\"pixel\""))

/-! ## Lua tables -/

/-- A Lua table: its entries in the order in which `lua_next` traverses them.
Keys are distinct and no entry holds nil (a nil field is an absent entry). -/
abbrev Table (κ ν : Type) := List (κ × ν)

/-- Lua library `lua_gettable` / `lua_getfield`: the value under `k`, `none` for nil. -/
def lua_gettable {κ ν : Type} [DecidableEq κ] (t : Table κ ν) (k : κ) : Option ν :=
  match t with
  | [] => none
  | (k1, v) :: rest => if k1 = k then some v else lua_gettable rest k

/-- Lua library `lua_settable` / `lua_setfield`: storing nil (`none`) removes the
entry, storing a value replaces the entry of an existing key where it stands
and adds a new key at the end. -/
def lua_settable {κ ν : Type} [DecidableEq κ] (t : Table κ ν) (k : κ) (v : Option ν) :
    Table κ ν :=
  match v with
  | none => t.filter (fun e => decide (e.1 ≠ k))
  | some w =>
    if (lua_gettable t k).isSome then t.map (fun e => if e.1 = k then (k, w) else e)
    else t ++ [(k, w)]

/-- A table of script values, such as an x,y point or the argument of `set_path`. -/
abbrev LuaTable := Table LuaValue LuaValue

/-- Lua library `lua_getfield(l, t, name)` as a stack value (nil when absent). -/
def lua_getfield (t : LuaTable) (name : String) : LuaValue :=
  (lua_gettable t (.string name)).getD .nil

/-- Lua library `lua_rawgeti(l, t, n)` as a stack value (nil when absent). -/
def lua_rawgeti (t : LuaTable) (n : Int) : LuaValue :=
  (lua_gettable t (.number n)).getD .nil

/-! ## Integers read from Lua -/

/-- Conversion to the C type `int` (32 bits, two's complement). -/
def to_int (n : Int) : Int := (n + 2 ^ 31) % 2 ^ 32 - 2 ^ 31

/-- Value of a non-empty string of decimal digits. -/
def decimal (cs : List Char) : Option Nat :=
  if cs ≠ [] ∧ cs.all Char.isDigit = true then
    some (cs.foldl (fun n c => 10 * n + (c.toNat - 48)) 0)
  else none

/-- Lua's conversion of a string to a number, for the strings that spell a
decimal integer (the other spellings of a number are outside the model). -/
def lua_str2number (s : String) : Option Int :=
  match s.data with
  | '-' :: cs => (decimal cs).map (fun n => - (n : Int))
  | cs => (decimal cs).map (fun n => (n : Int))

/-- Lua library `lua_tointeger` together with `lua_isnumber`: the integer held
by a number or by a string convertible to a number, `none` for anything else. -/
def lua_tointeger (v : LuaValue) : Option Int :=
  match v with
  | .number n => some n
  | .string s => lua_str2number s
  | _ => none

/-- Lua library `luaL_checkint(l, narg)` applied to the value `v` found at index
`narg`: the integer converted to `int`, or the type error "number expected". -/
def luaL_checkint (v : LuaValue) (narg : Int) : Except LuaError Int :=
  match lua_tointeger v with
  | some n => .ok (to_int n)
  | none => .error (.type_error narg "number")

/-! ## State -/

/-- State of one `Movement` object, as far as the bindings read or write it.
`entity` and `drawable` are `get_entity()` and `get_drawable()` (`none` is
NULL); `finished_callback_ref` is `none` for `LUA_REFNIL`; `path` is the
`std::string` of a path movement, one byte per element. -/
structure Movement where
  kind : MovementKind
  x : Int
  y : Int
  entity : Option Ref
  drawable : Option Ref
  finished_callback_ref : Option Ref
  known_to_lua : Bool
  speed : Int
  moving_speed : Int
  path : List Nat
  trajectory : List (Int × Int)
  deriving DecidableEq, Repr

/-- Calls made by the engine into movement objects and into Lua functions, in
the order in which they happen. -/
inductive Event where
  | update (m : Ref)
  | on_position_changed (m : Ref)
  | on_obstacle_reached (m : Ref)
  | on_changed (m : Ref)
  | on_finished (m : Ref)
  | callback (m : Ref) (callback_ref : Ref)
  deriving DecidableEq, Repr

/-- The movement an event is about. -/
def Event.movement : Event → Ref
  | .update m => m
  | .on_position_changed m => m
  | .on_obstacle_reached m => m
  | .on_changed m => m
  | .on_finished m => m
  | .callback m _ => m

/-- The Lua world and the C++ objects it points to.
* `movements`, `entities` (`MapEntity::movement`), `drawables`
  (`Drawable::movement`): the C++ heap;
* `tables`: the Lua tables of the scripts;
* `movements_on_points`: the registry table `sol.movements_on_points`, from
  movement to x,y table;
* `userdata_fields`: the names defined by scripts on each movement userdata;
* `callbacks`: the live references made by `luaL_ref`; a reference is named by
  the function it refers to;
* `events`: the trace of calls. -/
structure LuaContext where
  movements : Ref → Movement
  entities : Ref → Option Ref
  drawables : Ref → Option Ref
  tables : Ref → LuaTable
  movements_on_points : Table Ref Ref
  userdata_fields : Ref → List String
  callbacks : List Ref
  events : List Event

/-- What a binding leaves behind: the state reached, and the error raised if any. -/
structure CallResult where
  ctx : LuaContext
  error : Option LuaError

/-- Map update at one key. -/
def upd {α : Type} (f : Ref → α) (k : Ref) (v : α) : Ref → α :=
  fun i => if i = k then v else f i

/-- Applies `f` to the movement object `m`. -/
def LuaContext.modify_movement (s : LuaContext) (m : Ref) (f : Movement → Movement) :
    LuaContext :=
  { s with movements := upd s.movements m (f (s.movements m)) }

/-- Lua library `lua_setfield(l, t, name)` with the value `v` on the table `t`. -/
def LuaContext.lua_setfield (s : LuaContext) (t : Ref) (name : String) (v : LuaValue) :
    LuaContext :=
  { s with tables := upd s.tables t (lua_settable (s.tables t) (.string name) (some v)) }

/-- Records a call in the trace. -/
def LuaContext.call (s : LuaContext) (ev : Event) : LuaContext :=
  { s with events := s.events ++ [ev] }

/-! ## Parts of the engine that the bindings call -/

/-- Modelled from the spec: `push_userdata` and `ExportableToLua::is_known_to_lua`
are missing from the sources; a movement becomes known to Lua when it is pushed
as a userdata. Embedding of `LuaContext::push_movement` (lines 277-281). -/
def push_movement (s : LuaContext) (m : Ref) : LuaContext :=
  s.modify_movement m (fun mv => { mv with known_to_lua := true })

/-- Modelled from the spec: `LuaContext::userdata_has_field` is missing from the
sources; it tells whether the scripts defined the field `name` on the userdata. -/
def userdata_has_field (s : LuaContext) (m : Ref) (name : String) : Bool :=
  decide (name ∈ s.userdata_fields m)

/-- Modelled from the spec: `is_userdata` is missing from the sources; a value
is a movement when it is a userdata of one of the nine movement types.
Embedding of `LuaContext::check_movement` (lines 258-270). -/
def check_movement (args : List LuaValue) (index : Nat) : Except LuaError Ref :=
  match arg args index with
  | .movement m => .ok m
  | _ => .error (.type_error index "movement")

/-- Modelled from the spec: `check_userdata` is missing from the sources; it
returns the userdata at `index` when it has the Lua type `kind` and raises a
type error otherwise. Stands for `check_straight_movement`,
`check_path_movement`, ... (`check_userdata(l, index, module_name)`). -/
def check_userdata (s : LuaContext) (args : List LuaValue) (index : Nat)
    (kind : MovementKind) : Except LuaError Ref :=
  match arg args index with
  | .movement m =>
    if (s.movements m).kind = kind then .ok m
    else .error (.type_error index ("sol.movement." ++ kind.module_name))
  | _ => .error (.type_error index ("sol.movement." ++ kind.module_name))

/-- Embedding of `LuaContext::movement_on_position_changed` (lines 1704-1737):
when the movement drives an x,y table, its coordinates are written there; then
the handler `on_position_changed` is called if it is defined. -/
def movement_on_position_changed (s : LuaContext) (m : Ref) : LuaContext :=
  if (s.movements m).known_to_lua = false then s
  else
    let s1 := push_movement s m
    let s2 :=
      match lua_gettable s1.movements_on_points m with
      | some xy =>
        (s1.lua_setfield xy "x" (.number (s1.movements m).x)).lua_setfield xy "y"
          (.number (s1.movements m).y)
      | none => s1
    if userdata_has_field s2 m "on_position_changed" then s2.call (.on_position_changed m)
    else s2

/-- Embedding of `LuaContext::movement_on_obstacle_reached` (lines 1746-1755). -/
def movement_on_obstacle_reached (s : LuaContext) (m : Ref) : LuaContext :=
  if userdata_has_field s m "on_obstacle_reached" = false then s
  else (push_movement s m).call (.on_obstacle_reached m)

/-- Embedding of `LuaContext::movement_on_changed` (lines 1764-1773). -/
def movement_on_changed (s : LuaContext) (m : Ref) : LuaContext :=
  if userdata_has_field s m "on_changed" = false then s
  else (push_movement s m).call (.on_changed m)

/-- Embedding of `LuaContext::movement_on_finished` (lines 1782-1791). -/
def movement_on_finished (s : LuaContext) (m : Ref) : LuaContext :=
  if userdata_has_field s m "on_finished" = false then s
  else (push_movement s m).call (.on_finished m)

/-- Modelled from the spec: `Movement::set_xy` is missing from the sources; it
stores the position and, as on every position change, notifies "position
changed" (section 4.1). -/
def Movement.set_xy (s : LuaContext) (m : Ref) (x y : Int) : LuaContext :=
  movement_on_position_changed (s.modify_movement m (fun mv => { mv with x := x, y := y })) m

/-- Modelled from the spec: `Movement::set_y` is missing from the sources; it is
`set_xy` with the current x. -/
def Movement.set_y (s : LuaContext) (m : Ref) (y : Int) : LuaContext :=
  Movement.set_xy s m (s.movements m).x y

/-- Modelled from the spec: `Movement::set_finished_callback` is missing from
the sources; the movement holds a single optional callback handle (section 3),
which this call replaces. -/
def Movement.set_finished_callback (s : LuaContext) (m : Ref) (callback_ref : Option Ref) :
    LuaContext :=
  s.modify_movement m (fun mv => { mv with finished_callback_ref := callback_ref })

/-- Lua library `luaL_ref` on the function `f`: a new live reference to it. -/
def luaL_ref (s : LuaContext) (f : Ref) : LuaContext :=
  { s with callbacks := f :: s.callbacks }

/-- Modelled from the spec: `LuaContext::cancel_callback` is missing from the
sources; it releases the reference, and does nothing on `LUA_REFNIL`. -/
def cancel_callback (s : LuaContext) (callback_ref : Option Ref) : LuaContext :=
  match callback_ref with
  | some r => { s with callbacks := s.callbacks.erase r }
  | none => s

/-- Modelled from the spec: `MapEntity::clear_movement` is missing from the
sources; it unbinds the entity from the movement that drives it, if any. -/
def MapEntity.clear_movement (s : LuaContext) (e : Ref) : LuaContext :=
  match s.entities e with
  | some m =>
    { s.modify_movement m (fun mv => { mv with entity := none }) with
      entities := upd s.entities e none }
  | none => s

/-- Modelled from the spec: `MapEntity::set_movement` is missing from the
sources; it binds the entity and the movement to each other. -/
def MapEntity.set_movement (s : LuaContext) (e m : Ref) : LuaContext :=
  { s.modify_movement m (fun mv => { mv with entity := some e }) with
    entities := upd s.entities e (some m) }

/-- Modelled from the spec: `Drawable::stop_movement` is missing from the
sources; it unbinds the drawable from the movement that drives it, if any. -/
def Drawable.stop_movement (s : LuaContext) (d : Ref) : LuaContext :=
  match s.drawables d with
  | some m =>
    { s.modify_movement m (fun mv => { mv with drawable := none }) with
      drawables := upd s.drawables d none }
  | none => s

/-- Modelled from the spec: `Drawable::start_movement` is missing from the
sources; it stops the movement the drawable had and binds the drawable and the
new movement to each other. -/
def Drawable.start_movement (s : LuaContext) (d m : Ref) : LuaContext :=
  let s1 := Drawable.stop_movement s d
  { s1.modify_movement m (fun mv => { mv with drawable := some d }) with
    drawables := upd s1.drawables d (some m) }

/-! ## The registry of movements on points, `start` and `stop` -/

/-- End of `LuaContext::start_movement_on_point` (lines 339-343), with the
coordinates `x` and `y` read so far: the entry movement -> point is stored in
the registry and the movement is placed at (x, y). -/
def start_movement_on_point_register (s : LuaContext) (m : Ref) (point : Ref) (x y : Int) :
    CallResult :=
  let s1 := { s with
    movements_on_points := lua_settable s.movements_on_points m (some point) }
  ⟨Movement.set_xy s1 m x y, none⟩

/-- Middle of `LuaContext::start_movement_on_point` (lines 320-337), with the
coordinate `x` read so far: the field y is set to 0 when it is missing, and read
by `luaL_checkint(l, -1)` otherwise. -/
def start_movement_on_point_y (s : LuaContext) (m : Ref) (point : Ref) (x : Int) :
    CallResult :=
  let vy := lua_getfield (s.tables point) "y"
  if vy = .nil then
    start_movement_on_point_register
      (Movement.set_y (s.lua_setfield point "y" (.number 0)) m 0) m point x 0
  else
    match luaL_checkint vy (-1) with
    | .ok y => start_movement_on_point_register s m point x y
    | .error e => ⟨s, some e⟩

/-- Embedding of `LuaContext::start_movement_on_point` (lines 292-344). `point`
is the x,y table at `point_index`. `luaL_checkint(l, -1)` raises when a field
that is present does not hold a number; the function is then left before the
registry is written. -/
def start_movement_on_point (s : LuaContext) (m : Ref) (point : Ref) : CallResult :=
  let s1 := push_movement s m
  let vx := lua_getfield (s1.tables point) "x"
  if vx = .nil then
    start_movement_on_point_y (s1.lua_setfield point "x" (.number 0)) m point 0
  else
    match luaL_checkint vx (-1) with
    | .ok x => start_movement_on_point_y s1 m point x
    | .error e => ⟨s1, some e⟩

/-- Embedding of `LuaContext::stop_movement_on_point` (lines 350-363). -/
def stop_movement_on_point (s : LuaContext) (m : Ref) : LuaContext :=
  let s1 := push_movement s m
  { s1 with movements_on_points := lua_settable s1.movements_on_points m none }

/-- Embedding of `LuaContext::movement_api_stop` (lines 530-554). -/
def movement_api_stop (s : LuaContext) (args : List LuaValue) : CallResult :=
  match check_movement args 1 with
  | .error e => ⟨s, some e⟩
  | .ok m =>
    match (s.movements m).entity with
    | some entity =>
      -- The object controlled is a map entity.
      ⟨MapEntity.clear_movement s entity, none⟩
    | none =>
      match (s.movements m).drawable with
      | some drawable =>
        -- The object controlled is a drawable.
        ⟨Drawable.stop_movement s drawable, none⟩
      | none =>
        -- The object controlled is a point.
        ⟨stop_movement_on_point s m, none⟩

/-- Embedding of `LuaContext::movement_api_start` (lines 489-523). The subject
is argument 2: a table, an entity userdata (`is_entity`) or a drawable userdata
(`is_drawable`). -/
def movement_api_start (s : LuaContext) (args : List LuaValue) : CallResult :=
  match check_movement args 1 with
  | .error e => ⟨s, some e⟩
  | .ok m =>
    -- First, stop any previous movement.
    let s1 := (movement_api_stop s args).ctx
    let rc : Except LuaError (LuaContext × Option Ref) :=
      if 3 ≤ lua_gettop args then
        match arg args 3 with
        | .function f =>
          .ok (Movement.set_finished_callback (luaL_ref s1 f) m (some f), some f)
        | _ => .error (.type_error 3 "function")
      else .ok (s1, none)
    match rc with
    | .error e => ⟨s1, some e⟩
    | .ok (s2, callback_ref) =>
      match arg args 2 with
      | .table point => start_movement_on_point s2 m point
      | .entity entity =>
        ⟨MapEntity.set_movement (MapEntity.clear_movement s2 entity) entity m, none⟩
      | .drawable drawable => ⟨Drawable.start_movement s2 drawable m, none⟩
      | _ => ⟨cancel_callback s2 callback_ref, some (.type_error 2 "table, entity or drawable")⟩

/-! ## The update sweep -/

/-- Modelled from the spec: the nine strategies are missing from the sources;
this is what a strategy asks of the core during one `update()`: a position
change, the notification "obstacle reached", or the end of the movement
(section 4.1). -/
inductive Action where
  | set_xy (x y : Int)
  | notify_obstacle_reached
  | notify_finished
  deriving DecidableEq, Repr

/-- Modelled from the spec: `Movement::notify_finished` is missing from the
sources; the completion callback is fired once and cleared (sections 4.1 and
9), then "finished" is notified. -/
def Movement.notify_finished (s : LuaContext) (m : Ref) : LuaContext :=
  let s1 :=
    match (s.movements m).finished_callback_ref with
    | some r =>
      cancel_callback
        ((Movement.set_finished_callback s m none).call (.callback m r)) (some r)
    | none => s
  movement_on_finished s1 m

/-- Modelled from the spec: the core `Movement` class is missing from the
sources; an action of a strategy goes through `set_xy`, through the
notification "obstacle reached" of lines 1746-1755, or through
`notify_finished`. -/
def Movement.perform (s : LuaContext) (m : Ref) : Action → LuaContext
  | .set_xy x y => Movement.set_xy s m x y
  | .notify_obstacle_reached => movement_on_obstacle_reached s m
  | .notify_finished => Movement.notify_finished s m

/-- Modelled from the spec: `Movement::update` and the nine strategies are
missing from the sources; one tick of a movement is the list of actions its
strategy decides in the current state (`strategy s m`), each going through the
core: position changes, "obstacle reached", "finished". -/
def Movement.update (strategy : LuaContext → Ref → List Action) (s : LuaContext) (m : Ref) :
    LuaContext :=
  (strategy s m).foldl (fun t a => Movement.perform t m a) (s.call (.update m))

/-- Embedding of `LuaContext::update_movements` (lines 372-382): `update()` on
each key of the registry, in traversal order. No action of the model writes the
registry, so the keys are those found on entry. -/
def update_movements (strategy : LuaContext → Ref → List Action) (s : LuaContext) :
    LuaContext :=
  s.movements_on_points.foldl (fun t e => Movement.update strategy t e.1) s

/-- The state after `n` sweeps. -/
def sweeps (strategy : LuaContext → Ref → List Action) : Nat → LuaContext → LuaContext
  | 0, s => s
  | n + 1, s => sweeps strategy n (update_movements strategy s)

/-! ## Setters of the movement types -/

/-- Modelled from the spec: `StraightMovement::set_speed`, `PathMovement::set_speed`
and `JumpMovement::set_speed` are missing from the sources; the setter stores
the speed of the movement (section 3). -/
def Movement.set_speed (s : LuaContext) (m : Ref) (speed : Int) : LuaContext :=
  s.modify_movement m (fun mv => { mv with speed := speed })

/-- Modelled from the spec: `TargetMovement::set_moving_speed` is missing from
the sources; the setter stores the moving speed of the movement (section 3). -/
def TargetMovement.set_moving_speed (s : LuaContext) (m : Ref) (speed : Int) : LuaContext :=
  s.modify_movement m (fun mv => { mv with moving_speed := speed })

/-- Modelled from the spec: `PathMovement::set_path` is missing from the
sources; the setter stores the path of the movement (section 3). -/
def PathMovement.set_path (s : LuaContext) (m : Ref) (path : List Nat) : LuaContext :=
  s.modify_movement m (fun mv => { mv with path := path })

/-- Modelled from the spec: `PixelMovement::set_trajectory` is missing from the
sources; the setter stores the trajectory of the movement (section 3). -/
def PixelMovement.set_trajectory (s : LuaContext) (m : Ref) (trajectory : List (Int × Int)) :
    LuaContext :=
  s.modify_movement m (fun mv => { mv with trajectory := trajectory })

/-- Embedding of `LuaContext::straight_movement_api_set_speed` (lines 639-645). -/
def straight_movement_api_set_speed (s : LuaContext) (args : List LuaValue) : CallResult :=
  match check_userdata s args 1 .straight with
  | .error e => ⟨s, some e⟩
  | .ok m =>
    match luaL_checkint (arg args 2) 2 with
    | .error e => ⟨s, some e⟩
    | .ok speed => ⟨Movement.set_speed s m speed, none⟩

/-- Embedding of `LuaContext::random_movement_api_set_speed` (lines 765-771). -/
def random_movement_api_set_speed (s : LuaContext) (args : List LuaValue) : CallResult :=
  match check_userdata s args 1 .random with
  | .error e => ⟨s, some e⟩
  | .ok m =>
    match luaL_checkint (arg args 2) 2 with
    | .error e => ⟨s, some e⟩
    | .ok speed => ⟨Movement.set_speed s m speed, none⟩

/-- Embedding of `LuaContext::target_movement_api_set_speed` (lines 908-914). -/
def target_movement_api_set_speed (s : LuaContext) (args : List LuaValue) : CallResult :=
  match check_userdata s args 1 .target with
  | .error e => ⟨s, some e⟩
  | .ok m =>
    match luaL_checkint (arg args 2) 2 with
    | .error e => ⟨s, some e⟩
    | .ok speed => ⟨TargetMovement.set_moving_speed s m speed, none⟩

/-- Embedding of `LuaContext::path_movement_api_set_speed` (lines 1041-1047). -/
def path_movement_api_set_speed (s : LuaContext) (args : List LuaValue) : CallResult :=
  match check_userdata s args 1 .path with
  | .error e => ⟨s, some e⟩
  | .ok m =>
    match luaL_checkint (arg args 2) 2 with
    | .error e => ⟨s, some e⟩
    | .ok speed => ⟨Movement.set_speed s m speed, none⟩

/-- Embedding of `LuaContext::random_path_movement_api_set_speed` (lines 1146-1152). -/
def random_path_movement_api_set_speed (s : LuaContext) (args : List LuaValue) : CallResult :=
  match check_userdata s args 1 .random_path with
  | .error e => ⟨s, some e⟩
  | .ok m =>
    match luaL_checkint (arg args 2) 2 with
    | .error e => ⟨s, some e⟩
    | .ok speed => ⟨Movement.set_speed s m speed, none⟩

/-- Embedding of `LuaContext::path_finding_movement_api_set_speed` (lines 1208-1214). -/
def path_finding_movement_api_set_speed (s : LuaContext) (args : List LuaValue) : CallResult :=
  match check_userdata s args 1 .path_finding with
  | .error e => ⟨s, some e⟩
  | .ok m =>
    match luaL_checkint (arg args 2) 2 with
    | .error e => ⟨s, some e⟩
    | .ok speed => ⟨Movement.set_speed s m speed, none⟩

/-- Embedding of `LuaContext::jump_movement_api_set_speed` (lines 1557-1563). -/
def jump_movement_api_set_speed (s : LuaContext) (args : List LuaValue) : CallResult :=
  match check_userdata s args 1 .jump with
  | .error e => ⟨s, some e⟩
  | .ok m =>
    match luaL_checkint (arg args 2) 2 with
    | .error e => ⟨s, some e⟩
    | .ok speed => ⟨Movement.set_speed s m speed, none⟩

/-- The `set_speed` binding registered for a movement type (lines 82-201);
circle and pixel movements have none. -/
def set_speed_method : MovementKind → Option (LuaContext → List LuaValue → CallResult)
  | .straight => some straight_movement_api_set_speed
  | .random => some random_movement_api_set_speed
  | .target => some target_movement_api_set_speed
  | .path => some path_movement_api_set_speed
  | .random_path => some random_path_movement_api_set_speed
  | .path_finding => some path_finding_movement_api_set_speed
  | .jump => some jump_movement_api_set_speed
  | .circle => none
  | .pixel => none

/-- The speed that the `set_speed` binding of a movement type writes:
`set_moving_speed` for a target movement, `set_speed` for the others. -/
def speed_field (kind : MovementKind) (mv : Movement) : Int :=
  match kind with
  | .target => mv.moving_speed
  | _ => mv.speed

/-- The conversion of `'0' + direction8` to `char` in `path += ('0' + direction8)`:
the low byte of the sum. -/
def direction8_char (direction8 : Int) : Nat :=
  ((48 + direction8) % 256).toNat

/-- The loop of `path_movement_api_set_path` (lines 1013-1018) over the entries
that `lua_next` yields: the value of each entry is read by `luaL_checkint(l, 4)`
and appended to the path. -/
def set_path_loop (entries : List (LuaValue × LuaValue)) (path : List Nat) :
    Except LuaError (List Nat) :=
  match entries with
  | [] => .ok path
  | (_, value) :: rest =>
    match luaL_checkint value 4 with
    | .error e => .error e
    | .ok direction8 => set_path_loop rest (path ++ [direction8_char direction8])

/-- Embedding of `LuaContext::path_movement_api_set_path` (lines 1006-1022) for
the call `movement:set_path(t)`: the stack holds the two arguments, so that the
key and the value of `lua_next` stand at indices 3 and 4. -/
def path_movement_api_set_path (s : LuaContext) (movement t : LuaValue) : CallResult :=
  match check_userdata s [movement, t] 1 .path with
  | .error e => ⟨s, some e⟩
  | .ok m =>
    match t with
    | .table tr =>
      match set_path_loop (s.tables tr) [] with
      | .error e => ⟨s, some e⟩
      | .ok path => ⟨PathMovement.set_path s m path, none⟩
    | _ => ⟨s, some (.type_error 2 "table")⟩

/-- The loop of `pixel_movement_api_set_trajectory` (lines 1629-1637) over the
entries that `lua_next` yields: the value of each entry (index 4) must be a
table, whose elements 1 and 2 (indices 5 and 6) are read by `luaL_checkint`. -/
def set_trajectory_loop (s : LuaContext) (entries : List (LuaValue × LuaValue))
    (trajectory : List (Int × Int)) : Except LuaError (List (Int × Int)) :=
  match entries with
  | [] => .ok trajectory
  | (_, value) :: rest =>
    match value with
    | .table xy =>
      match luaL_checkint (lua_rawgeti (s.tables xy) 1) 5 with
      | .error e => .error e
      | .ok x =>
        match luaL_checkint (lua_rawgeti (s.tables xy) 2) 6 with
        | .error e => .error e
        | .ok y => set_trajectory_loop s rest (trajectory ++ [(x, y)])
    | _ => .error (.type_error 4 "table")

/-- Embedding of `LuaContext::pixel_movement_api_set_trajectory` (lines
1621-1641) for the call `movement:set_trajectory(t)`: the stack holds the two
arguments, so that the key and the value of `lua_next` stand at indices 3 and 4. -/
def pixel_movement_api_set_trajectory (s : LuaContext) (movement t : LuaValue) : CallResult :=
  match check_userdata s [movement, t] 1 .pixel with
  | .error e => ⟨s, some e⟩
  | .ok m =>
    match t with
    | .table tr =>
      match set_trajectory_loop s (s.tables tr) [] with
      | .error e => ⟨s, some e⟩
      | .ok trajectory => ⟨PixelMovement.set_trajectory s m trajectory, none⟩
    | _ => ⟨s, some (.type_error 2 "table")⟩

/-! ## Predicates of the statements -/

/-- The movement drives an entity: `get_entity() != NULL`. -/
def drives_entity (s : LuaContext) (m : Ref) : Bool := (s.movements m).entity.isSome

/-- The movement drives a drawable: `get_drawable() != NULL`. -/
def drives_drawable (s : LuaContext) (m : Ref) : Bool := (s.movements m).drawable.isSome

/-- The movement drives a point: it has an entry in `sol.movements_on_points`. -/
def drives_point (s : LuaContext) (m : Ref) : Bool :=
  (lua_gettable s.movements_on_points m).isSome

/-- Number of subjects the movement is bound to. -/
def subjects (s : LuaContext) (m : Ref) : Nat :=
  (if drives_entity s m then 1 else 0) + (if drives_drawable s m then 1 else 0) +
    (if drives_point s m then 1 else 0)

/-- An x,y table as `start_movement_on_point` expects it: each of the fields x
and y is missing or holds a number in the range of `int`. -/
def IsPoint (t : LuaTable) : Prop :=
  ∀ name, name = "x" ∨ name = "y" →
    lua_getfield t name = .nil ∨
      ∃ n : Int, lua_getfield t name = .number n ∧ -2 ^ 31 ≤ n ∧ n < 2 ^ 31

/-- Coordinate read from a field of an x,y table, a missing one counting as 0. -/
def coordinate (t : LuaTable) (name : String) : Int :=
  match lua_getfield t name with
  | .number n => n
  | _ => 0

/-- A state with nothing bound, no table filled and no handler defined, whose
movements are straight movements at (0, 0). -/
def blank : LuaContext where
  movements := fun _ => ⟨.straight, 0, 0, none, none, none, true, 0, 0, [], []⟩
  entities := fun _ => none
  drawables := fun _ => none
  tables := fun _ => []
  movements_on_points := []
  userdata_fields := fun _ => []
  callbacks := []
  events := []

/-- The entity and drawable pointers agree on both sides and every movement has
at most one subject: the invariant kept by `start` and `stop`. -/
def Consistent (s : LuaContext) : Prop :=
  (∀ m e, (s.movements m).entity = some e ↔ s.entities e = some m) ∧
  (∀ m d, (s.movements m).drawable = some d ↔ s.drawables d = some m) ∧
  (∀ m, subjects s m ≤ 1)

/-- The state `t` has the bindings of `s`: same entity and drawable pointers on
both sides, same registry. -/
def SameBindings (s t : LuaContext) : Prop :=
  (∀ m, (t.movements m).entity = (s.movements m).entity) ∧
  (∀ m, (t.movements m).drawable = (s.movements m).drawable) ∧
  t.entities = s.entities ∧ t.drawables = s.drawables ∧
  t.movements_on_points = s.movements_on_points

/-- The bindings after a call that may have stored `m -> point` in the registry. -/
def BindingsAfterStart (s : LuaContext) (m point : Ref) (r : CallResult) : Prop :=
  (∀ i, (r.ctx.movements i).entity = (s.movements i).entity) ∧
  (∀ i, (r.ctx.movements i).drawable = (s.movements i).drawable) ∧
  r.ctx.entities = s.entities ∧ r.ctx.drawables = s.drawables ∧
  r.ctx.movements_on_points =
    (if r.error = none then lua_settable s.movements_on_points m (some point)
    else s.movements_on_points)

/-- The state `t` comes from `s` by work done on the movement `m` alone: the
registry is the same, the other movements are as they were, the calls added to
the trace are about `m`, and a table that `m` does not drive is as it was. -/
def Step (m : Ref) (s t : LuaContext) : Prop :=
  t.movements_on_points = s.movements_on_points ∧
  (∀ i, i ≠ m → t.movements i = s.movements i) ∧
  (∃ evs, t.events = s.events ++ evs ∧ ∀ ev ∈ evs, Event.movement ev = m) ∧
  (∀ p, lua_gettable s.movements_on_points m ≠ some p → t.tables p = s.tables p)

/-- The state `t` comes from `s` by work done on the movements `ms` alone. -/
def StepAll (ms : List Ref) (s t : LuaContext) : Prop :=
  t.movements_on_points = s.movements_on_points ∧
  (∀ i, i ∉ ms → t.movements i = s.movements i) ∧
  (∃ evs, t.events = s.events ++ evs ∧ ∀ ev ∈ evs, Event.movement ev ∈ ms) ∧
  (∀ p, (∀ m ∈ ms, lua_gettable s.movements_on_points m ≠ some p) → t.tables p = s.tables p)

/-- A state in which the movements 0 and 1 drive the points 1 and 2. -/
def two_points : LuaContext :=
  (movement_api_start (movement_api_start blank [.movement 0, .table 1]).ctx
    [.movement 1, .table 2]).ctx

/-- A state in which the movements 0 and 1 both drive the point 1, after which
movement 0 is stopped. -/
def shared_point_stopped : LuaContext :=
  (movement_api_stop (movement_api_start (movement_api_start blank
    [.movement 0, .table 1]).ctx [.movement 1, .table 1]).ctx [.movement 0]).ctx

/-- A strategy that moves every movement one pixel to the right at each update. -/
def step_right : LuaContext → Ref → List Action :=
  fun s m => [.set_xy ((s.movements m).x + 1) (s.movements m).y]

/-- A state whose movements are path movements with the path "0"; table 1 is
the array {8, -1}, table 2 is the array {0, "up"}. -/
def path_example : LuaContext :=
  { blank with
    movements := fun _ => ⟨.path, 0, 0, none, none, none, true, 32, 0, [48], []⟩
    tables := fun t =>
      if t = 1 then [(.number 1, .number 8), (.number 2, .number (-1))]
      else if t = 2 then [(.number 1, .number 0), (.number 2, .string "up")]
      else [] }

/-- A state whose movements are pixel movements with the trajectory {{1, 1}};
table 1 is the array {{3, 4}, 5}, whose second entry is not a table. -/
def pixel_example : LuaContext :=
  { blank with
    movements := fun _ => ⟨.pixel, 0, 0, none, none, none, true, 0, 0, [], [(1, 1)]⟩
    tables := fun t =>
      if t = 1 then [(.number 1, .table 2), (.number 2, .number 5)]
      else if t = 2 then [(.number 1, .number 3), (.number 2, .number 4)]
      else [] }

/-- An entry of the table given to `set_trajectory` that cannot be read: its
value is not a table, or element 1 or element 2 of that table is not an integer
for `luaL_checkint`. -/
def BadTrajectoryEntry (s : LuaContext) (value : LuaValue) : Prop :=
  (∀ xy, value ≠ .table xy) ∨
  ∃ xy, value = .table xy ∧
    (lua_tointeger (lua_rawgeti (s.tables xy) 1) = none ∨
      lua_tointeger (lua_rawgeti (s.tables xy) 2) = none)

/-- An entry of the table given to `set_trajectory` that reads as the pair `p`. -/
def ReadsAs (s : LuaContext) (entry : LuaValue × LuaValue) (p : Int × Int) : Prop :=
  ∃ xy, entry.2 = .table xy ∧ lua_tointeger (lua_rawgeti (s.tables xy) 1) = some p.1 ∧
    lua_tointeger (lua_rawgeti (s.tables xy) 2) = some p.2

/-- The state `t` has, in every table, the entries of `s` under every key other
than "x" and "y". -/
def SameOtherFields (s t : LuaContext) : Prop :=
  ∀ (p : Ref) (key : LuaValue), key ≠ .string "x" → key ≠ .string "y" →
    lua_gettable (t.tables p) key = lua_gettable (s.tables p) key

/-- What `start_movement_on_point` leaves when it returns: the entry
movement -> point in the registry, the movement at (x, y), the fields x and y
of the point holding x and y, and the other fields of the point as in `s`. -/
def PointStarted (s : LuaContext) (m point : Ref) (x y : Int) (r : CallResult) : Prop :=
  r.error = none ∧
  r.ctx.movements_on_points = lua_settable s.movements_on_points m (some point) ∧
  lua_gettable r.ctx.movements_on_points m = some point ∧
  (r.ctx.movements m).x = x ∧ (r.ctx.movements m).y = y ∧
  lua_getfield (r.ctx.tables point) "x" = .number x ∧
  lua_getfield (r.ctx.tables point) "y" = .number y ∧
  (∀ key : LuaValue, key ≠ .string "x" → key ≠ .string "y" →
    lua_gettable (r.ctx.tables point) key = lua_gettable (s.tables point) key)

/-- A state in which table 1 is a point with the field x at 7 and no field y. -/
def point_example : LuaContext :=
  { blank with tables := fun t => if t = 1 then [(.string "x", .number 7)] else [] }

/-- A state in which movement 0 drives the point 1 and holds the callback 7. -/
def started_with_callback : LuaContext :=
  (movement_api_start blank [.movement 0, .table 1, .function 7]).ctx

/-- The table writes of `movement_on_position_changed`: the coordinates of the
movement go to the fields x and y of the point it drives, if it drives one. -/
def sync_point (s : LuaContext) (m : Ref) : LuaContext :=
  match lua_gettable s.movements_on_points m with
  | some xy =>
    (s.lua_setfield xy "x" (.number (s.movements m).x)).lua_setfield xy "y"
      (.number (s.movements m).y)
  | none => s

/-- A projection of the movement state that does not read the position nor the
flag `known_to_lua`. -/
def PositionBlind {α : Type} (π : Movement → α) : Prop :=
  ∀ (mv : Movement) (x y : Int) (b : Bool),
    π { mv with x := x, y := y, known_to_lua := b } = π mv

/-- A state in which scripts defined the handler `on_finished` on movement 0. -/
def with_on_finished : LuaContext :=
  { blank with userdata_fields := fun m => if m = 0 then ["on_finished"] else [] }

/-- Every movement known to Lua in `s` is known to Lua in `t`. -/
def KnownKept (s t : LuaContext) : Prop :=
  ∀ i, (s.movements i).known_to_lua = true → (t.movements i).known_to_lua = true

/-- Every movement that is registered on a point is known to Lua. -/
def RegisteredKnown (s : LuaContext) : Prop :=
  ∀ m p, lua_gettable s.movements_on_points m = some p → (s.movements m).known_to_lua = true

/-- The end of `movement_api_start` (lines 505-520): the dispatch on the
subject, in the state `s` where the movement has been stopped and the callback
`callback_ref`, if any, stored. -/
def start_on_subject (s : LuaContext) (callback_ref : Option Ref) (m : Ref)
    (subject : LuaValue) : CallResult :=
  match subject with
  | .table point => start_movement_on_point s m point
  | .entity entity =>
    ⟨MapEntity.set_movement (MapEntity.clear_movement s entity) entity m, none⟩
  | .drawable drawable => ⟨Drawable.start_movement s drawable m, none⟩
  | _ => ⟨cancel_callback s callback_ref, some (.type_error 2 "table, entity or drawable")⟩

/-- The states reached from `s0` by the operations of the engine that work on
movements and on the registry: `movement:start`, `movement:stop`, the update
sweep, a position change and a bare "position changed" notification. -/
inductive Runs (s0 : LuaContext) : LuaContext → Prop where
  | init : Runs s0 s0
  | start (s : LuaContext) (args : List LuaValue) :
      Runs s0 s → Runs s0 (movement_api_start s args).ctx
  | stop (s : LuaContext) (args : List LuaValue) :
      Runs s0 s → Runs s0 (movement_api_stop s args).ctx
  | sweep (s : LuaContext) (strategy : LuaContext → Ref → List Action) :
      Runs s0 s → Runs s0 (update_movements strategy s)
  | set_xy (s : LuaContext) (m : Ref) (x y : Int) :
      Runs s0 s → Runs s0 (Movement.set_xy s m x y)
  | notify (s : LuaContext) (m : Ref) :
      Runs s0 s → Runs s0 (movement_on_position_changed s m)

/-- The point `p` equals `movement.get_xy()` of the movement `m`: its fields x
and y hold the coordinates of the movement. -/
def point_equals_xy (s : LuaContext) (m p : Ref) : Prop :=
  lua_getfield (s.tables p) "x" = .number (s.movements m).x ∧
  lua_getfield (s.tables p) "y" = .number (s.movements m).y

/-- The loop of `update_movements` (lines 376-380) for any `update()`, which may
run scripts that clear entries of the registry. `lua_next` goes through the
entries found when the sweep starts, in their order, and passes over an entry
cleared in the meantime (Lua allows clearing fields during a traversal;
adding one is undefined behaviour). `calls` collects the movements on which
`update()` is called. -/
def update_movements_loop (update : LuaContext → Ref → LuaContext) :
    List (Ref × Ref) → LuaContext → List Ref → LuaContext × List Ref
  | [], s, calls => (s, calls)
  | e :: rest, s, calls =>
    if (lua_gettable s.movements_on_points e.1).isSome then
      update_movements_loop update rest (update s e.1) (calls ++ [e.1])
    else update_movements_loop update rest s calls

/-- Embedding of `LuaContext::update_movements` (lines 372-382) for any
`update()`: the state after the sweep and the movements updated, in order. -/
def update_movements_with (update : LuaContext → Ref → LuaContext) (s : LuaContext) :
    LuaContext × List Ref :=
  update_movements_loop update s.movements_on_points s []

/-! ## The registry as a weak table -/

/-- The metatable given to the registry by `register_movement_module` (lines
221-227): its only field is `__mode = "v"`. -/
def movements_on_points_metatable : LuaTable :=
  lua_settable [] (.string "__mode") (some (.string "v"))

/-- Embedding of the end of `LuaContext::register_movement_module` (lines
217-230): a new, empty table is stored as `sol.movements_on_points`; its
metatable is `movements_on_points_metatable`. -/
def register_movement_module (s : LuaContext) : LuaContext :=
  { s with movements_on_points := [] }

/-- Lua library: a table has weak values when the field `__mode` of its
metatable is a string that contains the letter v. -/
def has_weak_values (metatable : LuaTable) : Bool :=
  match lua_getfield metatable "__mode" with
  | .string mode => mode.data.contains 'v'
  | _ => false

/-- Lua library: a table has weak keys when the field `__mode` of its
metatable is a string that contains the letter k. -/
def has_weak_keys (metatable : LuaTable) : Bool :=
  match lua_getfield metatable "__mode" with
  | .string mode => mode.data.contains 'k'
  | _ => false

/-- Lua library: what a cycle of the garbage collector does to the registry.
`point_referenced p` tells whether the table `p` is still referenced from
outside the registry (by its external owner), `movement_referenced m` the same
for the userdata of the movement `m`. A table with weak values loses the
entries whose value is no longer referenced, a table with weak keys those
whose key is no longer referenced; a reference held by the table itself counts
only when it is a strong one. -/
def collectgarbage (metatable : LuaTable) (point_referenced movement_referenced : Ref → Bool)
    (s : LuaContext) : LuaContext :=
  { s with movements_on_points := s.movements_on_points.filter (fun e =>
      (!has_weak_values metatable || point_referenced e.2) &&
        (!has_weak_keys metatable || movement_referenced e.1)) }

/-! ## Getters of the path and of the trajectory -/

/-- The conversion of a `char` of the path to `int` in `path[i] - '0'`, `char`
being a signed byte. -/
def char_to_int (c : Nat) : Int :=
  if c % 256 < 128 then (c % 256 : Nat) else (c % 256 : Nat) - 256

/-- The loop of `path_movement_api_get_path` (lines 992-996), from the index
`i` on: `lua_rawseti(l, 2, int(i))` stores `path[i] - '0'` under the key `i`. -/
def get_path_loop (path : List Nat) (i : Nat) (t : LuaTable) : LuaTable :=
  match path with
  | [] => t
  | c :: rest =>
    get_path_loop rest (i + 1)
      (lua_settable t (.number (i : Nat)) (some (.number (char_to_int c - 48))))

/-- Embedding of `LuaContext::path_movement_api_get_path` (lines 984-999). The
new table that the binding returns is given by its entries. -/
def path_movement_api_get_path (s : LuaContext) (movement : LuaValue) :
    Except LuaError LuaTable :=
  match check_userdata s [movement] 1 .path with
  | .error e => .error e
  | .ok m => .ok (get_path_loop (s.movements m).path 0 [])

/-- The table built for one step of the trajectory (lines 1604-1608): x under
the key 1 and y under the key 2. -/
def trajectory_pair (xy : Int × Int) : LuaTable :=
  lua_settable (lua_settable [] (.number 1) (some (.number xy.1))) (.number 2)
    (some (.number xy.2))

/-- The loop of `pixel_movement_api_get_trajectory` (lines 1602-1611), from the
index `i` on: `lua_rawseti(l, 2, i)` stores the table of the step under the key
`i`. A table held as a value is given by its entries. -/
def get_trajectory_loop (trajectory : List (Int × Int)) (i : Nat)
    (t : Table LuaValue LuaTable) : Table LuaValue LuaTable :=
  match trajectory with
  | [] => t
  | xy :: rest =>
    get_trajectory_loop rest (i + 1)
      (lua_settable t (.number (i : Nat)) (some (trajectory_pair xy)))

/-- Embedding of `LuaContext::pixel_movement_api_get_trajectory` (lines
1592-1614). The new table that the binding returns is given by its entries,
each of them a new table given by its entries. -/
def pixel_movement_api_get_trajectory (s : LuaContext) (movement : LuaValue) :
    Except LuaError (Table LuaValue LuaTable) :=
  match check_userdata s [movement] 1 .pixel with
  | .error e => .error e
  | .ok m => .ok (get_trajectory_loop (s.movements m).trajectory 0 [])

/-- A state whose movements are path movements with an empty path; table 1 is
the array {0, 2, 4}. -/
def path_roundtrip_example : LuaContext :=
  { blank with
    movements := fun _ => ⟨.path, 0, 0, none, none, none, true, 32, 0, [], []⟩
    tables := fun t =>
      if t = 1 then [(.number 1, .number 0), (.number 2, .number 2), (.number 3, .number 4)]
      else [] }

/-- A state whose movements are pixel movements with an empty trajectory; table
1 is the array {{1, 2}, {3, 4}}, whose entries are the tables 2 and 3. -/
def trajectory_roundtrip_example : LuaContext :=
  { blank with
    movements := fun _ => ⟨.pixel, 0, 0, none, none, none, true, 0, 0, [], []⟩
    tables := fun t =>
      if t = 1 then [(.number 1, .table 2), (.number 2, .table 3)]
      else if t = 2 then [(.number 1, .number 1), (.number 2, .number 2)]
      else if t = 3 then [(.number 1, .number 3), (.number 2, .number 4)]
      else [] }

/-! # Savegame (`src/Savegame.cpp`) -/

/-- Modelled from the spec: the declaration of `SavedValue` (in `Savegame.h`) is
missing from the sources; these are the three types of saved value that
`Savegame.cpp` names. -/
inductive SavedValueType where
  | VALUE_STRING
  | VALUE_INTEGER
  | VALUE_BOOLEAN
  deriving DecidableEq, Repr

/-- Modelled from the spec: the declaration of `SavedValue` (in `Savegame.h`) is
missing from the sources; these are the three members that `Savegame.cpp` reads
and writes. -/
structure SavedValue where
  type : SavedValueType
  string_data : String
  int_data : Int
  deriving DecidableEq, Repr

/-- The `SavedValue()` that `saved_values[key]` inserts for a key that is not in
the map: value-initialized, so an empty string and a zero integer. -/
def SavedValue.new : SavedValue := ⟨.VALUE_STRING, "", 0⟩

/-- The member `saved_values`, a `std::map<std::string, SavedValue>`: its
entries in the order of iteration, which is the increasing order of the keys. -/
abbrev SavedValues := List (String × SavedValue)

/-- Standard library `saved_values.find(key)`: the value of the entry of `key`,
`none` for `saved_values.end()`. -/
def map_find (values : SavedValues) (key : String) : Option SavedValue :=
  match values with
  | [] => none
  | (k, v) :: rest => if k = key then some v else map_find rest key

/-- Standard library `saved_values[key]` followed by the write `f` to the
element referred to: the entry of `key` is written where it stands; when there
is none, a new `SavedValue()` is inserted at the place of `key` in the order of
the keys, and written. -/
def map_index (values : SavedValues) (key : String) (f : SavedValue → SavedValue) :
    SavedValues :=
  match values with
  | [] => [(key, f SavedValue.new)]
  | (k, v) :: rest =>
    if k = key then (k, f v) :: rest
    else if key < k then (key, f SavedValue.new) :: (k, v) :: rest
    else (k, v) :: map_index rest key f

/-- Standard library `saved_values.erase(key)`: the entry of `key` is removed. -/
def map_erase (values : SavedValues) (key : String) : SavedValues :=
  values.filter (fun e => decide (e.1 ≠ key))

/-- The members of `Savegame` that the accessors of saved values and `save()`
read and write. -/
structure Savegame where
  empty : Bool
  saved_values : SavedValues
  deriving DecidableEq, Repr

/-- Modelled from the spec: `LuaContext::is_valid_lua_identifier` is missing
from the sources; a Lua identifier is a non-empty string of letters, digits and
underscores that does not begin with a digit. -/
def is_valid_lua_identifier (name : String) : Bool :=
  match name.data with
  | [] => false
  | c :: rest =>
    !c.isDigit && (c :: rest).all (fun d => d.isAlphanum || d = '_')

/-- The message of the assertion on the key, common to all accessors. -/
def not_a_valid_key (key : String) : String :=
  "Savegame variable '" ++ key ++ "' is not a valid key"

/-- The assertion on the key made with `SOLARUS_ASSERT` in the `const`
accessors. The macro is missing from the sources: `debug` tells whether it
checks its condition, as `Debug::check_assertion` does, or expands to nothing.
A failed assertion stops the program with the message. -/
def solarus_assert (debug : Bool) (condition : Bool) (message : String) : Except String Unit :=
  if debug && !condition then .error message else .ok ()

/-- Modelled from the spec: `Debug::check_assertion` is missing from the
sources; it stops the program with the message when the condition is false. -/
def check_assertion (condition : Bool) (message : String) : Except String Unit :=
  if condition then .ok () else .error message

/-- Embedding of `Savegame::is_string` (lines 373-385). A `const` method: the
savegame is returned as it was, next to the result. -/
def Savegame.is_string (debug : Bool) (s : Savegame) (key : String) :
    Except String (Bool × Savegame) :=
  match solarus_assert debug (is_valid_lua_identifier key) (not_a_valid_key key) with
  | .error e => .error e
  | .ok _ =>
    match map_find s.saved_values key with
    | some value => .ok (decide (value.type = .VALUE_STRING), s)
    | none => .ok (false, s)

/-- Embedding of `Savegame::get_string` (lines 392-407). -/
def Savegame.get_string (debug : Bool) (s : Savegame) (key : String) :
    Except String (String × Savegame) :=
  match solarus_assert debug (is_valid_lua_identifier key) (not_a_valid_key key) with
  | .error e => .error e
  | .ok _ =>
    match map_find s.saved_values key with
    | some value =>
      match solarus_assert debug (decide (value.type = .VALUE_STRING))
          ("Value '" ++ key ++ "' is not a string") with
      | .error e => .error e
      | .ok _ => .ok (value.string_data, s)
    | none => .ok ("", s)

/-- Embedding of `Savegame::set_string` (lines 414-421). -/
def Savegame.set_string (s : Savegame) (key : String) (value : String) :
    Except String Savegame :=
  match check_assertion (is_valid_lua_identifier key) (not_a_valid_key key) with
  | .error e => .error e
  | .ok _ =>
    let values1 := map_index s.saved_values key (fun v => { v with type := .VALUE_STRING })
    .ok { s with saved_values := map_index values1 key (fun v => { v with string_data := value }) }

/-- Embedding of `Savegame::is_integer` (lines 428-440). -/
def Savegame.is_integer (debug : Bool) (s : Savegame) (key : String) :
    Except String (Bool × Savegame) :=
  match solarus_assert debug (is_valid_lua_identifier key) (not_a_valid_key key) with
  | .error e => .error e
  | .ok _ =>
    match map_find s.saved_values key with
    | some value => .ok (decide (value.type = .VALUE_INTEGER), s)
    | none => .ok (false, s)

/-- Embedding of `Savegame::get_integer` (lines 447-461). -/
def Savegame.get_integer (debug : Bool) (s : Savegame) (key : String) :
    Except String (Int × Savegame) :=
  match solarus_assert debug (is_valid_lua_identifier key) (not_a_valid_key key) with
  | .error e => .error e
  | .ok _ =>
    match map_find s.saved_values key with
    | some value =>
      match solarus_assert debug (decide (value.type = .VALUE_INTEGER))
          ("Value '" ++ key ++ "' is not an integer") with
      | .error e => .error e
      | .ok _ => .ok (value.int_data, s)
    | none => .ok (0, s)

/-- Embedding of `Savegame::set_integer` (lines 468-475). `value` is an `int`. -/
def Savegame.set_integer (s : Savegame) (key : String) (value : Int) :
    Except String Savegame :=
  match check_assertion (is_valid_lua_identifier key) (not_a_valid_key key) with
  | .error e => .error e
  | .ok _ =>
    let values1 := map_index s.saved_values key (fun v => { v with type := .VALUE_INTEGER })
    .ok { s with saved_values := map_index values1 key (fun v => { v with int_data := value }) }

/-- Embedding of `Savegame::is_boolean` (lines 482-494). -/
def Savegame.is_boolean (debug : Bool) (s : Savegame) (key : String) :
    Except String (Bool × Savegame) :=
  match solarus_assert debug (is_valid_lua_identifier key) (not_a_valid_key key) with
  | .error e => .error e
  | .ok _ =>
    match map_find s.saved_values key with
    | some value => .ok (decide (value.type = .VALUE_BOOLEAN), s)
    | none => .ok (false, s)

/-- Embedding of `Savegame::get_boolean` (lines 501-515). -/
def Savegame.get_boolean (debug : Bool) (s : Savegame) (key : String) :
    Except String (Bool × Savegame) :=
  match solarus_assert debug (is_valid_lua_identifier key) (not_a_valid_key key) with
  | .error e => .error e
  | .ok _ =>
    match map_find s.saved_values key with
    | some value =>
      match solarus_assert debug (decide (value.type = .VALUE_BOOLEAN))
          ("Value '" ++ key ++ "' is not a boolean") with
      | .error e => .error e
      | .ok _ => .ok (decide (value.int_data ≠ 0), s)
    | none => .ok (false, s)

/-- Embedding of `Savegame::set_boolean` (lines 522-529): the `bool` is stored
in `int_data` as 1 or 0. -/
def Savegame.set_boolean (s : Savegame) (key : String) (value : Bool) :
    Except String Savegame :=
  match check_assertion (is_valid_lua_identifier key) (not_a_valid_key key) with
  | .error e => .error e
  | .ok _ =>
    let values1 := map_index s.saved_values key (fun v => { v with type := .VALUE_BOOLEAN })
    let values2 := map_index values1 key (fun v => { v with int_data := if value then 1 else 0 })
    .ok { s with saved_values := values2 }

/-- Embedding of `Savegame::unset` (lines 535-541). -/
def Savegame.unset (s : Savegame) (key : String) : Except String Savegame :=
  match check_assertion (is_valid_lua_identifier key) (not_a_valid_key key) with
  | .error e => .error e
  | .ok _ => .ok { s with saved_values := map_erase s.saved_values key }

/-- The type of the value saved under `key`, if there is one. -/
def saved_type (s : Savegame) (key : String) : Option SavedValueType :=
  (map_find s.saved_values key).map SavedValue.type

/-- A savegame with the integer 7 under `life`, the string "sword" under
`item` and the boolean true under `open`. -/
def savegame_example : Savegame :=
  ⟨false, [("item", ⟨.VALUE_STRING, "sword", 0⟩), ("life", ⟨.VALUE_INTEGER, "", 7⟩),
    ("open", ⟨.VALUE_BOOLEAN, "", 1⟩)]⟩

/-- Whether a call of `is_string`, `is_integer` or `is_boolean` returned true. -/
def returns_true : Except String (Bool × Savegame) → Bool
  | .ok (b, _) => b
  | .error _ => false

/-! ## Saving and loading (`Savegame::save`, `Savegame::l_newindex`) -/

/-- Embedding of `Savegame::is_empty` (lines 111-113). -/
def Savegame.is_empty (s : Savegame) : Bool := s.empty

/-- The loop of `Savegame::save` (lines 272-287) over the entries that are left
to visit, `oss` being the text written so far. `oss << value.int_data` writes
the `int` in decimal, with a minus sign when it is negative. -/
def save_loop : SavedValues → String → String
  | [], oss => oss
  | (key, value) :: rest, oss =>
    let oss1 := oss ++ key ++ " = "
    let oss2 :=
      if value.type = .VALUE_BOOLEAN then
        oss1 ++ (if value.int_data ≠ 0 then "true" else "false")
      else if value.type = .VALUE_INTEGER then
        oss1 ++ toString value.int_data
      else
        oss1 ++ "\"" ++ value.string_data ++ "\""
    save_loop rest (oss2 ++ "\n")

/-- Embedding of `Savegame::save` (lines 270-292): the text handed to
`FileTools::data_file_save_buffer` for the file of the savegame, and the
savegame after the call. -/
def Savegame.save (s : Savegame) : String × Savegame :=
  (save_loop s.saved_values "", { s with empty := false })

/-- Lua library `lua_toboolean`: false for nil and false, true for any other
value. -/
def lua_toboolean (v : LuaValue) : Bool :=
  match v with
  | .nil => false
  | .boolean b => b
  | _ => true

/-- Outcome of `l_newindex`: it returns to Lua, or it raises a Lua error (the
savegame is the one reached when the error was raised), or a failed assertion
stops the program with a message. -/
inductive NewindexResult where
  | returned (s : Savegame)
  | raised (e : LuaError) (s : Savegame)
  | stopped (message : String)
  deriving DecidableEq, Repr

/-- Outcome of `l_newindex` when its last statement before `return 0` is the
call of a setter. -/
def NewindexResult.of_setter : Except String Savegame → NewindexResult
  | .ok s => .returned s
  | .error message => .stopped message

/-- Embedding of `Savegame::l_newindex` (lines 239-266), the `__newindex` of the
environment of the savegame file. `s` is the savegame found in the registry;
`args` are the table, the key and the value of the assignment. The `switch` on
`lua_type(l, 3)` is the match on the kind of the value. -/
def l_newindex (s : Savegame) (args : List LuaValue) : NewindexResult :=
  match luaL_checkstring args 2 with
  | .error e => .raised e s
  | .ok chars =>
    let key := std_string chars
    match arg args 3 with
    | .boolean b => .of_setter (s.set_boolean key (lua_toboolean (.boolean b)))
    | .number n => .of_setter (s.set_integer key (to_int ((lua_tointeger (.number n)).getD 0)))
    | .string value => .of_setter (s.set_string key (std_string value))
    | _ => .raised (.type_error 3 "string, number or boolean") s

/-- The savegames that the operations on saved values can reach from a savegame
with no saved value: calls of the setters, of `unset`, of `save` and of
`l_newindex` that return. A call stopped by an assertion or by a Lua error
leaves no new savegame. -/
inductive Reached : Savegame → Prop where
  | new (empty : Bool) : Reached ⟨empty, []⟩
  | set_string {s t : Savegame} (key value : String) :
    Reached s → s.set_string key value = .ok t → Reached t
  | set_integer {s t : Savegame} (key : String) (value : Int) :
    Reached s → s.set_integer key value = .ok t → Reached t
  | set_boolean {s t : Savegame} (key : String) (value : Bool) :
    Reached s → s.set_boolean key value = .ok t → Reached t
  | unset {s t : Savegame} (key : String) :
    Reached s → s.unset key = .ok t → Reached t
  | save {s : Savegame} : Reached s → Reached s.save.2
  | l_newindex {s t : Savegame} (args : List LuaValue) :
    Reached s → l_newindex s args = .returned t → Reached t

/-- The value of an entry as the statement on `save()` words it: `true` or
`false` for a boolean, the decimal text for an integer, the string between
double quotes for a string. -/
def value_text (value : SavedValue) : String :=
  match value.type with
  | .VALUE_BOOLEAN => if value.int_data ≠ 0 then "true" else "false"
  | .VALUE_INTEGER => toString value.int_data
  | .VALUE_STRING => "\"" ++ value.string_data ++ "\""

/-- The line of an entry as the statement on `save()` words it: `key = value`
ended by a newline. -/
def saved_line (entry : String × SavedValue) : String :=
  entry.1 ++ " = " ++ value_text entry.2 ++ "\n"

/-- A savegame with no saved value. -/
def no_saved_value : Savegame := ⟨true, []⟩

/-- A savegame with one string, which holds a double quote and a newline. -/
def one_string_example : Savegame :=
  ⟨true, [("a", ⟨.VALUE_STRING, "x\"\nb = \"y", 0⟩)]⟩

/-- A savegame with two strings. -/
def two_strings_example : Savegame :=
  ⟨true, [("a", ⟨.VALUE_STRING, "x", 0⟩), ("b", ⟨.VALUE_STRING, "y", 0⟩)]⟩

/-- The text of the saved values as the statement on `save()` words it: the
lines of the entries, one after the other. -/
def saved_text : SavedValues → String
  | [] => ""
  | entry :: rest => saved_line entry ++ saved_text rest

/-- What `save()` writes of a saved value, and so what a reader of the text can
tell apart: the type, and the data of that type (a boolean is its `int_data`
compared with 0). -/
def same_saved_value (v w : SavedValue) : Prop :=
  v.type = w.type ∧
  match v.type with
  | .VALUE_STRING => v.string_data = w.string_data
  | .VALUE_INTEGER => v.int_data = w.int_data
  | .VALUE_BOOLEAN => (v.int_data ≠ 0 ↔ w.int_data ≠ 0)

/-- No string among the saved values holds a newline. -/
def NoNewline (values : SavedValues) : Prop :=
  ∀ e ∈ values, e.2.type = .VALUE_STRING → '\n' ∉ e.2.string_data.data

/-- A state whose movements are pixel movements with the trajectory {{1, 1}};
table 1 is the array {{"3", "4"}}: the two elements of its entry are strings. -/
def numeric_strings_example : LuaContext :=
  { blank with
    movements := fun _ => ⟨.pixel, 0, 0, none, none, none, true, 0, 0, [], [(1, 1)]⟩
    tables := fun t =>
      if t = 1 then [(.number 1, .table 2)]
      else if t = 2 then [(.number 1, .string "3"), (.number 2, .string "4")]
      else [] }

/-- An `update()` that, run for movement 0, stops movement 1, as the script of a
handler that calls `movement:stop()` on another movement does; run for any
other movement it does nothing. -/
def update_stopping_other : LuaContext → Ref → LuaContext :=
  fun s m => if m = 0 then stop_movement_on_point s 1 else s

/-! # Theorems -/

/-! ## The factory -/

theorem std_string_module_name (k : MovementKind) :
    std_string k.module_name = k.module_name := by
  cases k <;> decide

/-- C1 (amended). `sol.movement.create(name)` reads the name as a C string, the
characters before its first NUL: when that is one of the nine names it returns
a movement of the kind of that name (so for each of the nine names themselves,
and distinct names give distinct kinds), and for every other string it raises
an argument error on argument 1: no movement is returned. -/
theorem C1_create_by_name (hero : Option Ref) :
    (∀ k : MovementKind, ∃ mv,
        movement_api_create hero [.string k.module_name] = .ok mv ∧ mv.kind = k) ∧
    Function.Injective MovementKind.module_name ∧
    (∀ (s : String) (k : MovementKind), std_string s = k.module_name →
        ∃ mv, movement_api_create hero [.string s] = .ok mv ∧ mv.kind = k) ∧
    (∀ s : String, (∀ k : MovementKind, std_string s ≠ k.module_name) →
        ∃ message, movement_api_create hero [.string s] = .error (.arg_error 1 message)) := by
  have h3 : ∀ (s : String) (k : MovementKind), std_string s = k.module_name →
      ∃ mv, movement_api_create hero [.string s] = .ok mv ∧ mv.kind = k := by
    intro s k h
    cases k <;> cases hero <;> simp only [MovementKind.module_name] at h <;>
      simp [movement_api_create, luaL_checkstring, arg, NewMovement.kind, h]
  refine ⟨fun k => h3 _ k (std_string_module_name k), ?_, h3, ?_⟩
  · intro a b h
    cases a <;> cases b <;> first | rfl | (exact absurd h (by decide))
  · intro s hs
    have h1 := hs .straight
    have h2 := hs .random
    have h3 := hs .target
    have h4 := hs .path
    have h5 := hs .random_path
    have h6 := hs .path_finding
    have h7 := hs .circle
    have h8 := hs .jump
    have h9 := hs .pixel
    simp only [MovementKind.module_name] at h1 h2 h3 h4 h5 h6 h7 h8 h9
    simp [movement_api_create, luaL_checkstring, arg, h1, h2, h3, h4, h5, h6, h7, h8, h9]

/-- Witness of C1 (amended): the name `straight` followed by a NUL and other
characters creates a straight movement; the name `fly` is refused. -/
theorem C1_create_by_name_witness :
    std_string "straight\x00junk" = "straight" ∧
    (∃ mv, movement_api_create none [.string "straight\x00junk"] = .ok mv ∧
      mv.kind = .straight) ∧
    ∃ message, movement_api_create none [.string "fly"] = .error (.arg_error 1 message) :=
  ⟨by decide,
    (C1_create_by_name none).2.2.1 "straight\x00junk" .straight (by decide),
    (C1_create_by_name none).2.2.2 "fly" (by intro k; cases k <;> decide)⟩

/-- C1, as stated, fails: the string made of `straight`, a NUL and `junk` is
none of the nine names, and `sol.movement.create` given it raises no error and
creates a straight movement. -/
theorem C1_other_string_is_accepted_counterexample :
    (∀ k : MovementKind, "straight\x00junk" ≠ k.module_name) ∧
    movement_api_create none [.string "straight\x00junk"] =
      .ok (.StraightMovement false true) :=
  ⟨by intro k; cases k <;> decide, rfl⟩

/-! ## Tables and maps -/

@[simp] theorem upd_same {α : Type} (f : Ref → α) (k : Ref) (v : α) : upd f k v k = v := by
  simp [upd]

theorem upd_other {α : Type} (f : Ref → α) (k : Ref) (v : α) (i : Ref) (h : i ≠ k) :
    upd f k v i = f i := by
  simp [upd, h]

theorem upd_apply {α : Type} (f : Ref → α) (k : Ref) (v : α) (i : Ref) :
    upd f k v i = if i = k then v else f i := rfl

theorem gettable_cons {κ ν : Type} [DecidableEq κ] (k1 : κ) (v : ν) (rest : Table κ ν) (k : κ) :
    lua_gettable ((k1, v) :: rest) k = if k1 = k then some v else lua_gettable rest k := rfl

theorem gettable_remove_self {κ ν : Type} [DecidableEq κ] (t : Table κ ν) (k : κ) :
    lua_gettable (lua_settable t k none) k = none := by
  induction t with
  | nil => rfl
  | cons e rest ih =>
    obtain ⟨k1, v⟩ := e
    simp only [lua_settable] at ih ⊢
    by_cases h : k1 = k
    · simpa [List.filter_cons, h] using ih
    · simpa [List.filter_cons, h, gettable_cons] using ih

theorem gettable_remove_other {κ ν : Type} [DecidableEq κ] (t : Table κ ν) (k k2 : κ)
    (hk : k2 ≠ k) : lua_gettable (lua_settable t k none) k2 = lua_gettable t k2 := by
  induction t with
  | nil => rfl
  | cons e rest ih =>
    obtain ⟨k1, v⟩ := e
    simp only [lua_settable] at ih ⊢
    by_cases h : k1 = k
    · subst h
      have h2 : k1 ≠ k2 := fun h3 => hk h3.symm
      simpa [List.filter_cons, gettable_cons, h2] using ih
    · by_cases h2 : k1 = k2
      · subst h2
        simp [List.filter_cons, h, gettable_cons]
      · simpa [List.filter_cons, h, gettable_cons, h2] using ih

theorem gettable_append_absent {κ ν : Type} [DecidableEq κ] (t : Table κ ν) (k k2 : κ) (w : ν)
    (h : lua_gettable t k = none) :
    lua_gettable (t ++ [(k, w)]) k2 = if k = k2 then some w else lua_gettable t k2 := by
  induction t with
  | nil => simp [lua_gettable]
  | cons e rest ih =>
    obtain ⟨k1, v⟩ := e
    by_cases h1 : k1 = k
    · simp [gettable_cons, h1] at h
    · have hrest : lua_gettable rest k = none := by simpa [gettable_cons, h1] using h
      by_cases h2 : k1 = k2
      · have h3 : k ≠ k2 := fun h4 => h1 (h2.trans h4.symm)
        simp [gettable_cons, h2, h3]
      · simp [gettable_cons, h2, ih hrest]

theorem gettable_replace {κ ν : Type} [DecidableEq κ] (t : Table κ ν) (k k2 : κ) (w : ν) :
    lua_gettable (t.map (fun e => if e.1 = k then (k, w) else e)) k2 =
      if k = k2 then (lua_gettable t k).map (fun _ => w) else lua_gettable t k2 := by
  induction t with
  | nil => simp [lua_gettable]
  | cons e rest ih =>
    obtain ⟨k1, v⟩ := e
    rw [List.map_cons]
    by_cases h1 : k1 = k
    · subst h1
      rw [if_pos rfl, gettable_cons, gettable_cons, gettable_cons, ih]
      by_cases h2 : k1 = k2
      · simp [h2]
      · simp [h2]
    · rw [if_neg h1, gettable_cons, gettable_cons, gettable_cons, ih]
      by_cases h2 : k = k2
      · subst h2
        simp [h1]
      · simp [h1, h2]

theorem gettable_set_self {κ ν : Type} [DecidableEq κ] (t : Table κ ν) (k : κ) (w : ν) :
    lua_gettable (lua_settable t k (some w)) k = some w := by
  unfold lua_settable
  cases h : lua_gettable t k with
  | none => simp [gettable_append_absent t k k w h]
  | some v => simp [gettable_replace, h]

theorem gettable_set_other {κ ν : Type} [DecidableEq κ] (t : Table κ ν) (k k2 : κ) (w : ν)
    (hk : k2 ≠ k) : lua_gettable (lua_settable t k (some w)) k2 = lua_gettable t k2 := by
  have hk2 : ¬ k = k2 := fun h => hk h.symm
  unfold lua_settable
  cases h : lua_gettable t k with
  | none => simp [gettable_append_absent t k k2 w h, hk2]
  | some v => simp [gettable_replace, hk2]

theorem gettable_settable_other {κ ν : Type} [DecidableEq κ] (t : Table κ ν) (k k2 : κ)
    (v : Option ν) (hk : k2 ≠ k) : lua_gettable (lua_settable t k v) k2 = lua_gettable t k2 := by
  cases v with
  | none => exact gettable_remove_other t k k2 hk
  | some w => exact gettable_set_other t k k2 w hk

/-! ## Frame lemmas: what keeps the bindings -/

theorem modify_movement_movements (s : LuaContext) (m : Ref) (f : Movement → Movement)
    (i : Ref) :
    (s.modify_movement m f).movements i = if i = m then f (s.movements m) else s.movements i :=
  rfl

@[simp] theorem modify_movement_movements_on_points (s : LuaContext) (m : Ref)
    (f : Movement → Movement) :
    (s.modify_movement m f).movements_on_points = s.movements_on_points := rfl

theorem sameBindings_refl (s : LuaContext) : SameBindings s s :=
  ⟨fun _ => rfl, fun _ => rfl, rfl, rfl, rfl⟩

theorem SameBindings.sb_trans {s t u : LuaContext} (h1 : SameBindings s t)
    (h2 : SameBindings t u) : SameBindings s u :=
  ⟨fun m => (h2.1 m).trans (h1.1 m), fun m => (h2.2.1 m).trans (h1.2.1 m),
    h2.2.2.1.trans h1.2.2.1, h2.2.2.2.1.trans h1.2.2.2.1, h2.2.2.2.2.trans h1.2.2.2.2⟩

theorem sameBindings_modify (s : LuaContext) (m : Ref) (f : Movement → Movement)
    (h1 : ∀ mv, (f mv).entity = mv.entity) (h2 : ∀ mv, (f mv).drawable = mv.drawable) :
    SameBindings s (s.modify_movement m f) := by
  refine ⟨fun i => ?_, fun i => ?_, rfl, rfl, rfl⟩
  · rw [modify_movement_movements]
    split
    · next h => rw [h1, h]
    · rfl
  · rw [modify_movement_movements]
    split
    · next h => rw [h2, h]
    · rfl

theorem sameBindings_push_movement (s : LuaContext) (m : Ref) :
    SameBindings s (push_movement s m) :=
  sameBindings_modify s m (fun mv => { mv with known_to_lua := true }) (fun _ => rfl)
    (fun _ => rfl)

theorem sameBindings_setfield (s : LuaContext) (t : Ref) (name : String) (v : LuaValue) :
    SameBindings s (s.lua_setfield t name v) :=
  ⟨fun _ => rfl, fun _ => rfl, rfl, rfl, rfl⟩

theorem sameBindings_call (s : LuaContext) (ev : Event) : SameBindings s (s.call ev) :=
  ⟨fun _ => rfl, fun _ => rfl, rfl, rfl, rfl⟩

theorem sameBindings_on_position_changed (s : LuaContext) (m : Ref) :
    SameBindings s (movement_on_position_changed s m) := by
  unfold movement_on_position_changed
  split
  · exact sameBindings_refl s
  · have h1 := sameBindings_push_movement s m
    have h2 : SameBindings s
        (match lua_gettable (push_movement s m).movements_on_points m with
        | some xy =>
          ((push_movement s m).lua_setfield xy "x"
            (.number ((push_movement s m).movements m).x)).lua_setfield xy "y"
            (.number ((push_movement s m).movements m).y)
        | none => push_movement s m) := by
      split
      · exact (h1.sb_trans (sameBindings_setfield _ _ _ _)).sb_trans (sameBindings_setfield _ _ _ _)
      · exact h1
    dsimp only
    split
    · exact h2.sb_trans (sameBindings_call _ _)
    · exact h2

theorem sameBindings_set_xy (s : LuaContext) (m : Ref) (x y : Int) :
    SameBindings s (Movement.set_xy s m x y) :=
  (sameBindings_modify s m (fun mv => { mv with x := x, y := y }) (fun _ => rfl)
    (fun _ => rfl)).sb_trans (sameBindings_on_position_changed _ m)

theorem sameBindings_set_y (s : LuaContext) (m : Ref) (y : Int) :
    SameBindings s (Movement.set_y s m y) :=
  sameBindings_set_xy s m _ y

theorem sameBindings_set_finished_callback (s : LuaContext) (m : Ref) (r : Option Ref) :
    SameBindings s (Movement.set_finished_callback s m r) :=
  sameBindings_modify s m (fun mv => { mv with finished_callback_ref := r }) (fun _ => rfl)
    (fun _ => rfl)

theorem sameBindings_luaL_ref (s : LuaContext) (f : Ref) : SameBindings s (luaL_ref s f) :=
  ⟨fun _ => rfl, fun _ => rfl, rfl, rfl, rfl⟩

theorem sameBindings_cancel_callback (s : LuaContext) (r : Option Ref) :
    SameBindings s (cancel_callback s r) := by
  cases r with
  | none => exact sameBindings_refl s
  | some r => exact ⟨fun _ => rfl, fun _ => rfl, rfl, rfl, rfl⟩

theorem subjects_congr {s t : LuaContext} (h : SameBindings s t) (m : Ref) :
    subjects t m = subjects s m := by
  simp [subjects, drives_entity, drives_drawable, drives_point, h.1 m, h.2.1 m, h.2.2.2.2]

theorem movement_eta_known (mv : Movement) (h : mv.known_to_lua = true) :
    { mv with known_to_lua := true } = mv := by
  cases mv
  simp only at h
  subst h
  rfl

theorem upd_self {α : Type} (f : Ref → α) (k : Ref) : upd f k (f k) = f := by
  funext i
  by_cases h : i = k
  · subst h; simp
  · simp [upd_other _ _ _ _ h]

theorem push_movement_of_known (s : LuaContext) (m : Ref)
    (h : (s.movements m).known_to_lua = true) : push_movement s m = s := by
  unfold push_movement LuaContext.modify_movement
  dsimp only
  rw [movement_eta_known _ h, upd_self]

theorem movement_on_position_changed_of_known (s : LuaContext) (m : Ref)
    (h : (s.movements m).known_to_lua = true) :
    movement_on_position_changed s m =
      if userdata_has_field s m "on_position_changed" then
        (sync_point s m).call (.on_position_changed m)
      else sync_point s m := by
  unfold movement_on_position_changed
  rw [if_neg (by simp [h]), push_movement_of_known s m h]
  have hf : userdata_has_field (sync_point s m) m "on_position_changed" =
      userdata_has_field s m "on_position_changed" := by
    unfold sync_point
    split <;> rfl
  show (if userdata_has_field (sync_point s m) m "on_position_changed" = true then _ else _) = _
  rw [hf]
  rfl

theorem sync_point_movements (s : LuaContext) (m : Ref) :
    (sync_point s m).movements = s.movements := by
  unfold sync_point
  split <;> rfl

theorem sync_point_registry (s : LuaContext) (m : Ref) :
    (sync_point s m).movements_on_points = s.movements_on_points := by
  unfold sync_point
  split <;> rfl

theorem sync_point_events (s : LuaContext) (m : Ref) :
    (sync_point s m).events = s.events := by
  unfold sync_point
  split <;> rfl

theorem movement_on_position_changed_movements (s : LuaContext) (m : Ref) :
    (movement_on_position_changed s m).movements = s.movements := by
  by_cases h : (s.movements m).known_to_lua = true
  · rw [movement_on_position_changed_of_known s m h]
    split
    · exact sync_point_movements s m
    · exact sync_point_movements s m
  · unfold movement_on_position_changed
    rw [if_pos (by simpa using h)]

theorem set_xy_movements (s : LuaContext) (m : Ref) (x y : Int) :
    (Movement.set_xy s m x y).movements =
      upd s.movements m { (s.movements m) with x := x, y := y } := by
  unfold Movement.set_xy
  rw [movement_on_position_changed_movements]
  rfl

theorem set_y_movements (s : LuaContext) (m : Ref) (y : Int) :
    (Movement.set_y s m y).movements = upd s.movements m { (s.movements m) with y := y } := by
  unfold Movement.set_y
  rw [set_xy_movements]

/-! ## Fields of a movement that `start` on a point does not touch -/

theorem keeps_push_movement {α : Type} {π : Movement → α} (hπ : PositionBlind π)
    (s : LuaContext) (m i : Ref) : π ((push_movement s m).movements i) = π (s.movements i) := by
  unfold push_movement
  rw [modify_movement_movements]
  split
  · next h => subst h; exact hπ (s.movements i) (s.movements i).x (s.movements i).y true
  · rfl

theorem keeps_set_xy {α : Type} {π : Movement → α} (hπ : PositionBlind π)
    (s : LuaContext) (m i : Ref) (x y : Int) :
    π ((Movement.set_xy s m x y).movements i) = π (s.movements i) := by
  rw [set_xy_movements, upd_apply]
  split
  · next h => subst h; exact hπ (s.movements i) x y (s.movements i).known_to_lua
  · rfl

theorem keeps_start_movement_on_point_register {α : Type} {π : Movement → α}
    (hπ : PositionBlind π) (s : LuaContext) (m point i : Ref) (x y : Int) :
    π ((start_movement_on_point_register s m point x y).ctx.movements i) = π (s.movements i) := by
  unfold start_movement_on_point_register
  exact keeps_set_xy hπ _ m i x y

theorem keeps_start_movement_on_point_y {α : Type} {π : Movement → α}
    (hπ : PositionBlind π) (s : LuaContext) (m point i : Ref) (x : Int) :
    π ((start_movement_on_point_y s m point x).ctx.movements i) = π (s.movements i) := by
  unfold start_movement_on_point_y
  dsimp only
  split
  · rw [keeps_start_movement_on_point_register hπ]
    exact keeps_set_xy hπ (s.lua_setfield point "y" (.number 0)) m i _ 0
  · split
    · exact keeps_start_movement_on_point_register hπ _ _ _ _ _ _
    · rfl

theorem keeps_start_movement_on_point {α : Type} {π : Movement → α}
    (hπ : PositionBlind π) (s : LuaContext) (m point i : Ref) :
    π ((start_movement_on_point s m point).ctx.movements i) = π (s.movements i) := by
  unfold start_movement_on_point
  dsimp only
  split
  · rw [keeps_start_movement_on_point_y hπ]
    exact keeps_push_movement hπ s m i
  · split
    · rw [keeps_start_movement_on_point_y hπ]
      exact keeps_push_movement hπ s m i
    · exact keeps_push_movement hπ s m i

theorem keeps_stop_movement_on_point {α : Type} {π : Movement → α}
    (hπ : PositionBlind π) (s : LuaContext) (m i : Ref) :
    π ((stop_movement_on_point s m).movements i) = π (s.movements i) :=
  keeps_push_movement hπ s m i

theorem positionBlind_callback : PositionBlind Movement.finished_callback_ref :=
  fun _ _ _ _ => rfl

theorem positionBlind_entity : PositionBlind Movement.entity := fun _ _ _ _ => rfl

theorem positionBlind_drawable : PositionBlind Movement.drawable := fun _ _ _ _ => rfl

theorem movement_api_stop_on_point (s : LuaContext) (m : Ref) (rest : List LuaValue)
    (he : (s.movements m).entity = none) (hd : (s.movements m).drawable = none) :
    movement_api_stop s (.movement m :: rest) = ⟨stop_movement_on_point s m, none⟩ := by
  simp [movement_api_stop, check_movement, arg, he, hd]

/-! ## One update works on one movement -/

theorem step_refl (m : Ref) (s : LuaContext) : Step m s s :=
  ⟨rfl, fun _ _ => rfl, ⟨[], by simp, by simp⟩, fun _ _ => rfl⟩

theorem Step.st_trans {m : Ref} {s t u : LuaContext} (h1 : Step m s t) (h2 : Step m t u) :
    Step m s u := by
  obtain ⟨a1, b1, ⟨e1, c1, d1⟩, f1⟩ := h1
  obtain ⟨a2, b2, ⟨e2, c2, d2⟩, f2⟩ := h2
  refine ⟨a2.trans a1, fun i hi => (b2 i hi).trans (b1 i hi), ⟨e1 ++ e2, ?_, ?_⟩, fun p hp => ?_⟩
  · rw [c2, c1, List.append_assoc]
  · intro ev hev
    rcases List.mem_append.1 hev with h | h
    · exact d1 ev h
    · exact d2 ev h
  · rw [f2 p (by rw [a1]; exact hp), f1 p hp]

theorem step_call (s : LuaContext) (ev : Event) : Step (Event.movement ev) s (s.call ev) :=
  ⟨rfl, fun _ _ => rfl, ⟨[ev], rfl, by simp⟩, fun _ _ => rfl⟩

theorem step_modify (s : LuaContext) (m : Ref) (f : Movement → Movement) :
    Step m s (s.modify_movement m f) := by
  refine ⟨rfl, fun i hi => ?_, ⟨[], by simp [LuaContext.modify_movement], by simp⟩,
    fun _ _ => rfl⟩
  rw [modify_movement_movements, if_neg hi]

theorem step_sync_point (s : LuaContext) (m : Ref) : Step m s (sync_point s m) := by
  refine ⟨sync_point_registry s m, fun i _ => by rw [sync_point_movements],
    ⟨[], by simp [sync_point_events], by simp⟩, fun p hp => ?_⟩
  unfold sync_point
  cases h : lua_gettable s.movements_on_points m with
  | none => rfl
  | some xy =>
    have hne : p ≠ xy := fun h2 => hp (by rw [h, h2])
    simp [LuaContext.lua_setfield, upd_other _ _ _ _ hne]

theorem step_on_position_changed (s : LuaContext) (m : Ref) :
    Step m s (movement_on_position_changed s m) := by
  by_cases h : (s.movements m).known_to_lua = true
  · rw [movement_on_position_changed_of_known s m h]
    split
    · exact (step_sync_point s m).st_trans (step_call _ (.on_position_changed m))
    · exact step_sync_point s m
  · unfold movement_on_position_changed
    rw [if_pos (by simpa using h)]
    exact step_refl m s

theorem step_set_xy (s : LuaContext) (m : Ref) (x y : Int) :
    Step m s (Movement.set_xy s m x y) :=
  (step_modify s m _).st_trans (step_on_position_changed _ m)

theorem step_on_obstacle_reached (s : LuaContext) (m : Ref) :
    Step m s (movement_on_obstacle_reached s m) := by
  unfold movement_on_obstacle_reached
  split
  · exact step_refl m s
  · exact (step_modify s m _).st_trans (step_call _ (.on_obstacle_reached m))

theorem step_on_finished (s : LuaContext) (m : Ref) :
    Step m s (movement_on_finished s m) := by
  unfold movement_on_finished
  split
  · exact step_refl m s
  · exact (step_modify s m _).st_trans (step_call _ (.on_finished m))

theorem step_cancel_callback (s : LuaContext) (m : Ref) (r : Option Ref) :
    Step m s (cancel_callback s r) := by
  cases r with
  | none => exact step_refl m s
  | some r => exact ⟨rfl, fun _ _ => rfl, ⟨[], by simp [cancel_callback], by simp⟩, fun _ _ => rfl⟩

theorem step_notify_finished (s : LuaContext) (m : Ref) :
    Step m s (Movement.notify_finished s m) := by
  unfold Movement.notify_finished
  dsimp only
  refine Step.st_trans ?_ (step_on_finished _ m)
  split
  · next r _ =>
    exact ((step_modify s m _).st_trans (step_call _ (.callback m r))).st_trans
      (step_cancel_callback _ m _)
  · exact step_refl m s

theorem step_perform (s : LuaContext) (m : Ref) (a : Action) :
    Step m s (Movement.perform s m a) := by
  cases a with
  | set_xy x y => exact step_set_xy s m x y
  | notify_obstacle_reached => exact step_on_obstacle_reached s m
  | notify_finished => exact step_notify_finished s m

theorem step_foldl_perform (m : Ref) (actions : List Action) (s : LuaContext) :
    Step m s (actions.foldl (fun t a => Movement.perform t m a) s) := by
  induction actions generalizing s with
  | nil => exact step_refl m s
  | cons a rest ih => exact (step_perform s m a).st_trans (ih _)

theorem step_update (strategy : LuaContext → Ref → List Action) (s : LuaContext) (m : Ref) :
    Step m s (Movement.update strategy s m) :=
  (step_call s (.update m)).st_trans (step_foldl_perform m _ _)

theorem stepAll_refl (ms : List Ref) (s : LuaContext) : StepAll ms s s :=
  ⟨rfl, fun _ _ => rfl, ⟨[], by simp, by simp⟩, fun _ _ => rfl⟩

theorem stepAll_cons {m : Ref} {ms : List Ref} {s t u : LuaContext} (h1 : Step m s t)
    (h2 : StepAll ms t u) : StepAll (m :: ms) s u := by
  obtain ⟨a1, b1, ⟨e1, c1, d1⟩, f1⟩ := h1
  obtain ⟨a2, b2, ⟨e2, c2, d2⟩, f2⟩ := h2
  refine ⟨a2.trans a1, fun i hi => ?_, ⟨e1 ++ e2, ?_, ?_⟩, fun p hp => ?_⟩
  · rw [b2 i (fun h => hi (List.mem_cons_of_mem _ h)),
      b1 i (fun h => hi (h ▸ List.mem_cons_self _ _))]
  · rw [c2, c1, List.append_assoc]
  · intro ev hev
    rcases List.mem_append.1 hev with h | h
    · rw [d1 ev h]
      exact List.mem_cons_self _ _
    · exact List.mem_cons_of_mem _ (d2 ev h)
  · rw [f2 p (fun k hk => by rw [a1]; exact hp k (List.mem_cons_of_mem _ hk)),
      f1 p (hp m (List.mem_cons_self _ _))]

theorem StepAll.sa_trans {ms : List Ref} {s t u : LuaContext} (h1 : StepAll ms s t)
    (h2 : StepAll ms t u) : StepAll ms s u := by
  obtain ⟨a1, b1, ⟨e1, c1, d1⟩, f1⟩ := h1
  obtain ⟨a2, b2, ⟨e2, c2, d2⟩, f2⟩ := h2
  refine ⟨a2.trans a1, fun i hi => (b2 i hi).trans (b1 i hi), ⟨e1 ++ e2, ?_, ?_⟩, fun p hp => ?_⟩
  · rw [c2, c1, List.append_assoc]
  · intro ev hev
    rcases List.mem_append.1 hev with h | h
    · exact d1 ev h
    · exact d2 ev h
  · rw [f2 p (fun k hk => by rw [a1]; exact hp k hk), f1 p hp]

theorem stepAll_foldl_update (strategy : LuaContext → Ref → List Action)
    (entries : List (Ref × Ref)) (s : LuaContext) :
    StepAll (entries.map Prod.fst) s
      (entries.foldl (fun t e => Movement.update strategy t e.1) s) := by
  induction entries generalizing s with
  | nil => exact stepAll_refl _ s
  | cons e rest ih => exact stepAll_cons (step_update strategy s e.1) (ih _)

theorem stepAll_update_movements (strategy : LuaContext → Ref → List Action)
    (s : LuaContext) :
    StepAll (s.movements_on_points.map Prod.fst) s (update_movements strategy s) :=
  stepAll_foldl_update strategy _ s

theorem stepAll_sweeps (strategy : LuaContext → Ref → List Action) (n : Nat)
    (s : LuaContext) :
    StepAll (s.movements_on_points.map Prod.fst) s (sweeps strategy n s) := by
  induction n generalizing s with
  | zero => exact stepAll_refl _ s
  | succ n ih =>
    have h1 := stepAll_update_movements strategy s
    have h2 := ih (update_movements strategy s)
    rw [h1.1] at h2
    exact h1.sa_trans h2

theorem gettable_eq_none_iff {κ ν : Type} [DecidableEq κ] (t : Table κ ν) (k : κ) :
    lua_gettable t k = none ↔ k ∉ t.map Prod.fst := by
  induction t with
  | nil => simp [lua_gettable]
  | cons e rest ih =>
    obtain ⟨k1, v⟩ := e
    rw [gettable_cons]
    by_cases h : k1 = k
    · simp [h]
    · have h2 : ¬ k = k1 := fun h3 => h h3.symm
      simp [h, h2, ih]

/-! ## `start` and `stop` keep the invariant -/

theorem subjects_eq_zero_iff (s : LuaContext) (m : Ref) :
    subjects s m = 0 ↔ (s.movements m).entity = none ∧ (s.movements m).drawable = none ∧
      lua_gettable s.movements_on_points m = none := by
  unfold subjects drives_entity drives_drawable drives_point
  cases (s.movements m).entity <;> cases (s.movements m).drawable <;>
    cases lua_gettable s.movements_on_points m <;> simp

theorem subjects_le_one_iff (s : LuaContext) (m : Ref) :
    subjects s m ≤ 1 ↔
      ((s.movements m).entity = none ∨ (s.movements m).drawable = none) ∧
      ((s.movements m).entity = none ∨ lua_gettable s.movements_on_points m = none) ∧
      ((s.movements m).drawable = none ∨ lua_gettable s.movements_on_points m = none) := by
  unfold subjects drives_entity drives_drawable drives_point
  cases (s.movements m).entity <;> cases (s.movements m).drawable <;>
    cases lua_gettable s.movements_on_points m <;> simp

theorem stop_movement_on_point_unbinds {s : LuaContext} (m : Ref)
    (he : (s.movements m).entity = none) (hd : (s.movements m).drawable = none) :
    subjects (stop_movement_on_point s m) m = 0 := by
  rw [subjects_eq_zero_iff]
  refine ⟨?_, ?_, gettable_remove_self _ _⟩
  · exact ((sameBindings_push_movement s m).1 m).trans he
  · exact ((sameBindings_push_movement s m).2.1 m).trans hd

theorem movement_api_stop_unbinds {s : LuaContext} (hs : Consistent s)
    (args : List LuaValue) (m : Ref) (h : arg args 1 = .movement m) :
    subjects (movement_api_stop s args).ctx m = 0 := by
  have h1 := (subjects_le_one_iff s m).1 (hs.2.2 m)
  unfold movement_api_stop check_movement
  rw [h]
  dsimp only
  cases he : (s.movements m).entity with
  | some e =>
    dsimp only
    have hd : (s.movements m).drawable = none := by
      rcases h1.1 with h2 | h2
      · rw [he] at h2; cases h2
      · exact h2
    have hr : lua_gettable s.movements_on_points m = none := by
      rcases h1.2.1 with h2 | h2
      · rw [he] at h2; cases h2
      · exact h2
    have hent : s.entities e = some m := (hs.1 m e).1 he
    rw [subjects_eq_zero_iff]
    unfold MapEntity.clear_movement
    rw [hent]
    simp [modify_movement_movements, hd, hr]
  | none =>
    dsimp only
    cases hd : (s.movements m).drawable with
    | some d =>
      dsimp only
      have hr : lua_gettable s.movements_on_points m = none := by
        rcases h1.2.2 with h2 | h2
        · rw [hd] at h2; cases h2
        · exact h2
      have hdr : s.drawables d = some m := (hs.2.1 m d).1 hd
      rw [subjects_eq_zero_iff]
      unfold Drawable.stop_movement
      rw [hdr]
      simp [modify_movement_movements, he, hr]
    | none =>
      exact stop_movement_on_point_unbinds m he hd

theorem bindingsAfterStart_of_sameBindings {s t : LuaContext} {m point : Ref} {r : CallResult}
    (h : SameBindings s t) (hr : BindingsAfterStart t m point r) :
    BindingsAfterStart s m point r := by
  refine ⟨fun i => (hr.1 i).trans (h.1 i), fun i => (hr.2.1 i).trans (h.2.1 i),
    hr.2.2.1.trans h.2.2.1, hr.2.2.2.1.trans h.2.2.2.1, ?_⟩
  rw [hr.2.2.2.2, h.2.2.2.2]

theorem bindingsAfterStart_of_error {s t : LuaContext} {m point : Ref} (e : LuaError)
    (h : SameBindings s t) : BindingsAfterStart s m point ⟨t, some e⟩ := by
  refine ⟨h.1, h.2.1, h.2.2.1, h.2.2.2.1, ?_⟩
  simp only [reduceCtorEq, if_false]
  exact h.2.2.2.2

theorem start_movement_on_point_register_bindings (s : LuaContext) (m point : Ref) (x y : Int) :
    BindingsAfterStart s m point (start_movement_on_point_register s m point x y) := by
  unfold start_movement_on_point_register
  have h4 := sameBindings_set_xy
    { s with movements_on_points := lua_settable s.movements_on_points m (some point) } m x y
  refine ⟨h4.1, h4.2.1, h4.2.2.1, h4.2.2.2.1, ?_⟩
  simp only [if_true]
  exact h4.2.2.2.2

theorem start_movement_on_point_y_bindings (s : LuaContext) (m point : Ref) (x : Int) :
    BindingsAfterStart s m point (start_movement_on_point_y s m point x) := by
  unfold start_movement_on_point_y
  dsimp only
  split
  · exact bindingsAfterStart_of_sameBindings
      ((sameBindings_setfield _ _ _ _).sb_trans (sameBindings_set_y _ _ _))
      (start_movement_on_point_register_bindings _ _ _ _ _)
  · split
    · exact start_movement_on_point_register_bindings _ _ _ _ _
    · exact bindingsAfterStart_of_error _ (sameBindings_refl s)

theorem start_movement_on_point_bindings (s : LuaContext) (m point : Ref) :
    BindingsAfterStart s m point (start_movement_on_point s m point) := by
  have h1 := sameBindings_push_movement s m
  unfold start_movement_on_point
  dsimp only
  split
  · exact bindingsAfterStart_of_sameBindings (h1.sb_trans (sameBindings_setfield _ _ _ _))
      (start_movement_on_point_y_bindings _ _ _ _)
  · split
    · exact bindingsAfterStart_of_sameBindings h1 (start_movement_on_point_y_bindings _ _ _ _)
    · exact bindingsAfterStart_of_error _ h1

theorem movement_api_start_no_movement (s : LuaContext) (args : List LuaValue)
    (h : ∀ m, arg args 1 ≠ .movement m) : (movement_api_start s args).ctx = s := by
  unfold movement_api_start check_movement
  cases h1 : arg args 1 with
  | movement m => exact absurd h1 (h m)
  | _ => rfl

/-- C3. `movement:stop()` on a movement that has no entity and no drawable
removes the entry of that movement from `sol.movements_on_points` and leaves
the entry of every other movement as it was. -/
theorem C3_stop_removes_registry_entry (s : LuaContext) (m : Ref)
    (he : (s.movements m).entity = none) (hd : (s.movements m).drawable = none) :
    (movement_api_stop s [.movement m]).error = none ∧
    lua_gettable (movement_api_stop s [.movement m]).ctx.movements_on_points m = none ∧
    (∀ m2, m2 ≠ m →
      lua_gettable (movement_api_stop s [.movement m]).ctx.movements_on_points m2 =
        lua_gettable s.movements_on_points m2) ∧
    (movement_api_stop s [.movement m]).ctx.movements_on_points =
      s.movements_on_points.filter (fun e => decide (e.1 ≠ m)) := by
  have h : movement_api_stop s [.movement m] = ⟨stop_movement_on_point s m, none⟩ := by
    simp [movement_api_stop, check_movement, arg, he, hd]
  rw [h]
  refine ⟨rfl, gettable_remove_self _ _, fun m2 h2 => gettable_remove_other _ _ _ h2, rfl⟩

/-- Witness of C3: of the entries 0 -> 1 and 1 -> 2, `stop` on movement 0
leaves the second. -/
theorem C3_stop_removes_registry_entry_witness :
    two_points.movements_on_points = [(0, 1), (1, 2)] ∧
    (movement_api_stop two_points [.movement 0]).ctx.movements_on_points = [(1, 2)] := by
  refine ⟨by decide, ?_⟩
  rw [(C3_stop_removes_registry_entry two_points 0 (by decide) (by decide)).2.2.2]
  decide

/-- C4 (amended). `movement:stop()` on a movement that drives a point leaves
the finished-callback of the movement in place: the movement holds the same
callback reference after `stop` as before, a later `start` on a point given
without a callback keeps it too, and only a `start` given a callback replaces
it. -/
theorem C4_stop_keeps_callback (s : LuaContext) (m : Ref)
    (he : (s.movements m).entity = none) (hd : (s.movements m).drawable = none) :
    ((movement_api_stop s [.movement m]).ctx.movements m).finished_callback_ref =
      (s.movements m).finished_callback_ref ∧
    (∀ point, ((movement_api_start (movement_api_stop s [.movement m]).ctx
        [.movement m, .table point]).ctx.movements m).finished_callback_ref =
      (s.movements m).finished_callback_ref) ∧
    (∀ point f, ((movement_api_start (movement_api_stop s [.movement m]).ctx
        [.movement m, .table point, .function f]).ctx.movements m).finished_callback_ref =
      some f) := by
  have hstop := movement_api_stop_on_point s m [] he hd
  have he1 : ((stop_movement_on_point s m).movements m).entity = none :=
    (keeps_stop_movement_on_point positionBlind_entity s m m).trans he
  have hd1 : ((stop_movement_on_point s m).movements m).drawable = none :=
    (keeps_stop_movement_on_point positionBlind_drawable s m m).trans hd
  have hc1 := keeps_stop_movement_on_point positionBlind_callback s m m
  rw [hstop]
  refine ⟨hc1, fun point => ?_, fun point f => ?_⟩
  · have h2 : movement_api_start (stop_movement_on_point s m) [.movement m, .table point] =
        start_movement_on_point (stop_movement_on_point (stop_movement_on_point s m) m) m
          point := by
      simp [movement_api_start, check_movement, arg, lua_gettop,
        movement_api_stop_on_point _ m _ he1 hd1]
    rw [h2, keeps_start_movement_on_point positionBlind_callback,
      keeps_stop_movement_on_point positionBlind_callback]
    exact hc1
  · have h2 : movement_api_start (stop_movement_on_point s m)
        [.movement m, .table point, .function f] =
        start_movement_on_point (Movement.set_finished_callback
          (luaL_ref (stop_movement_on_point (stop_movement_on_point s m) m) f) m (some f)) m
          point := by
      simp [movement_api_start, check_movement, arg, lua_gettop,
        movement_api_stop_on_point _ m _ he1 hd1]
    rw [h2, keeps_start_movement_on_point positionBlind_callback]
    simp [Movement.set_finished_callback, modify_movement_movements]

/-- Witness of C4 (amended): movement 0 drives the point 1 and holds the
callback 7. After `stop` it is out of the registry and still holds the callback
7, a `start` on the point 2 given without a callback keeps the callback 7, and
a `start` given the callback 8 replaces it. -/
theorem C4_stop_keeps_callback_witness :
    lua_gettable started_with_callback.movements_on_points 0 = some 1 ∧
    (started_with_callback.movements 0).finished_callback_ref = some 7 ∧
    lua_gettable (movement_api_stop started_with_callback
      [.movement 0]).ctx.movements_on_points 0 = none ∧
    ((movement_api_stop started_with_callback [.movement 0]).ctx.movements 0
      ).finished_callback_ref = some 7 ∧
    ((movement_api_start (movement_api_stop started_with_callback [.movement 0]).ctx
      [.movement 0, .table 2]).ctx.movements 0).finished_callback_ref = some 7 ∧
    ((movement_api_start (movement_api_stop started_with_callback [.movement 0]).ctx
      [.movement 0, .table 2, .function 8]).ctx.movements 0).finished_callback_ref = some 8 :=
  ⟨by decide, by decide, by decide,
    (C4_stop_keeps_callback started_with_callback 0 (by decide) (by decide)).1.trans
      (by decide),
    ((C4_stop_keeps_callback started_with_callback 0 (by decide) (by decide)).2.1 2).trans
      (by decide),
    (C4_stop_keeps_callback started_with_callback 0 (by decide) (by decide)).2.2 2 8⟩

/-- C4, as stated, fails: movement 0 is started on the point 1 with the callback
7 and stopped; it still holds the reference 7, keeps it through a start on the
point 2 given without a callback, and fires it when it finishes. -/
theorem C4_stop_cancels_callback_counterexample :
    (((movement_api_stop (movement_api_start blank
        [.movement 0, .table 1, .function 7]).ctx [.movement 0]).ctx).movements 0
      ).finished_callback_ref = some 7 ∧
    (((movement_api_start (movement_api_stop (movement_api_start blank
        [.movement 0, .table 1, .function 7]).ctx [.movement 0]).ctx
        [.movement 0, .table 2]).ctx).movements 0).finished_callback_ref = some 7 ∧
    (Movement.notify_finished (movement_api_start (movement_api_stop (movement_api_start blank
        [.movement 0, .table 1, .function 7]).ctx [.movement 0]).ctx
        [.movement 0, .table 2]).ctx 0).events = [.callback 0 7] := by
  decide

/-- C5. After `movement:stop()` on a movement that drives a point, through any
number of `update_movements()` sweeps: the movement is not in the registry,
`update()` is not called on it and no handler or callback of it is called (no
call of the trace is about it), the movement itself is unchanged (position and
callback), and it changes no point: a table whose content differs after the
sweeps is driven by another movement, one that is registered on it. -/
theorem C5_stopped_movement_is_not_updated (strategy : LuaContext → Ref → List Action)
    (s : LuaContext) (m : Ref) (he : (s.movements m).entity = none)
    (hd : (s.movements m).drawable = none) (n : Nat) :
    lua_gettable (sweeps strategy n (movement_api_stop s [.movement m]).ctx).movements_on_points
      m = none ∧
    (∃ evs, (sweeps strategy n (movement_api_stop s [.movement m]).ctx).events =
        (movement_api_stop s [.movement m]).ctx.events ++ evs ∧
      Event.update m ∉ evs ∧ ∀ ev ∈ evs, Event.movement ev ≠ m) ∧
    (sweeps strategy n (movement_api_stop s [.movement m]).ctx).movements m =
      (movement_api_stop s [.movement m]).ctx.movements m ∧
    (∀ p, (sweeps strategy n (movement_api_stop s [.movement m]).ctx).tables p ≠
        (movement_api_stop s [.movement m]).ctx.tables p →
      ∃ m2, m2 ≠ m ∧
        lua_gettable (movement_api_stop s [.movement m]).ctx.movements_on_points m2 =
          some p) := by
  rw [movement_api_stop_on_point s m [] he hd]
  have hreg : lua_gettable (stop_movement_on_point s m).movements_on_points m = none :=
    gettable_remove_self _ _
  have hm : m ∉ (stop_movement_on_point s m).movements_on_points.map Prod.fst :=
    (gettable_eq_none_iff _ _).1 hreg
  obtain ⟨a, b, ⟨evs, c, d⟩, f⟩ := stepAll_sweeps strategy n (stop_movement_on_point s m)
  have hev : ∀ ev ∈ evs, Event.movement ev ≠ m := fun ev hev h => hm (h ▸ d ev hev)
  refine ⟨by rw [a]; exact hreg, ⟨evs, c, fun h => hev _ h rfl, hev⟩, b m hm,
    fun p hp => ?_⟩
  apply Classical.byContradiction
  intro hno
  apply hp
  apply f p
  intro k _ hk
  apply hno
  refine ⟨k, fun hkm => ?_, hk⟩
  rw [hkm, hreg] at hk
  cases hk

/-- Witness of C5: the movements 0 and 1 drive the points 1 and 2, and movement
0 is stopped. Through three sweeps that move every registered movement one
pixel to the right, movement 1 goes to x = 3 with its point, while movement 0
stays out of the registry and keeps its position, and its point 1 is unchanged. -/
theorem C5_stopped_movement_is_not_updated_witness :
    lua_gettable two_points.movements_on_points 0 = some 1 ∧
    ((sweeps step_right 3 (movement_api_stop two_points [.movement 0]).ctx).movements 1).x =
      3 ∧
    lua_getfield ((sweeps step_right 3 (movement_api_stop two_points
      [.movement 0]).ctx).tables 2) "x" = .number 3 ∧
    lua_gettable (sweeps step_right 3 (movement_api_stop two_points
      [.movement 0]).ctx).movements_on_points 0 = none ∧
    (sweeps step_right 3 (movement_api_stop two_points [.movement 0]).ctx).movements 0 =
      (movement_api_stop two_points [.movement 0]).ctx.movements 0 ∧
    (sweeps step_right 3 (movement_api_stop two_points [.movement 0]).ctx).tables 1 =
      (movement_api_stop two_points [.movement 0]).ctx.tables 1 :=
  ⟨by decide, by decide, by decide,
    (C5_stopped_movement_is_not_updated step_right two_points 0 (by decide) (by decide) 3).1,
    (C5_stopped_movement_is_not_updated step_right two_points 0 (by decide) (by decide)
      3).2.2.1,
    Classical.byContradiction fun h => by
      obtain ⟨m2, h1, h2⟩ :=
        (C5_stopped_movement_is_not_updated step_right two_points 0 (by decide) (by decide)
          3).2.2.2 1 h
      have hreg : (movement_api_stop two_points [.movement 0]).ctx.movements_on_points =
          [(1, 2)] := by decide
      rw [hreg, gettable_cons] at h2
      split at h2
      · cases h2
      · cases h2⟩

/-- A table that two movements drive is still moved by the one that is left
registered: the movements 0 and 1 drive the same table 1 and movement 0 is
stopped. Movement 0 is out of the registry and the sweep calls `update()` on
movement 1 only, whose notification takes the field x of the table from 0 to 1. -/
theorem shared_point_follows_other_movement :
    lua_gettable shared_point_stopped.movements_on_points 0 = none ∧
    lua_gettable shared_point_stopped.movements_on_points 1 = some 1 ∧
    lua_getfield (shared_point_stopped.tables 1) "x" = .number 0 ∧
    (update_movements step_right shared_point_stopped).events = [.update 1] ∧
    lua_getfield ((update_movements step_right shared_point_stopped).tables 1) "x" =
      .number 1 := by
  decide

/-! ## The setters -/

theorem luaL_checkint_of_some (v : LuaValue) (narg n : Int) (h : lua_tointeger v = some n) :
    luaL_checkint v narg = .ok (to_int n) := by
  simp [luaL_checkint, h]

theorem luaL_checkint_of_none (v : LuaValue) (narg : Int) (h : lua_tointeger v = none) :
    luaL_checkint v narg = .error (.type_error narg "number") := by
  simp [luaL_checkint, h]

theorem set_path_loop_ok (entries : List (LuaValue × LuaValue)) (codes : List Int)
    (path : List Nat)
    (h : List.Forall₂ (fun e n => lua_tointeger e.2 = some n) entries codes) :
    set_path_loop entries path =
      .ok (path ++ codes.map (fun n => direction8_char (to_int n))) := by
  induction entries generalizing codes path with
  | nil =>
    cases h
    simp [set_path_loop]
  | cons e rest ih =>
    obtain ⟨k, v⟩ := e
    cases h with
    | cons hd htl =>
      simp only [set_path_loop, luaL_checkint_of_some v 4 _ hd, ih _ _ htl, List.map_cons,
        List.append_assoc, List.singleton_append]

theorem set_path_loop_error (entries : List (LuaValue × LuaValue)) (path : List Nat)
    (h : ∃ e ∈ entries, lua_tointeger e.2 = none) :
    set_path_loop entries path = .error (.type_error 4 "number") := by
  induction entries generalizing path with
  | nil => simp at h
  | cons e rest ih =>
    obtain ⟨k, v⟩ := e
    cases hv : lua_tointeger v with
    | none => simp only [set_path_loop, luaL_checkint_of_none v 4 hv]
    | some n =>
      simp only [set_path_loop, luaL_checkint_of_some v 4 n hv]
      apply ih
      obtain ⟨e, he, hn⟩ := h
      rcases List.mem_cons.1 he with h1 | h1
      · subst h1
        rw [hv] at hn
        cases hn
      · exact ⟨e, h1, hn⟩

theorem check_userdata_ok (s : LuaContext) (m : Ref) (rest : List LuaValue)
    (kind : MovementKind) (hk : (s.movements m).kind = kind) :
    check_userdata s (.movement m :: rest) 1 kind = .ok m := by
  simp [check_userdata, arg, hk]

/-- C6 (amended). `path_movement:set_path` does not check the range of the
direction codes. It raises an error exactly when a value of the table is not an
integer for `luaL_checkint`, and then leaves the state, the path included, as
it was; when every value is an integer it stores one character `'0' + code`
per value, codes outside 0-7 included. -/
theorem C6_set_path_stores_any_code (s : LuaContext) (m tr : Ref)
    (hk : (s.movements m).kind = .path) :
    ((∃ e ∈ s.tables tr, lua_tointeger e.2 = none) →
      path_movement_api_set_path s (.movement m) (.table tr) =
        ⟨s, some (.type_error 4 "number")⟩) ∧
    (∀ codes : List Int,
      List.Forall₂ (fun e n => lua_tointeger e.2 = some n) (s.tables tr) codes →
      (path_movement_api_set_path s (.movement m) (.table tr)).error = none ∧
      ((path_movement_api_set_path s (.movement m) (.table tr)).ctx.movements m).path =
        codes.map (fun n => direction8_char (to_int n))) := by
  refine ⟨fun h => ?_, fun codes h => ?_⟩
  · simp only [path_movement_api_set_path, check_userdata_ok s m _ _ hk,
      set_path_loop_error _ _ h]
  · simp [path_movement_api_set_path, check_userdata_ok s m _ _ hk,
      set_path_loop_ok _ _ _ h, PathMovement.set_path, modify_movement_movements]

/-- Witness of C6 (amended): the array {0, "up"} is refused and the state is
left as it was. -/
theorem C6_set_path_stores_any_code_witness :
    path_movement_api_set_path path_example (.movement 0) (.table 2) =
      ⟨path_example, some (.type_error 4 "number")⟩ :=
  (C6_set_path_stores_any_code path_example 0 2 rfl).1
    ⟨(.number 2, .string "up"), by decide, by decide⟩

/-- C6, as stated, fails: the array {8, -1} holds two direction codes outside
0-7; `set_path` raises no error and replaces the path "0" by the two characters
'8' (56) and '/' (47). -/
theorem C6_set_path_rejects_bad_code_counterexample :
    (path_movement_api_set_path path_example (.movement 0) (.table 1)).error = none ∧
    (path_example.movements 0).path = [48] ∧
    ((path_movement_api_set_path path_example (.movement 0) (.table 1)).ctx.movements 0).path =
      [56, 47] := by
  decide

/-- C7 (amended). The `set_speed` bindings of the straight, random, target,
path, random_path, path_finding and jump movements do not check the sign of the
speed: any integer, negative ones included, is handed to the setter of the
movement and becomes its speed. Only a value that is not an integer for
`luaL_checkint` is refused, with a type error on argument 2, and the state is
then left as it was. -/
theorem C7_set_speed_accepts_any_integer (kind : MovementKind)
    (f : LuaContext → List LuaValue → CallResult) (hf : set_speed_method kind = some f)
    (s : LuaContext) (m : Ref) (hk : (s.movements m).kind = kind) (v : LuaValue) :
    (∀ n, lua_tointeger v = some n →
      (f s [.movement m, v]).error = none ∧
      speed_field kind ((f s [.movement m, v]).ctx.movements m) = to_int n) ∧
    (lua_tointeger v = none →
      f s [.movement m, v] = ⟨s, some (.type_error 2 "number")⟩) := by
  have ha : arg [.movement m, v] 2 = v := rfl
  cases kind <;> simp only [set_speed_method, Option.some.injEq, reduceCtorEq] at hf <;>
    subst hf <;> refine ⟨fun n hn => ?_, fun hn => ?_⟩ <;>
    first
    | simp [straight_movement_api_set_speed, random_movement_api_set_speed,
        target_movement_api_set_speed, path_movement_api_set_speed,
        random_path_movement_api_set_speed, path_finding_movement_api_set_speed,
        jump_movement_api_set_speed, check_userdata_ok s m _ _ hk, ha,
        luaL_checkint_of_some v 2 n hn, Movement.set_speed, TargetMovement.set_moving_speed,
        modify_movement_movements, speed_field]
    | simp [straight_movement_api_set_speed, random_movement_api_set_speed,
        target_movement_api_set_speed, path_movement_api_set_speed,
        random_path_movement_api_set_speed, path_finding_movement_api_set_speed,
        jump_movement_api_set_speed, check_userdata_ok s m _ _ hk, ha,
        luaL_checkint_of_none v 2 hn]

/-- Witness of C7 (amended): the string "fast" is refused by the binding of the
straight movement. -/
theorem C7_set_speed_accepts_any_integer_witness :
    straight_movement_api_set_speed blank [.movement 0, .string "fast"] =
      ⟨blank, some (.type_error 2 "number")⟩ :=
  (C7_set_speed_accepts_any_integer .straight straight_movement_api_set_speed rfl blank 0 rfl
    (.string "fast")).2 (by decide)

/-- C7, as stated, fails: `set_speed(-5)` on a straight movement of speed 0 and
on a path movement of speed 32 raises no error and leaves the speed -5. -/
theorem C7_set_speed_rejects_negative_counterexample :
    (straight_movement_api_set_speed blank [.movement 0, .number (-5)]).error = none ∧
    (blank.movements 0).speed = 0 ∧
    ((straight_movement_api_set_speed blank [.movement 0, .number (-5)]).ctx.movements 0).speed
      = -5 ∧
    (path_movement_api_set_speed path_example [.movement 0, .number (-5)]).error = none ∧
    ((path_movement_api_set_speed path_example [.movement 0, .number (-5)]).ctx.movements 0
      ).speed = -5 := by
  decide

theorem set_trajectory_loop_ok (s : LuaContext) (entries : List (LuaValue × LuaValue))
    (pairs : List (Int × Int)) (trajectory : List (Int × Int))
    (h : List.Forall₂ (ReadsAs s) entries pairs) :
    set_trajectory_loop s entries trajectory =
      .ok (trajectory ++ pairs.map (fun p => (to_int p.1, to_int p.2))) := by
  induction entries generalizing pairs trajectory with
  | nil =>
    cases h
    simp [set_trajectory_loop]
  | cons e rest ih =>
    obtain ⟨k, v⟩ := e
    cases h with
    | cons hd htl =>
      obtain ⟨xy, hv, h1, h2⟩ := hd
      simp only at hv
      subst hv
      simp only [set_trajectory_loop, luaL_checkint_of_some _ 5 _ h1,
        luaL_checkint_of_some _ 6 _ h2, ih _ _ htl, List.map_cons, List.append_assoc,
        List.singleton_append]

theorem set_trajectory_loop_error (s : LuaContext) (entries : List (LuaValue × LuaValue))
    (trajectory : List (Int × Int)) (h : ∃ e ∈ entries, BadTrajectoryEntry s e.2) :
    ∃ err, set_trajectory_loop s entries trajectory = .error err := by
  induction entries generalizing trajectory with
  | nil => simp at h
  | cons e rest ih =>
    obtain ⟨k, v⟩ := e
    have hrest : (∃ e ∈ rest, BadTrajectoryEntry s e.2) ∨ BadTrajectoryEntry s v := by
      obtain ⟨e, he, hb⟩ := h
      rcases List.mem_cons.1 he with h1 | h1
      · subst h1
        exact Or.inr hb
      · exact Or.inl ⟨e, h1, hb⟩
    cases v with
    | table xy =>
      cases h1 : lua_tointeger (lua_rawgeti (s.tables xy) 1) with
      | none =>
        exact ⟨_, by simp only [set_trajectory_loop, luaL_checkint_of_none _ 5 h1]; rfl⟩
      | some x =>
        cases h2 : lua_tointeger (lua_rawgeti (s.tables xy) 2) with
        | none =>
          exact ⟨_, by simp only [set_trajectory_loop, luaL_checkint_of_some _ 5 _ h1,
            luaL_checkint_of_none _ 6 h2]; rfl⟩
        | some y =>
          simp only [set_trajectory_loop, luaL_checkint_of_some _ 5 _ h1,
            luaL_checkint_of_some _ 6 _ h2]
          apply ih
          rcases hrest with h3 | h3
          · exact h3
          · rcases h3 with h4 | ⟨xy2, h4, h5⟩
            · exact absurd rfl (h4 xy)
            · cases h4
              rcases h5 with h6 | h6
              · rw [h1] at h6; cases h6
              · rw [h2] at h6; cases h6
    | _ => exact ⟨_, by simp only [set_trajectory_loop]; rfl⟩

/-- C8 (amended). `pixel_movement:set_trajectory` given a table with an entry
that is not a table, or whose element 1 or 2 is not read by `luaL_checkint`
(it is neither a number nor a string that converts to a number), raises an
error and leaves the state, the trajectory included, as it was. The new
trajectory is installed when every entry has been read: it is then the list of
the pairs read, each element converted to `int`, in traversal order. -/
theorem C8_set_trajectory_atomic (s : LuaContext) (m tr : Ref)
    (hk : (s.movements m).kind = .pixel) :
    ((∃ e ∈ s.tables tr, BadTrajectoryEntry s e.2) →
      ∃ err, pixel_movement_api_set_trajectory s (.movement m) (.table tr) = ⟨s, some err⟩) ∧
    (∀ pairs : List (Int × Int), List.Forall₂ (ReadsAs s) (s.tables tr) pairs →
      (pixel_movement_api_set_trajectory s (.movement m) (.table tr)).error = none ∧
      ((pixel_movement_api_set_trajectory s (.movement m) (.table tr)).ctx.movements m
        ).trajectory = pairs.map (fun p => (to_int p.1, to_int p.2))) ∧
    (∀ err, (pixel_movement_api_set_trajectory s (.movement m) (.table tr)).error = some err →
      (pixel_movement_api_set_trajectory s (.movement m) (.table tr)).ctx = s) := by
  refine ⟨fun h => ?_, fun pairs h => ?_, fun err h => ?_⟩
  · obtain ⟨err, he⟩ := set_trajectory_loop_error s _ [] h
    exact ⟨err, by simp only [pixel_movement_api_set_trajectory,
      check_userdata_ok s m _ _ hk, he]⟩
  · simp [pixel_movement_api_set_trajectory, check_userdata_ok s m _ _ hk,
      set_trajectory_loop_ok s _ _ _ h, PixelMovement.set_trajectory,
      modify_movement_movements]
  · simp only [pixel_movement_api_set_trajectory, check_userdata_ok s m _ _ hk] at h ⊢
    cases hl : set_trajectory_loop s (s.tables tr) [] with
    | error e => rfl
    | ok t => simp [hl] at h

/-- Witness of C8: the array {{3, 4}, 5} is refused because of its second
entry, and the trajectory {{1, 1}} stays. -/
theorem C8_set_trajectory_atomic_witness :
    ∃ err, pixel_movement_api_set_trajectory pixel_example (.movement 0) (.table 1) =
      ⟨pixel_example, some err⟩ :=
  (C8_set_trajectory_atomic pixel_example 0 1 rfl).1
    ⟨(.number 2, .number 5), by decide, Or.inl (fun xy h => by cases h)⟩

/-- C8, as stated, fails: the table given has one entry, the table {"3", "4"},
whose elements 1 and 2 are strings, not integers; `set_trajectory` raises no
error and installs the trajectory {{3, 4}} in place of {{1, 1}}. -/
theorem C8_numeric_strings_are_read_counterexample :
    numeric_strings_example.tables 1 = [(.number 1, .table 2)] ∧
    lua_rawgeti (numeric_strings_example.tables 2) 1 = .string "3" ∧
    lua_rawgeti (numeric_strings_example.tables 2) 2 = .string "4" ∧
    (numeric_strings_example.movements 0).trajectory = [(1, 1)] ∧
    (pixel_movement_api_set_trajectory numeric_strings_example (.movement 0)
      (.table 1)).error = none ∧
    ((pixel_movement_api_set_trajectory numeric_strings_example (.movement 0)
      (.table 1)).ctx.movements 0).trajectory = [(3, 4)] := by
  decide

/-! ## Errors of `start` -/

/-- C9 (amended). `movement:start` called with a third argument that is not a
function, or with a subject that is neither a table, an entity nor a drawable,
raises a type error, but only after the movement has been stopped: with a bad
third argument the state left is exactly the one left by `movement:stop()`;
with a bad subject the bindings are those left by `movement:stop()`. In both
cases the movement is bound to no subject (in a consistent state), not to its
previous one. -/
theorem C9_start_error_after_stop (s : LuaContext) (m : Ref) (args : List LuaValue)
    (h1 : arg args 1 = .movement m) :
    ((3 ≤ lua_gettop args ∧ ∀ f, arg args 3 ≠ .function f) →
      movement_api_start s args =
        ⟨(movement_api_stop s args).ctx, some (.type_error 3 "function")⟩ ∧
      (Consistent s → subjects (movement_api_start s args).ctx m = 0)) ∧
    ((lua_gettop args < 3 ∨ ∃ f, arg args 3 = .function f) →
      (∀ t, arg args 2 ≠ .table t) → (∀ e, arg args 2 ≠ .entity e) →
      (∀ d, arg args 2 ≠ .drawable d) →
      (movement_api_start s args).error = some (.type_error 2 "table, entity or drawable") ∧
      SameBindings (movement_api_stop s args).ctx (movement_api_start s args).ctx ∧
      (Consistent s → subjects (movement_api_start s args).ctx m = 0)) := by
  refine ⟨fun ⟨h3, hf⟩ => ?_, fun h3 ht he hd => ?_⟩
  · have heq : movement_api_start s args =
        ⟨(movement_api_stop s args).ctx, some (.type_error 3 "function")⟩ := by
      cases hv : arg args 3 with
      | function f => exact absurd hv (hf f)
      | _ => simp [movement_api_start, check_movement, h1, h3, hv]
    refine ⟨heq, fun hs => ?_⟩
    rw [heq]
    exact movement_api_stop_unbinds hs args m h1
  · have hkey : ∃ s2 c, SameBindings (movement_api_stop s args).ctx s2 ∧
        movement_api_start s args =
          ⟨cancel_callback s2 c, some (.type_error 2 "table, entity or drawable")⟩ := by
      by_cases h4 : 3 ≤ lua_gettop args
      · rcases h3 with h3 | ⟨f, hf⟩
        · omega
        · refine ⟨Movement.set_finished_callback (luaL_ref (movement_api_stop s args).ctx f) m
            (some f), some f,
            (sameBindings_luaL_ref _ _).sb_trans (sameBindings_set_finished_callback _ _ _), ?_⟩
          cases h2 : arg args 2 with
          | table t => exact absurd h2 (ht t)
          | entity e => exact absurd h2 (he e)
          | drawable d => exact absurd h2 (hd d)
          | _ => simp [movement_api_start, check_movement, h1, h4, h2, hf]
      · refine ⟨(movement_api_stop s args).ctx, none, sameBindings_refl _, ?_⟩
        cases h2 : arg args 2 with
        | table t => exact absurd h2 (ht t)
        | entity e => exact absurd h2 (he e)
        | drawable d => exact absurd h2 (hd d)
        | _ => simp [movement_api_start, check_movement, h1, h4, h2]
    obtain ⟨s2, c, hb, heq⟩ := hkey
    have hb2 : SameBindings (movement_api_stop s args).ctx (movement_api_start s args).ctx := by
      rw [heq]
      exact hb.sb_trans (sameBindings_cancel_callback _ _)
    refine ⟨by rw [heq], hb2, fun hs => ?_⟩
    rw [subjects_congr hb2]
    exact movement_api_stop_unbinds hs args m h1

/-- Witness of C9 (amended): movement 0 drives the point 1 and is started on
the number 42. -/
theorem C9_start_error_after_stop_witness :
    (movement_api_start two_points [.movement 0, .number 42]).error =
      some (.type_error 2 "table, entity or drawable") :=
  ((C9_start_error_after_stop two_points 0 [.movement 0, .number 42] rfl).2
    (Or.inl (by decide)) (fun t h => by cases h) (fun e h => by cases h)
    (fun d h => by cases h)).1

/-- C9, as stated, fails: movement 0 drives the point 1 and holds the callback
7. A start on the number 42, and a start on the point 1 with nil as third
argument, both raise a type error and leave movement 0 out of the registry; a
start on the number 42 with the function 9 raises too and leaves the movement
with the callback 9 in place of 7. -/
theorem C9_start_error_keeps_state_counterexample :
    lua_gettable started_with_callback.movements_on_points 0 = some 1 ∧
    (started_with_callback.movements 0).finished_callback_ref = some 7 ∧
    (movement_api_start started_with_callback [.movement 0, .number 42]).error =
      some (.type_error 2 "table, entity or drawable") ∧
    lua_gettable (movement_api_start started_with_callback
      [.movement 0, .number 42]).ctx.movements_on_points 0 = none ∧
    (movement_api_start started_with_callback [.movement 0, .table 1, .nil]).error =
      some (.type_error 3 "function") ∧
    lua_gettable (movement_api_start started_with_callback
      [.movement 0, .table 1, .nil]).ctx.movements_on_points 0 = none ∧
    (movement_api_start started_with_callback [.movement 0, .number 42, .function 9]).error =
      some (.type_error 2 "table, entity or drawable") ∧
    ((movement_api_start started_with_callback
      [.movement 0, .number 42, .function 9]).ctx.movements 0).finished_callback_ref =
      some 9 := by
  decide

/-! ## Starting on a point -/

theorem sameOtherFields_refl (s : LuaContext) : SameOtherFields s s := fun _ _ _ _ => rfl

theorem SameOtherFields.so_trans {s t u : LuaContext} (h1 : SameOtherFields s t)
    (h2 : SameOtherFields t u) : SameOtherFields s u :=
  fun p key hx hy => (h2 p key hx hy).trans (h1 p key hx hy)

theorem setfield_tables (s : LuaContext) (t : Ref) (name : String) (v : LuaValue) (p : Ref) :
    (s.lua_setfield t name v).tables p =
      if p = t then lua_settable (s.tables t) (.string name) (some v) else s.tables p := rfl

theorem sameOtherFields_setfield_x (s : LuaContext) (t : Ref) (v : LuaValue) :
    SameOtherFields s (s.lua_setfield t "x" v) := by
  intro p key hx _
  rw [setfield_tables]
  split
  · next h => subst h; exact gettable_set_other _ _ _ _ hx
  · rfl

theorem sameOtherFields_setfield_y (s : LuaContext) (t : Ref) (v : LuaValue) :
    SameOtherFields s (s.lua_setfield t "y" v) := by
  intro p key _ hy
  rw [setfield_tables]
  split
  · next h => subst h; exact gettable_set_other _ _ _ _ hy
  · rfl

theorem sameOtherFields_sync_point (s : LuaContext) (m : Ref) :
    SameOtherFields s (sync_point s m) := by
  unfold sync_point
  split
  · exact (sameOtherFields_setfield_x _ _ _).so_trans (sameOtherFields_setfield_y _ _ _)
  · exact sameOtherFields_refl s

theorem sameOtherFields_on_position_changed (s : LuaContext) (m : Ref) :
    SameOtherFields s (movement_on_position_changed s m) := by
  by_cases h : (s.movements m).known_to_lua = true
  · rw [movement_on_position_changed_of_known s m h]
    split
    · exact sameOtherFields_sync_point s m
    · exact sameOtherFields_sync_point s m
  · unfold movement_on_position_changed
    rw [if_pos (by simpa using h)]
    exact sameOtherFields_refl s

theorem sameOtherFields_set_xy (s : LuaContext) (m : Ref) (x y : Int) :
    SameOtherFields s (Movement.set_xy s m x y) :=
  sameOtherFields_on_position_changed _ m

theorem to_int_of_range (n : Int) (h1 : -2 ^ 31 ≤ n) (h2 : n < 2 ^ 31) : to_int n = n := by
  unfold to_int
  omega

theorem start_movement_on_point_register_spec (s : LuaContext) (m point : Ref) (x y : Int)
    (hk : (s.movements m).known_to_lua = true) :
    (start_movement_on_point_register s m point x y).error = none ∧
    (start_movement_on_point_register s m point x y).ctx.movements_on_points =
      lua_settable s.movements_on_points m (some point) ∧
    (start_movement_on_point_register s m point x y).ctx.movements =
      upd s.movements m { (s.movements m) with x := x, y := y } ∧
    (start_movement_on_point_register s m point x y).ctx.tables point =
      lua_settable (lua_settable (s.tables point) (.string "x") (some (.number x)))
        (.string "y") (some (.number y)) := by
  have hb := start_movement_on_point_register_bindings s m point x y
  refine ⟨rfl, ?_, ?_, ?_⟩
  · have := hb.2.2.2.2
    rw [this]
    simp [start_movement_on_point_register]
  · unfold start_movement_on_point_register
    dsimp only
    rw [set_xy_movements]
  · unfold start_movement_on_point_register Movement.set_xy
    dsimp only
    rw [movement_on_position_changed_of_known _ m
      (by simp [modify_movement_movements]; exact hk)]
    have hs : ∀ t : LuaContext,
        lua_gettable t.movements_on_points m = some point →
        (sync_point t m).tables point =
          lua_settable (lua_settable (t.tables point) (.string "x")
            (some (.number (t.movements m).x))) (.string "y")
            (some (.number (t.movements m).y)) := by
      intro t ht
      unfold sync_point
      rw [ht]
      simp [LuaContext.lua_setfield]
    have hreg : lua_gettable (LuaContext.modify_movement
        ({ s with movements_on_points := lua_settable s.movements_on_points m (some point) })
        m (fun mv => { mv with x := x, y := y })).movements_on_points m = some point :=
      gettable_set_self _ _ _
    split
    · show (sync_point _ m).tables point = _
      rw [hs _ hreg]
      simp [modify_movement_movements, LuaContext.modify_movement]
    · rw [hs _ hreg]
      simp [modify_movement_movements, LuaContext.modify_movement]

theorem pointStarted_register (s : LuaContext) (m point : Ref) (x y : Int)
    (hk : (s.movements m).known_to_lua = true) :
    PointStarted s m point x y (start_movement_on_point_register s m point x y) := by
  obtain ⟨h1, h2, h3, h4⟩ := start_movement_on_point_register_spec s m point x y hk
  have hxy : (LuaValue.string "x") ≠ .string "y" := by decide
  refine ⟨h1, h2, ?_, ?_, ?_, ?_, ?_, fun key hx hy => ?_⟩
  · rw [h2]
    exact gettable_set_self _ _ _
  · rw [h3]; simp
  · rw [h3]; simp
  · rw [h4]
    unfold lua_getfield
    rw [gettable_set_other _ _ _ _ hxy, gettable_set_self]
    rfl
  · rw [h4]
    unfold lua_getfield
    rw [gettable_set_self]
    rfl
  · rw [h4, gettable_set_other _ _ _ _ hy, gettable_set_other _ _ _ _ hx]

theorem PointStarted.ps_transport {s t : LuaContext} {m point : Ref} {x y : Int} {r : CallResult}
    (hr : PointStarted t m point x y r)
    (hreg : t.movements_on_points = s.movements_on_points) (hf : SameOtherFields s t) :
    PointStarted s m point x y r := by
  obtain ⟨h1, h2, h3, h4, h5, h6, h7, h8⟩ := hr
  refine ⟨h1, by rw [h2, hreg], h3, h4, h5, h6, h7, fun key hx hy => ?_⟩
  rw [h8 key hx hy, hf point key hx hy]

theorem coordinate_of_nil (t : LuaTable) (name : String) (h : lua_getfield t name = .nil) :
    coordinate t name = 0 := by
  simp [coordinate, h]

theorem coordinate_of_number (t : LuaTable) (name : String) (n : Int)
    (h : lua_getfield t name = .number n) : coordinate t name = n := by
  simp [coordinate, h]

theorem pointStarted_y (s : LuaContext) (m point : Ref) (x : Int)
    (hk : (s.movements m).known_to_lua = true)
    (hy : lua_getfield (s.tables point) "y" = .nil ∨
      ∃ n : Int, lua_getfield (s.tables point) "y" = .number n ∧ -2 ^ 31 ≤ n ∧ n < 2 ^ 31) :
    PointStarted s m point x (coordinate (s.tables point) "y")
      (start_movement_on_point_y s m point x) := by
  unfold start_movement_on_point_y
  dsimp only
  rcases hy with h0 | ⟨n, hn, h1, h2⟩
  · rw [if_pos h0, coordinate_of_nil _ _ h0]
    have hb := (sameBindings_setfield s point "y" (.number 0)).sb_trans
      (sameBindings_set_y (s.lua_setfield point "y" (.number 0)) m 0)
    have hk3 : ((Movement.set_y (s.lua_setfield point "y" (.number 0)) m 0).movements m
        ).known_to_lua = true := by
      rw [set_y_movements]
      simpa using hk
    exact (pointStarted_register _ m point x 0 hk3).ps_transport hb.2.2.2.2
      ((sameOtherFields_setfield_y s point _).so_trans (sameOtherFields_set_xy _ m _ 0))
  · rw [if_neg (by rw [hn]; simp), coordinate_of_number _ _ n hn, hn,
      luaL_checkint_of_some (.number n) (-1) n rfl, to_int_of_range n h1 h2]
    exact pointStarted_register s m point x n hk

theorem pointStarted_start (s : LuaContext) (m point : Ref) (hp : IsPoint (s.tables point)) :
    PointStarted s m point (coordinate (s.tables point) "x") (coordinate (s.tables point) "y")
      (start_movement_on_point s m point) := by
  have hk1 : ((push_movement s m).movements m).known_to_lua = true := by
    simp [push_movement, modify_movement_movements]
  have hb1 := sameBindings_push_movement s m
  have ht1 : (push_movement s m).tables = s.tables := rfl
  have hyx : (LuaValue.string "y") ≠ .string "x" := by decide
  unfold start_movement_on_point
  dsimp only
  rw [ht1]
  rcases hp "x" (Or.inl rfl) with h0 | ⟨n, hn, h1, h2⟩
  · rw [if_pos h0, coordinate_of_nil _ _ h0]
    have hy2 : lua_getfield (((push_movement s m).lua_setfield point "x" (.number 0)).tables
        point) "y" = lua_getfield (s.tables point) "y" := by
      rw [setfield_tables, if_pos rfl, ht1]
      unfold lua_getfield
      rw [gettable_set_other _ _ _ _ hyx]
    have hc : coordinate (((push_movement s m).lua_setfield point "x" (.number 0)).tables
        point) "y" = coordinate (s.tables point) "y" := by
      unfold coordinate
      rw [hy2]
    have := pointStarted_y ((push_movement s m).lua_setfield point "x" (.number 0)) m point 0
      hk1 (by rw [hy2]; exact hp "y" (Or.inr rfl))
    rw [hc] at this
    exact this.ps_transport hb1.2.2.2.2 (sameOtherFields_setfield_x (push_movement s m) point _)
  · rw [if_neg (by rw [hn]; simp), coordinate_of_number _ _ n hn, hn,
      luaL_checkint_of_some (.number n) (-1) n rfl, to_int_of_range n h1 h2]
    have := pointStarted_y (push_movement s m) m point n hk1
      (by rw [ht1]; exact hp "y" (Or.inr rfl))
    rw [ht1] at this
    exact this.ps_transport hb1.2.2.2.2 (fun _ _ _ _ => rfl)

/-- C10. Starting a movement on a point table (each of x and y missing or a
number in the range of `int`) returns without error, stores the entry
movement -> point in the registry, leaves in the fields x and y of the point
the value they had, 0 for a missing one, leaves the other fields of the point
as they were, and places the movement at that (x, y). -/
theorem C10_start_on_point (s : LuaContext) (m point : Ref)
    (hp : IsPoint (s.tables point)) :
    (start_movement_on_point s m point).error = none ∧
    (start_movement_on_point s m point).ctx.movements_on_points =
      lua_settable s.movements_on_points m (some point) ∧
    lua_gettable (start_movement_on_point s m point).ctx.movements_on_points m = some point ∧
    ((start_movement_on_point s m point).ctx.movements m).x =
      coordinate (s.tables point) "x" ∧
    ((start_movement_on_point s m point).ctx.movements m).y =
      coordinate (s.tables point) "y" ∧
    lua_getfield ((start_movement_on_point s m point).ctx.tables point) "x" =
      .number (coordinate (s.tables point) "x") ∧
    lua_getfield ((start_movement_on_point s m point).ctx.tables point) "y" =
      .number (coordinate (s.tables point) "y") ∧
    (∀ key : LuaValue, key ≠ .string "x" → key ≠ .string "y" →
      lua_gettable ((start_movement_on_point s m point).ctx.tables point) key =
        lua_gettable (s.tables point) key) :=
  pointStarted_start s m point hp

theorem point_example_isPoint : IsPoint (point_example.tables 1) := by
  intro name h
  rcases h with rfl | rfl
  · exact Or.inr ⟨7, by decide, by decide, by decide⟩
  · exact Or.inl (by decide)

/-- Witness of C10: on the point {x = 7} the movement is placed at (7, 0) and
the point becomes {x = 7, y = 0}. -/
theorem C10_start_on_point_witness :
    ((start_movement_on_point point_example 0 1).ctx.movements 0).x = 7 ∧
    ((start_movement_on_point point_example 0 1).ctx.movements 0).y = 0 ∧
    lua_getfield ((start_movement_on_point point_example 0 1).ctx.tables 1) "x" = .number 7 ∧
    lua_getfield ((start_movement_on_point point_example 0 1).ctx.tables 1) "y" = .number 0 := by
  have h := C10_start_on_point point_example 0 1 point_example_isPoint
  have hx : coordinate (point_example.tables 1) "x" = 7 := by decide
  have hy : coordinate (point_example.tables 1) "y" = 0 := by decide
  rw [hx, hy] at h
  exact ⟨h.2.2.2.1, h.2.2.2.2.1, h.2.2.2.2.2.1, h.2.2.2.2.2.2.1⟩

/-! ## The notifications -/

theorem movement_on_obstacle_reached_events (s : LuaContext) (m : Ref) :
    (movement_on_obstacle_reached s m).events =
      s.events ++ (if userdata_has_field s m "on_obstacle_reached" = true then
        [Event.on_obstacle_reached m] else []) := by
  unfold movement_on_obstacle_reached
  cases h : userdata_has_field s m "on_obstacle_reached" <;> simp [LuaContext.call, push_movement,
    LuaContext.modify_movement]

theorem movement_on_finished_events (s : LuaContext) (m : Ref) :
    (movement_on_finished s m).events =
      s.events ++ (if userdata_has_field s m "on_finished" = true then
        [Event.on_finished m] else []) := by
  unfold movement_on_finished
  cases h : userdata_has_field s m "on_finished" <;> simp [LuaContext.call, push_movement,
    LuaContext.modify_movement]

theorem movement_on_position_changed_events (s : LuaContext) (m : Ref)
    (hk : userdata_has_field s m "on_position_changed" = true →
      (s.movements m).known_to_lua = true) :
    (movement_on_position_changed s m).events =
      s.events ++ (if userdata_has_field s m "on_position_changed" = true then
        [Event.on_position_changed m] else []) := by
  by_cases h : (s.movements m).known_to_lua = true
  · rw [movement_on_position_changed_of_known s m h]
    cases hf : userdata_has_field s m "on_position_changed" <;>
      simp [LuaContext.call, sync_point_events]
  · have hf : userdata_has_field s m "on_position_changed" = false := by
      cases hf : userdata_has_field s m "on_position_changed"
      · rfl
      · exact absurd (hk hf) h
    unfold movement_on_position_changed
    rw [if_pos (by simpa using h), hf]
    simp

/-- C12. Each of the notifications `movement_on_position_changed`,
`movement_on_obstacle_reached` and `movement_on_finished` calls the handler of
its name on the movement when the movement defines it, and calls nothing when
it does not: the trace grows by exactly that call, or not at all. For
"position changed" the movement on which scripts defined the handler is one
that was pushed to Lua (`is_known_to_lua`, line 1706). -/
theorem C12_handler_called_iff_defined (s : LuaContext) (m : Ref)
    (hk : userdata_has_field s m "on_position_changed" = true →
      (s.movements m).known_to_lua = true) :
    (movement_on_position_changed s m).events =
      s.events ++ (if userdata_has_field s m "on_position_changed" = true then
        [Event.on_position_changed m] else []) ∧
    (movement_on_obstacle_reached s m).events =
      s.events ++ (if userdata_has_field s m "on_obstacle_reached" = true then
        [Event.on_obstacle_reached m] else []) ∧
    (movement_on_finished s m).events =
      s.events ++ (if userdata_has_field s m "on_finished" = true then
        [Event.on_finished m] else []) :=
  ⟨movement_on_position_changed_events s m hk, movement_on_obstacle_reached_events s m,
    movement_on_finished_events s m⟩

/-- Witness of C12: movement 0 defines `on_finished` only; the notification
"finished" calls it and the notification "position changed" calls nothing. -/
theorem C12_handler_called_iff_defined_witness :
    (movement_on_finished with_on_finished 0).events = [Event.on_finished 0] ∧
    (movement_on_position_changed with_on_finished 0).events = [] := by
  have h := C12_handler_called_iff_defined with_on_finished 0 (fun _ => rfl)
  exact ⟨h.2.2, h.1⟩

/-! ## Registered movements are known to Lua -/

theorem knownKept_refl (s : LuaContext) : KnownKept s s := fun _ h => h

theorem KnownKept.kk_trans {s t u : LuaContext} (h1 : KnownKept s t) (h2 : KnownKept t u) :
    KnownKept s u := fun i h => h2 i (h1 i h)

theorem knownKept_of_movements {s t : LuaContext} (h : t.movements = s.movements) :
    KnownKept s t := fun i hi => by rw [h]; exact hi

theorem knownKept_modify (s : LuaContext) (m : Ref) (f : Movement → Movement)
    (hf : ∀ mv : Movement, mv.known_to_lua = true → (f mv).known_to_lua = true) :
    KnownKept s (s.modify_movement m f) := by
  intro i hi
  rw [modify_movement_movements]
  split
  · next h => subst h; exact hf _ hi
  · exact hi

theorem knownKept_push_movement (s : LuaContext) (m : Ref) :
    KnownKept s (push_movement s m) :=
  knownKept_modify s m (fun mv => { mv with known_to_lua := true }) (fun _ _ => rfl)

theorem push_movement_known (s : LuaContext) (m : Ref) :
    ((push_movement s m).movements m).known_to_lua = true := by
  simp [push_movement, modify_movement_movements]

theorem knownKept_on_position_changed (s : LuaContext) (m : Ref) :
    KnownKept s (movement_on_position_changed s m) :=
  knownKept_of_movements (movement_on_position_changed_movements s m)

theorem knownKept_set_xy (s : LuaContext) (m : Ref) (x y : Int) :
    KnownKept s (Movement.set_xy s m x y) := by
  intro i hi
  rw [set_xy_movements, upd_apply]
  split
  · next h => subst h; exact hi
  · exact hi

theorem knownKept_set_y (s : LuaContext) (m : Ref) (y : Int) :
    KnownKept s (Movement.set_y s m y) :=
  knownKept_set_xy s m _ y

theorem knownKept_set_finished_callback (s : LuaContext) (m : Ref) (r : Option Ref) :
    KnownKept s (Movement.set_finished_callback s m r) :=
  knownKept_modify s m (fun mv => { mv with finished_callback_ref := r }) (fun _ h => h)

theorem knownKept_cancel_callback (s : LuaContext) (r : Option Ref) :
    KnownKept s (cancel_callback s r) := by
  cases r with
  | none => exact knownKept_refl s
  | some r => exact fun _ h => h

theorem knownKept_clear_movement (s : LuaContext) (e : Ref) :
    KnownKept s (MapEntity.clear_movement s e) := by
  unfold MapEntity.clear_movement
  split
  · next m _ =>
    exact knownKept_modify s m (fun mv => { mv with entity := none }) (fun _ h => h)
  · exact knownKept_refl s

theorem knownKept_set_movement (s : LuaContext) (e m : Ref) :
    KnownKept s (MapEntity.set_movement s e m) :=
  knownKept_modify s m (fun mv => { mv with entity := some e }) (fun _ h => h)

theorem knownKept_stop_movement (s : LuaContext) (d : Ref) :
    KnownKept s (Drawable.stop_movement s d) := by
  unfold Drawable.stop_movement
  split
  · next m _ =>
    exact knownKept_modify s m (fun mv => { mv with drawable := none }) (fun _ h => h)
  · exact knownKept_refl s

theorem knownKept_start_movement (s : LuaContext) (d m : Ref) :
    KnownKept s (Drawable.start_movement s d m) :=
  (knownKept_stop_movement s d).kk_trans
    (knownKept_modify _ m (fun mv => { mv with drawable := some d }) (fun _ h => h))

theorem knownKept_stop_movement_on_point (s : LuaContext) (m : Ref) :
    KnownKept s (stop_movement_on_point s m) :=
  knownKept_push_movement s m

theorem knownKept_movement_api_stop (s : LuaContext) (args : List LuaValue) :
    KnownKept s (movement_api_stop s args).ctx := by
  unfold movement_api_stop
  split
  · exact knownKept_refl s
  · split
    · exact knownKept_clear_movement s _
    · split
      · exact knownKept_stop_movement s _
      · exact knownKept_stop_movement_on_point s _

theorem knownKept_start_movement_on_point_register (s : LuaContext) (m point : Ref)
    (x y : Int) : KnownKept s (start_movement_on_point_register s m point x y).ctx := by
  unfold start_movement_on_point_register
  exact fun i hi => knownKept_set_xy
    { s with movements_on_points := lua_settable s.movements_on_points m (some point) }
    m x y i hi

theorem knownKept_start_movement_on_point_y (s : LuaContext) (m point : Ref) (x : Int) :
    KnownKept s (start_movement_on_point_y s m point x).ctx := by
  unfold start_movement_on_point_y
  dsimp only
  split
  · exact (knownKept_set_y (s.lua_setfield point "y" (.number 0)) m 0).kk_trans
      (knownKept_start_movement_on_point_register _ _ _ _ _)
  · split
    · exact knownKept_start_movement_on_point_register _ _ _ _ _
    · exact knownKept_refl s

theorem knownKept_start_movement_on_point (s : LuaContext) (m point : Ref) :
    KnownKept s (start_movement_on_point s m point).ctx ∧
      ((start_movement_on_point s m point).ctx.movements m).known_to_lua = true := by
  have h1 := knownKept_push_movement s m
  have hk := push_movement_known s m
  unfold start_movement_on_point
  dsimp only
  split
  · have h2 := knownKept_start_movement_on_point_y
      ((push_movement s m).lua_setfield point "x" (.number 0)) m point 0
    exact ⟨fun i hi => h2 i (h1 i hi), h2 m hk⟩
  · split
    · have h2 := knownKept_start_movement_on_point_y (push_movement s m) m point
      exact ⟨fun i hi => h2 _ i (h1 i hi), h2 _ m hk⟩
    · exact ⟨h1, hk⟩

theorem movement_api_start_form (s : LuaContext) (args : List LuaValue) (m : Ref)
    (h : arg args 1 = .movement m) :
    movement_api_start s args =
      ⟨(movement_api_stop s args).ctx, some (.type_error 3 "function")⟩ ∨
    ∃ s2 c, KnownKept (movement_api_stop s args).ctx s2 ∧
      SameBindings (movement_api_stop s args).ctx s2 ∧
      movement_api_start s args = start_on_subject s2 c m (arg args 2) := by
  by_cases h3 : 3 ≤ lua_gettop args
  · cases hf : arg args 3 with
    | function f =>
      right
      refine ⟨Movement.set_finished_callback (luaL_ref (movement_api_stop s args).ctx f) m
        (some f), some f, ?_, ?_, ?_⟩
      · exact fun i hi => knownKept_set_finished_callback _ m _ i hi
      · exact (sameBindings_luaL_ref _ _).sb_trans (sameBindings_set_finished_callback _ _ _)
      · simp only [movement_api_start, check_movement, h, h3, if_true, hf]
        cases arg args 2 <;> rfl
    | _ =>
      left
      simp [movement_api_start, check_movement, h, h3, hf]
  · right
    refine ⟨(movement_api_stop s args).ctx, none, knownKept_refl _, sameBindings_refl _, ?_⟩
    simp only [movement_api_start, check_movement, h, h3, if_false]
    cases arg args 2 <;> rfl

theorem knownKept_start_on_subject (s : LuaContext) (c : Option Ref) (m : Ref)
    (subject : LuaValue) : KnownKept s (start_on_subject s c m subject).ctx := by
  cases subject with
  | table point => exact (knownKept_start_movement_on_point s m point).1
  | entity e =>
    exact (knownKept_clear_movement s e).kk_trans (knownKept_set_movement _ e m)
  | drawable d => exact knownKept_start_movement s d m
  | _ => exact knownKept_cancel_callback s c

theorem knownKept_on_obstacle_reached (s : LuaContext) (m : Ref) :
    KnownKept s (movement_on_obstacle_reached s m) := by
  unfold movement_on_obstacle_reached
  split
  · exact knownKept_refl s
  · exact fun i hi => knownKept_push_movement s m i hi

theorem knownKept_on_finished (s : LuaContext) (m : Ref) :
    KnownKept s (movement_on_finished s m) := by
  unfold movement_on_finished
  split
  · exact knownKept_refl s
  · exact fun i hi => knownKept_push_movement s m i hi

theorem knownKept_notify_finished (s : LuaContext) (m : Ref) :
    KnownKept s (Movement.notify_finished s m) := by
  unfold Movement.notify_finished
  dsimp only
  refine KnownKept.kk_trans ?_ (knownKept_on_finished _ m)
  split
  · next r _ =>
    exact fun i hi => knownKept_cancel_callback _ (some r) i
      (knownKept_set_finished_callback s m none i hi)
  · exact knownKept_refl s

theorem knownKept_perform (s : LuaContext) (m : Ref) (a : Action) :
    KnownKept s (Movement.perform s m a) := by
  cases a with
  | set_xy x y => exact knownKept_set_xy s m x y
  | notify_obstacle_reached => exact knownKept_on_obstacle_reached s m
  | notify_finished => exact knownKept_notify_finished s m

theorem knownKept_foldl_perform (m : Ref) (actions : List Action) (s : LuaContext) :
    KnownKept s (actions.foldl (fun t a => Movement.perform t m a) s) := by
  induction actions generalizing s with
  | nil => exact knownKept_refl s
  | cons a rest ih => exact (knownKept_perform s m a).kk_trans (ih _)

theorem knownKept_update (strategy : LuaContext → Ref → List Action) (s : LuaContext)
    (m : Ref) : KnownKept s (Movement.update strategy s m) :=
  fun i hi => knownKept_foldl_perform m _ (s.call (.update m)) i hi

theorem knownKept_foldl_update (strategy : LuaContext → Ref → List Action)
    (entries : List (Ref × Ref)) (s : LuaContext) :
    KnownKept s (entries.foldl (fun t e => Movement.update strategy t e.1) s) := by
  induction entries generalizing s with
  | nil => exact knownKept_refl s
  | cons e rest ih => exact (knownKept_update strategy s e.1).kk_trans (ih _)

theorem knownKept_update_movements (strategy : LuaContext → Ref → List Action)
    (s : LuaContext) : KnownKept s (update_movements strategy s) :=
  knownKept_foldl_update strategy _ s

theorem RegisteredKnown.rk_of_kept {s t : LuaContext} (hs : RegisteredKnown s)
    (hk : KnownKept s t)
    (hreg : ∀ i p, lua_gettable t.movements_on_points i = some p →
      (∃ q, lua_gettable s.movements_on_points i = some q) ∨
        (t.movements i).known_to_lua = true) : RegisteredKnown t := by
  intro i p hp
  rcases hreg i p hp with ⟨q, hq⟩ | h
  · exact hk i (hs i q hq)
  · exact h

theorem RegisteredKnown.rk_same_registry {s t : LuaContext} (hs : RegisteredKnown s)
    (hk : KnownKept s t) (hreg : t.movements_on_points = s.movements_on_points) :
    RegisteredKnown t :=
  hs.rk_of_kept hk (fun i p hp => Or.inl ⟨p, by rw [← hreg]; exact hp⟩)

theorem clear_movement_registry (s : LuaContext) (e : Ref) :
    (MapEntity.clear_movement s e).movements_on_points = s.movements_on_points := by
  unfold MapEntity.clear_movement
  split <;> rfl

theorem stop_movement_registry (s : LuaContext) (d : Ref) :
    (Drawable.stop_movement s d).movements_on_points = s.movements_on_points := by
  unfold Drawable.stop_movement
  split <;> rfl

theorem gettable_remove_some {κ ν : Type} [DecidableEq κ] (t : Table κ ν) (k k2 : κ) (v : ν)
    (h : lua_gettable (lua_settable t k none) k2 = some v) : lua_gettable t k2 = some v := by
  by_cases hk : k2 = k
  · subst hk
    rw [gettable_remove_self] at h
    cases h
  · rwa [gettable_remove_other _ _ _ hk] at h

theorem movement_api_stop_registry (s : LuaContext) (args : List LuaValue) (i p : Ref)
    (h : lua_gettable (movement_api_stop s args).ctx.movements_on_points i = some p) :
    lua_gettable s.movements_on_points i = some p := by
  unfold movement_api_stop at h
  split at h
  · exact h
  · split at h
    · rwa [clear_movement_registry] at h
    · split at h
      · rwa [stop_movement_registry] at h
      · exact gettable_remove_some _ _ _ _ h

theorem registeredKnown_movement_api_stop {s : LuaContext} (hs : RegisteredKnown s)
    (args : List LuaValue) : RegisteredKnown (movement_api_stop s args).ctx :=
  hs.rk_of_kept (knownKept_movement_api_stop s args)
    (fun i p hp => Or.inl ⟨p, movement_api_stop_registry s args i p hp⟩)

theorem registeredKnown_start_on_subject {s : LuaContext} (hs : RegisteredKnown s)
    (c : Option Ref) (m : Ref) (subject : LuaValue) :
    RegisteredKnown (start_on_subject s c m subject).ctx := by
  cases subject with
  | table point =>
    have hb := start_movement_on_point_bindings s m point
    have hk := knownKept_start_movement_on_point s m point
    refine hs.rk_of_kept hk.1 (fun i p hp => ?_)
    have h5 := hb.2.2.2.2
    by_cases hi : i = m
    · subst hi
      exact Or.inr hk.2
    · left
      refine ⟨p, ?_⟩
      change lua_gettable (start_movement_on_point s m point).ctx.movements_on_points i = some p
        at hp
      rw [h5] at hp
      split at hp
      · rwa [gettable_set_other _ _ _ _ hi] at hp
      · exact hp
  | entity e =>
    refine hs.rk_same_registry
      ((knownKept_clear_movement s e).kk_trans (knownKept_set_movement _ e m)) ?_
    exact clear_movement_registry s e
  | drawable d =>
    refine hs.rk_same_registry (knownKept_start_movement s d m) ?_
    exact stop_movement_registry s d
  | nil => exact hs.rk_same_registry (knownKept_cancel_callback s c) (by cases c <;> rfl)
  | boolean b => exact hs.rk_same_registry (knownKept_cancel_callback s c) (by cases c <;> rfl)
  | number n => exact hs.rk_same_registry (knownKept_cancel_callback s c) (by cases c <;> rfl)
  | string n => exact hs.rk_same_registry (knownKept_cancel_callback s c) (by cases c <;> rfl)
  | function f => exact hs.rk_same_registry (knownKept_cancel_callback s c) (by cases c <;> rfl)
  | movement n => exact hs.rk_same_registry (knownKept_cancel_callback s c) (by cases c <;> rfl)

theorem registeredKnown_movement_api_start {s : LuaContext} (hs : RegisteredKnown s)
    (args : List LuaValue) : RegisteredKnown (movement_api_start s args).ctx := by
  by_cases h : ∃ m, arg args 1 = .movement m
  · obtain ⟨m, hm⟩ := h
    have hs1 := registeredKnown_movement_api_stop hs args
    rcases movement_api_start_form s args m hm with h0 | ⟨s2, c, hk, hb, h0⟩
    · rw [h0]
      exact hs1
    · rw [h0]
      exact registeredKnown_start_on_subject (hs1.rk_same_registry hk hb.2.2.2.2) c m _
  · rw [movement_api_start_no_movement s args (fun m hm => h ⟨m, hm⟩)]
    exact hs

theorem Runs.rn_registeredKnown {s0 s : LuaContext} (h0 : s0.movements_on_points = [])
    (hr : Runs s0 s) : RegisteredKnown s := by
  induction hr with
  | init =>
    intro m p hp
    rw [h0] at hp
    cases hp
  | start s args _ ih => exact registeredKnown_movement_api_start ih args
  | stop s args _ ih => exact registeredKnown_movement_api_stop ih args
  | sweep s strategy _ ih =>
    exact ih.rk_same_registry (knownKept_update_movements strategy s)
      (stepAll_update_movements strategy s).1
  | set_xy s m x y _ ih =>
    exact ih.rk_same_registry (knownKept_set_xy s m x y) (sameBindings_set_xy s m x y).2.2.2.2
  | notify s m _ ih =>
    exact ih.rk_same_registry (knownKept_on_position_changed s m)
      (sameBindings_on_position_changed s m).2.2.2.2

theorem sync_point_of_registered (s : LuaContext) (m p : Ref)
    (h : lua_gettable s.movements_on_points m = some p) :
    (sync_point s m).tables p =
      lua_settable (lua_settable (s.tables p) (.string "x") (some (.number (s.movements m).x)))
        (.string "y") (some (.number (s.movements m).y)) := by
  unfold sync_point
  rw [h]
  simp [LuaContext.lua_setfield]

theorem sync_point_of_unregistered (s : LuaContext) (m : Ref)
    (h : lua_gettable s.movements_on_points m = none) : sync_point s m = s := by
  unfold sync_point
  rw [h]

theorem movement_on_position_changed_tables (s : LuaContext) (m : Ref) :
    (movement_on_position_changed s m).tables =
      if (s.movements m).known_to_lua = true then (sync_point s m).tables else s.tables := by
  by_cases h : (s.movements m).known_to_lua = true
  · rw [movement_on_position_changed_of_known s m h, if_pos h]
    split <;> rfl
  · unfold movement_on_position_changed
    rw [if_pos (by simpa using h), if_neg h]

theorem point_equals_xy_of_tables (s : LuaContext) (m p : Ref)
    (h : s.tables p =
      lua_settable (lua_settable (s.tables p) (.string "x") (some (.number (s.movements m).x)))
        (.string "y") (some (.number (s.movements m).y))) : point_equals_xy s m p := by
  have hxy : (LuaValue.string "x") ≠ .string "y" := by decide
  unfold point_equals_xy lua_getfield
  constructor
  · rw [h, gettable_set_other _ _ _ _ hxy, gettable_set_self]
    rfl
  · rw [h, gettable_set_self]
    rfl

theorem point_equals_xy_after_notification (s : LuaContext) (m p : Ref)
    (hk : (s.movements m).known_to_lua = true)
    (h : lua_gettable s.movements_on_points m = some p) :
    point_equals_xy (movement_on_position_changed s m) m p := by
  have hxy : (LuaValue.string "x") ≠ .string "y" := by decide
  unfold point_equals_xy lua_getfield
  rw [movement_on_position_changed_tables, if_pos hk, movement_on_position_changed_movements,
    sync_point_of_registered s m p h]
  constructor
  · rw [gettable_set_other _ _ _ _ hxy, gettable_set_self]
    rfl
  · rw [gettable_set_self]
    rfl

theorem point_equals_xy_of_pointStarted {s : LuaContext} {m p : Ref} {x y : Int}
    {r : CallResult} (h : PointStarted s m p x y r) :
    lua_gettable r.ctx.movements_on_points m = some p ∧ point_equals_xy r.ctx m p := by
  obtain ⟨_, _, h3, h4, h5, h6, h7, _⟩ := h
  exact ⟨h3, by rw [point_equals_xy, h4, h5]; exact ⟨h6, h7⟩⟩

theorem start_movement_on_point_y_synced (s : LuaContext) (m p : Ref) (x : Int)
    (hk : (s.movements m).known_to_lua = true)
    (he : (start_movement_on_point_y s m p x).error = none) :
    lua_gettable (start_movement_on_point_y s m p x).ctx.movements_on_points m = some p ∧
      point_equals_xy (start_movement_on_point_y s m p x).ctx m p := by
  unfold start_movement_on_point_y at he ⊢
  dsimp only at he ⊢
  split
  · exact point_equals_xy_of_pointStarted (pointStarted_register _ m p x 0
      (knownKept_set_y (s.lua_setfield p "y" (.number 0)) m 0 m hk))
  · next hn =>
    rw [if_neg hn] at he
    split
    · exact point_equals_xy_of_pointStarted (pointStarted_register s m p x _ hk)
    · next e h2 =>
      rw [h2] at he
      cases he

theorem start_movement_on_point_synced (s : LuaContext) (m p : Ref)
    (he : (start_movement_on_point s m p).error = none) :
    lua_gettable (start_movement_on_point s m p).ctx.movements_on_points m = some p ∧
      point_equals_xy (start_movement_on_point s m p).ctx m p := by
  have hk := push_movement_known s m
  unfold start_movement_on_point at he ⊢
  dsimp only at he ⊢
  split
  · next hn =>
    rw [if_pos hn] at he
    exact start_movement_on_point_y_synced _ m p 0 hk he
  · next hn =>
    rw [if_neg hn] at he
    split
    · next x h2 =>
      rw [h2] at he
      exact start_movement_on_point_y_synced _ m p x hk he
    · next e h2 =>
      rw [h2] at he
      cases he

/-- C11. In every state reached from an empty registry by `start`, `stop`,
sweeps, position changes and notifications: a "position changed" notification
for a movement registered on a point writes the coordinates of the movement
into the fields x and y of that point, whatever handlers are defined, and
leaves the movement as it is, so that the point equals `movement.get_xy()`
after it; the point equals `movement.get_xy()` right after a `start` on it as
well; and a notification for a movement that is not in the registry leaves
every table as it was. -/
theorem C11_point_follows_movement (s0 s : LuaContext) (h0 : s0.movements_on_points = [])
    (hr : Runs s0 s) :
    (∀ m p, lua_gettable s.movements_on_points m = some p →
      point_equals_xy (movement_on_position_changed s m) m p ∧
      (movement_on_position_changed s m).movements = s.movements) ∧
    (∀ m p args, arg args 1 = .movement m → arg args 2 = .table p →
      (movement_api_start s args).error = none →
      lua_gettable (movement_api_start s args).ctx.movements_on_points m = some p ∧
      point_equals_xy (movement_api_start s args).ctx m p) ∧
    (∀ m, lua_gettable s.movements_on_points m = none →
      (movement_on_position_changed s m).tables = s.tables) := by
  have hrk := hr.rn_registeredKnown h0
  refine ⟨fun m p hp => ?_, fun m p args h1 h2 he => ?_, fun m hm => ?_⟩
  · exact ⟨point_equals_xy_after_notification s m p (hrk m p hp) hp,
      movement_on_position_changed_movements s m⟩
  · rcases movement_api_start_form s args m h1 with h3 | ⟨s2, c, _, _, h3⟩
    · rw [h3] at he
      cases he
    · rw [h3, h2] at he ⊢
      exact start_movement_on_point_synced s2 m p he
  · rw [movement_on_position_changed_tables, sync_point_of_unregistered s m hm]
    split <;> rfl

/-- Witness of C11: movement 0 drives the point 1 and is moved to (3, 4); after
a further notification the point holds x = 3 and y = 4. -/
theorem C11_point_follows_movement_witness :
    lua_getfield ((movement_on_position_changed (Movement.set_xy two_points 0 3 4) 0).tables 1)
      "x" = .number 3 ∧
    lua_getfield ((movement_on_position_changed (Movement.set_xy two_points 0 3 4) 0).tables 1)
      "y" = .number 4 :=
  ((C11_point_follows_movement blank (Movement.set_xy two_points 0 3 4) rfl
    (Runs.set_xy _ 0 3 4 (Runs.start _ [.movement 1, .table 2]
      (Runs.start _ [.movement 0, .table 1] Runs.init)))).1 0 1 (by decide)).1

/-! ## The sweep calls `update()` once per registered movement -/

theorem update_movements_loop_none (update : LuaContext → Ref → LuaContext)
    (hadd : ∀ t m k, lua_gettable t.movements_on_points k = none →
      lua_gettable (update t m).movements_on_points k = none)
    (entries : List (Ref × Ref)) (s : LuaContext) (calls : List Ref) (k : Ref)
    (h : lua_gettable s.movements_on_points k = none) :
    lua_gettable (update_movements_loop update entries s calls).1.movements_on_points k =
      none := by
  induction entries generalizing s calls with
  | nil => exact h
  | cons e rest ih =>
    unfold update_movements_loop
    split
    · exact ih _ _ (hadd s e.1 k h)
    · exact ih _ _ h

theorem update_movements_loop_calls (update : LuaContext → Ref → LuaContext)
    (entries : List (Ref × Ref)) (s : LuaContext) (calls : List Ref) :
    ∃ new, (update_movements_loop update entries s calls).2 = calls ++ new ∧
      new.Sublist (entries.map Prod.fst) := by
  induction entries generalizing s calls with
  | nil => exact ⟨[], by simp [update_movements_loop], List.Sublist.refl _⟩
  | cons e rest ih =>
    unfold update_movements_loop
    split
    · obtain ⟨new, h1, h2⟩ := ih (update s e.1) (calls ++ [e.1])
      refine ⟨e.1 :: new, ?_, ?_⟩
      · rw [h1]
        simp
      · simpa using h2
    · obtain ⟨new, h1, h2⟩ := ih s calls
      exact ⟨new, h1, by simpa using h2.cons e.1⟩

theorem update_movements_loop_called (update : LuaContext → Ref → LuaContext)
    (hadd : ∀ t m k, lua_gettable t.movements_on_points k = none →
      lua_gettable (update t m).movements_on_points k = none)
    (entries : List (Ref × Ref)) (s : LuaContext) (calls : List Ref) (k : Ref)
    (hk : k ∈ entries.map Prod.fst)
    (hend : (lua_gettable
      (update_movements_loop update entries s calls).1.movements_on_points k).isSome = true) :
    k ∈ (update_movements_loop update entries s calls).2 := by
  induction entries generalizing s calls with
  | nil => simp at hk
  | cons e rest ih =>
    unfold update_movements_loop at hend ⊢
    by_cases hreg : (lua_gettable s.movements_on_points e.1).isSome = true
    · rw [if_pos hreg] at hend ⊢
      by_cases hke : k = e.1
      · obtain ⟨new, h1, _⟩ := update_movements_loop_calls update rest (update s e.1)
          (calls ++ [e.1])
        rw [h1, hke]
        simp
      · have hk2 : k ∈ rest.map Prod.fst := by
          simp only [List.map_cons, List.mem_cons] at hk
          rcases hk with h | h
          · exact absurd h hke
          · exact h
        exact ih _ _ hk2 hend
    · rw [if_neg hreg] at hend ⊢
      by_cases hke : k = e.1
      · exfalso
        have hnone : lua_gettable s.movements_on_points k = none := by
          rw [hke]
          cases h : lua_gettable s.movements_on_points e.1 with
          | none => rfl
          | some v => rw [h] at hreg; simp at hreg
        rw [update_movements_loop_none update hadd rest s calls k hnone] at hend
        simp at hend
      · have hk2 : k ∈ rest.map Prod.fst := by
          simp only [List.map_cons, List.mem_cons] at hk
          rcases hk with h | h
          · exact absurd h hke
          · exact h
        exact ih _ _ hk2 hend

theorem update_movements_loop_model (strategy : LuaContext → Ref → List Action)
    (entries : List (Ref × Ref)) (s : LuaContext) (calls : List Ref)
    (h : ∀ k ∈ entries.map Prod.fst, (lua_gettable s.movements_on_points k).isSome = true) :
    update_movements_loop (Movement.update strategy) entries s calls =
      (entries.foldl (fun t e => Movement.update strategy t e.1) s,
        calls ++ entries.map Prod.fst) := by
  induction entries generalizing s calls with
  | nil => simp [update_movements_loop]
  | cons e rest ih =>
    unfold update_movements_loop
    rw [if_pos (h e.1 (by simp))]
    rw [ih]
    · simp
    · intro k hk
      rw [(step_update strategy s e.1).1]
      exact h k (by simp only [List.map_cons, List.mem_cons]; exact Or.inr hk)

theorem gettable_isSome_of_mem {κ ν : Type} [DecidableEq κ] (t : Table κ ν) (k : κ)
    (h : k ∈ t.map Prod.fst) : (lua_gettable t k).isSome = true := by
  cases hg : lua_gettable t k with
  | none => exact absurd h ((gettable_eq_none_iff t k).1 hg)
  | some v => rfl

theorem mem_of_gettable_isSome {κ ν : Type} [DecidableEq κ] (t : Table κ ν) (k : κ)
    (h : (lua_gettable t k).isSome = true) : k ∈ t.map Prod.fst := by
  by_contra hn
  rw [(gettable_eq_none_iff t k).2 hn] at h
  simp at h

theorem update_movements_with_model (strategy : LuaContext → Ref → List Action)
    (s : LuaContext) :
    update_movements_with (Movement.update strategy) s =
      (update_movements strategy s, s.movements_on_points.map Prod.fst) := by
  unfold update_movements_with update_movements
  rw [update_movements_loop_model strategy _ s [] (fun k hk => gettable_isSome_of_mem _ k hk)]
  simp

/-- C13 (amended). One sweep of `update_movements()`, for any `update()` that
adds no entry to the registry, calls `update()` at most once on any movement, exactly
once on each movement that is registered on a point when the sweep starts and
still is when it ends (an `update()` may clear entries; a movement cleared
before its turn is passed over), and never on a movement that is not
registered when the sweep starts; so never on a movement that drives an
entity or a drawable. With the updates of the movement strategies, which leave
the registry alone, the movements updated are exactly the keys of the
registry. -/
theorem C13_sweep_updates_registered_once (update : LuaContext → Ref → LuaContext)
    (s : LuaContext) (hkeys : (s.movements_on_points.map Prod.fst).Nodup)
    (hadd : ∀ t m k, lua_gettable t.movements_on_points k = none →
      lua_gettable (update t m).movements_on_points k = none) :
    (∀ m, (update_movements_with update s).2.count m ≤ 1) ∧
    (∀ m, drives_point s m = true → drives_point (update_movements_with update s).1 m = true →
      (update_movements_with update s).2.count m = 1) ∧
    (∀ m, drives_point s m = false → (update_movements_with update s).2.count m = 0) ∧
    (Consistent s → ∀ m, drives_entity s m = true ∨ drives_drawable s m = true →
      (update_movements_with update s).2.count m = 0) ∧
    (∀ strategy, update_movements_with (Movement.update strategy) s =
      (update_movements strategy s, s.movements_on_points.map Prod.fst)) := by
  obtain ⟨new, h1, h2⟩ := update_movements_loop_calls update s.movements_on_points s []
  have hcalls : (update_movements_with update s).2 = new := by
    unfold update_movements_with
    rw [h1]
    rfl
  have hnodup : new.Nodup := h2.nodup hkeys
  have hle : ∀ m, (update_movements_with update s).2.count m ≤ 1 := fun m => by
    rw [hcalls]
    exact List.nodup_iff_count_le_one.1 hnodup m
  have hzero : ∀ m, drives_point s m = false →
      (update_movements_with update s).2.count m = 0 := fun m hm => by
    rw [hcalls]
    apply List.count_eq_zero_of_not_mem
    intro hmem
    have := gettable_isSome_of_mem s.movements_on_points m (h2.subset hmem)
    unfold drives_point at hm
    rw [this] at hm
    cases hm
  refine ⟨hle, fun m hm hend => ?_, hzero, fun hc m hm => ?_,
    fun strategy => update_movements_with_model strategy s⟩
  · have hmem : m ∈ (update_movements_with update s).2 :=
      update_movements_loop_called update hadd s.movements_on_points s [] m
        (mem_of_gettable_isSome _ m hm) hend
    have hpos : 0 < (update_movements_with update s).2.count m := List.count_pos_iff.2 hmem
    have := hle m
    omega
  · apply hzero
    have h3 := (subjects_le_one_iff s m).1 (hc.2.2 m)
    unfold drives_entity drives_drawable at hm
    unfold drives_point
    rcases hm with hm | hm
    · rcases h3.2.1 with h4 | h4
      · rw [h4] at hm; cases hm
      · rw [h4]; rfl
    · rcases h3.2.2 with h4 | h4
      · rw [h4] at hm; cases hm
      · rw [h4]; rfl

theorem update_adds_no_entry (strategy : LuaContext → Ref → List Action) (t : LuaContext)
    (m k : Ref) (h : lua_gettable t.movements_on_points k = none) :
    lua_gettable (Movement.update strategy t m).movements_on_points k = none := by
  rw [(step_update strategy t m).1]
  exact h

/-- Witness of C13: the movements 0 and 1 drive the points 1 and 2; one sweep
calls `update()` once on movement 0. -/
theorem C13_sweep_updates_registered_once_witness :
    (update_movements_with (Movement.update step_right) two_points).2.count 0 = 1 :=
  (C13_sweep_updates_registered_once (Movement.update step_right) two_points (by decide)
    (update_adds_no_entry step_right)).2.1 0 (by decide) (by decide)

/-- C13, as stated, fails: the movements 0 and 1 are registered on the points 1
and 2, and the `update()` of movement 0 stops movement 1; this `update()` adds
no entry to the registry, yet the sweep calls `update()` on movement 0 only:
movement 1, registered when the sweep starts, is not updated. -/
theorem C13_cleared_movement_is_skipped_counterexample :
    (∀ t m k, lua_gettable t.movements_on_points k = none →
      lua_gettable (update_stopping_other t m).movements_on_points k = none) ∧
    drives_point two_points 0 = true ∧
    drives_point two_points 1 = true ∧
    (update_movements_with update_stopping_other two_points).2 = [0] ∧
    (update_movements_with update_stopping_other two_points).2.count 1 = 0 := by
  refine ⟨fun t m k h => ?_, by decide, by decide, by decide, by decide⟩
  unfold update_stopping_other
  split
  · by_cases hk : k = 1
    · rw [hk]
      exact gettable_remove_self _ _
    · exact (gettable_remove_other _ _ _ hk).trans h
  · exact h

/-! ## The registry holds the points weakly -/

theorem gettable_filter_kept {κ ν : Type} [DecidableEq κ] (t : Table κ ν) (keep : κ × ν → Bool)
    (k : κ) (v : ν) (h : lua_gettable t k = some v) (hk : keep (k, v) = true) :
    lua_gettable (t.filter keep) k = some v := by
  induction t with
  | nil => cases h
  | cons e rest ih =>
    obtain ⟨k1, v1⟩ := e
    rw [gettable_cons] at h
    by_cases h1 : k1 = k
    · subst h1
      rw [if_pos rfl] at h
      cases h
      rw [List.filter_cons, if_pos hk, gettable_cons, if_pos rfl]
    · rw [if_neg h1] at h
      rw [List.filter_cons]
      split
      · rw [gettable_cons, if_neg h1]
        exact ih h
      · exact ih h

theorem gettable_filter_some {κ ν : Type} [DecidableEq κ] (t : Table κ ν) (keep : κ × ν → Bool)
    (k : κ) (v : ν) (h : lua_gettable (t.filter keep) k = some v) :
    keep (k, v) = true ∧ (k, v) ∈ t := by
  induction t with
  | nil => cases h
  | cons e rest ih =>
    obtain ⟨k1, v1⟩ := e
    rw [List.filter_cons] at h
    split at h
    · next hkeep =>
      rw [gettable_cons] at h
      by_cases h1 : k1 = k
      · subst h1
        rw [if_pos rfl] at h
        cases h
        exact ⟨hkeep, List.mem_cons_self _ _⟩
      · rw [if_neg h1] at h
        exact ⟨(ih h).1, List.mem_cons_of_mem _ (ih h).2⟩
    · exact ⟨(ih h).1, List.mem_cons_of_mem _ (ih h).2⟩

theorem gettable_of_mem_nodup {κ ν : Type} [DecidableEq κ] (t : Table κ ν) (k : κ) (v : ν)
    (hn : (t.map Prod.fst).Nodup) (h : (k, v) ∈ t) : lua_gettable t k = some v := by
  induction t with
  | nil => cases h
  | cons e rest ih =>
    obtain ⟨k1, v1⟩ := e
    rw [List.map_cons, List.nodup_cons] at hn
    rw [gettable_cons]
    rcases List.mem_cons.1 h with h1 | h1
    · cases h1
      rw [if_pos rfl]
    · have hne : k1 ≠ k := by
        intro h2
        subst h2
        exact hn.1 (List.mem_map.2 ⟨(k1, v), h1, rfl⟩)
      rw [if_neg hne]
      exact ih hn.2 h1

/-- C14. The registry is created with the metatable `__mode = "v"`: it has
weak values and strong keys. `start` on a point stores the point as the value
under the movement as the key. A cycle of the collector then drops the entry
of every movement whose point is no longer referenced by its owner, keeps the
entry of every movement whose point still is, whether or not the movement
userdata is referenced, and changes nothing but the registry: no `stop()` is
involved and the movement object is as it was. -/
theorem C14_registry_holds_points_weakly (s : LuaContext)
    (point_referenced movement_referenced : Ref → Bool)
    (hkeys : (s.movements_on_points.map Prod.fst).Nodup) :
    has_weak_values movements_on_points_metatable = true ∧
    has_weak_keys movements_on_points_metatable = false ∧
    (register_movement_module s).movements_on_points = [] ∧
    (∀ m p, (start_movement_on_point s m p).error = none →
      lua_gettable (start_movement_on_point s m p).ctx.movements_on_points m = some p) ∧
    (∀ m p, lua_gettable s.movements_on_points m = some p → point_referenced p = false →
      lua_gettable (collectgarbage movements_on_points_metatable point_referenced
        movement_referenced s).movements_on_points m = none) ∧
    (∀ m p, lua_gettable s.movements_on_points m = some p → point_referenced p = true →
      lua_gettable (collectgarbage movements_on_points_metatable point_referenced
        movement_referenced s).movements_on_points m = some p) ∧
    (collectgarbage movements_on_points_metatable point_referenced movement_referenced
      s).movements = s.movements ∧
    (collectgarbage movements_on_points_metatable point_referenced movement_referenced
      s).events = s.events := by
  have hv : has_weak_values movements_on_points_metatable = true := by decide
  have hk : has_weak_keys movements_on_points_metatable = false := by decide
  refine ⟨hv, hk, rfl, fun m p he => (start_movement_on_point_synced s m p he).1,
    fun m p hp hr => ?_, fun m p hp hr => ?_, rfl, rfl⟩
  · cases hg : lua_gettable (collectgarbage movements_on_points_metatable point_referenced
        movement_referenced s).movements_on_points m with
    | none => rfl
    | some q =>
      exfalso
      have h1 := gettable_filter_some _ _ m q hg
      have h2 := gettable_of_mem_nodup _ m q hkeys h1.2
      rw [hp] at h2
      cases h2
      simp [hv, hr] at h1
  · exact gettable_filter_kept _ _ m p hp (by simp [hv, hk, hr])

/-- Witness of C14: the movements 0 and 1 drive the points 1 and 2; the owner
of point 1 drops it and the collector runs: only the entry 1 -> 2 is left. -/
theorem C14_registry_holds_points_weakly_witness :
    lua_gettable (collectgarbage movements_on_points_metatable (fun p => decide (p = 2))
      (fun _ => true) two_points).movements_on_points 0 = none ∧
    lua_gettable (collectgarbage movements_on_points_metatable (fun p => decide (p = 2))
      (fun _ => true) two_points).movements_on_points 1 = some 2 :=
  ⟨(C14_registry_holds_points_weakly two_points (fun p => decide (p = 2)) (fun _ => true)
      (by decide)).2.2.2.2.1 0 1 (by decide) (by decide),
    (C14_registry_holds_points_weakly two_points (fun p => decide (p = 2)) (fun _ => true)
      (by decide)).2.2.2.2.2.1 1 2 (by decide) (by decide)⟩

/-! ## `get_path` and `get_trajectory` -/

/-- C15, evaluated on the array {0, 2, 4}: `set_path` stores the string "024",
and `get_path` then returns the table {[0] = 0, [1] = 2, [2] = 4}: the codes in
order, but under the keys 0, 1, 2 instead of 1, 2, 3, so that the element 1 of
the table returned is the second code and its element 3 is nil. -/
theorem C15_get_path_starts_at_zero :
    (path_movement_api_set_path path_roundtrip_example (.movement 0) (.table 1)).error = none ∧
    ((path_movement_api_set_path path_roundtrip_example (.movement 0) (.table 1)).ctx.movements
      0).path = [48, 50, 52] ∧
    path_movement_api_get_path
      (path_movement_api_set_path path_roundtrip_example (.movement 0) (.table 1)).ctx
      (.movement 0) =
      .ok [(.number 0, .number 0), (.number 1, .number 2), (.number 2, .number 4)] ∧
    lua_rawgeti (path_roundtrip_example.tables 1) 1 = .number 0 ∧
    lua_rawgeti [(.number 0, .number 0), (.number 1, .number 2), (.number 2, .number 4)] 1 =
      .number 2 ∧
    lua_rawgeti (path_roundtrip_example.tables 1) 3 = .number 4 ∧
    lua_rawgeti [(.number 0, .number 0), (.number 1, .number 2), (.number 2, .number 4)] 3 =
      .nil := by
  refine ⟨by decide, by decide, rfl, by decide, by decide, by decide, by decide⟩

/-- C16, evaluated on the array {{1, 2}, {3, 4}}: `set_trajectory` stores the
steps (1, 2) and (3, 4), and `get_trajectory` then returns the table
{[0] = {1, 2}, [1] = {3, 4}}: the pairs in order, each a table {dx, dy}, but
under the keys 0 and 1 instead of 1 and 2, so that the element 1 of the table
returned is the second pair and its element 2 is nil. -/
theorem C16_get_trajectory_starts_at_zero :
    (pixel_movement_api_set_trajectory trajectory_roundtrip_example (.movement 0)
      (.table 1)).error = none ∧
    ((pixel_movement_api_set_trajectory trajectory_roundtrip_example (.movement 0)
      (.table 1)).ctx.movements 0).trajectory = [(1, 2), (3, 4)] ∧
    pixel_movement_api_get_trajectory
      (pixel_movement_api_set_trajectory trajectory_roundtrip_example (.movement 0)
        (.table 1)).ctx (.movement 0) =
      .ok [(.number 0, [(.number 1, .number 1), (.number 2, .number 2)]),
        (.number 1, [(.number 1, .number 3), (.number 2, .number 4)])] ∧
    lua_gettable [((.number 0 : LuaValue), [((.number 1 : LuaValue), (.number 1 : LuaValue)),
        (.number 2, .number 2)]),
      (.number 1, [(.number 1, .number 3), (.number 2, .number 4)])] (.number 1) =
      some [(.number 1, .number 3), (.number 2, .number 4)] ∧
    lua_gettable [((.number 0 : LuaValue), [((.number 1 : LuaValue), (.number 1 : LuaValue)),
        (.number 2, .number 2)]),
      (.number 1, [(.number 1, .number 3), (.number 2, .number 4)])] (.number 2) = none := by
  refine ⟨by decide, by decide, rfl, by decide, by decide⟩

theorem number_cast_ne {i j : Nat} (h : j ≠ i) :
    (LuaValue.number (j : Nat)) ≠ LuaValue.number (i : Nat) := by
  intro h2
  injection h2 with h3
  exact h (by exact_mod_cast h3)

theorem get_path_loop_get (path : List Nat) (i : Nat) (t : LuaTable) (j : Nat) :
    lua_gettable (get_path_loop path i t) (.number (j : Nat)) =
      if i ≤ j ∧ j < i + path.length then
        (path[j - i]?).map (fun c => LuaValue.number (char_to_int c - 48))
      else lua_gettable t (.number (j : Nat)) := by
  induction path generalizing i t with
  | nil =>
    have : ¬ (i ≤ j ∧ j < i + ([] : List Nat).length) := by simp
    rw [if_neg this]
    rfl
  | cons c rest ih =>
    unfold get_path_loop
    rw [ih]
    by_cases hji : j = i
    · subst hji
      have h1 : ¬ (j + 1 ≤ j ∧ j < j + 1 + rest.length) := by omega
      have h2 : j ≤ j ∧ j < j + (c :: rest).length := by simp
      rw [if_neg h1, if_pos h2, gettable_set_self]
      simp
    · rw [gettable_set_other _ _ _ _ (number_cast_ne hji)]
      by_cases hr : i + 1 ≤ j ∧ j < i + 1 + rest.length
      · have h2 : i ≤ j ∧ j < i + (c :: rest).length := by
          simp only [List.length_cons]
          omega
        rw [if_pos hr, if_pos h2]
        have h3 : j - i = (j - (i + 1)) + 1 := by omega
        rw [h3, List.getElem?_cons_succ]
      · have h2 : ¬ (i ≤ j ∧ j < i + (c :: rest).length) := by
          simp only [List.length_cons]
          omega
        rw [if_neg hr, if_neg h2]

theorem get_trajectory_loop_get (trajectory : List (Int × Int)) (i : Nat)
    (t : Table LuaValue LuaTable) (j : Nat) :
    lua_gettable (get_trajectory_loop trajectory i t) (.number (j : Nat)) =
      if i ≤ j ∧ j < i + trajectory.length then (trajectory[j - i]?).map trajectory_pair
      else lua_gettable t (.number (j : Nat)) := by
  induction trajectory generalizing i t with
  | nil =>
    have : ¬ (i ≤ j ∧ j < i + ([] : List (Int × Int)).length) := by simp
    rw [if_neg this]
    rfl
  | cons c rest ih =>
    unfold get_trajectory_loop
    rw [ih]
    by_cases hji : j = i
    · subst hji
      have h1 : ¬ (j + 1 ≤ j ∧ j < j + 1 + rest.length) := by omega
      have h2 : j ≤ j ∧ j < j + (c :: rest).length := by simp
      rw [if_neg h1, if_pos h2, gettable_set_self]
      simp
    · rw [gettable_set_other _ _ _ _ (number_cast_ne hji)]
      by_cases hr : i + 1 ≤ j ∧ j < i + 1 + rest.length
      · have h2 : i ≤ j ∧ j < i + (c :: rest).length := by
          simp only [List.length_cons]
          omega
        rw [if_pos hr, if_pos h2]
        have h3 : j - i = (j - (i + 1)) + 1 := by omega
        rw [h3, List.getElem?_cons_succ]
      · have h2 : ¬ (i ≤ j ∧ j < i + (c :: rest).length) := by
          simp only [List.length_cons]
          omega
        rw [if_neg hr, if_neg h2]

theorem direction8_digit (c : Int) (h0 : 0 ≤ c) (h7 : c ≤ 7) :
    char_to_int (direction8_char (to_int c)) - 48 = c := by
  have h1 : to_int c = c := to_int_of_range c (by omega) (by omega)
  rw [h1]
  unfold direction8_char char_to_int
  have h2 : ((48 + c) % 256).toNat = (48 + c).toNat := by
    rw [Int.emod_eq_of_lt (by omega) (by omega)]
  rw [h2]
  have h3 : (48 + c).toNat % 256 = (48 + c).toNat := Nat.mod_eq_of_lt (by omega)
  rw [h3, if_pos (by omega)]
  omega

/-- For every sequence of direction codes in 0-7, read in the order 1, 2, ...:
`set_path` stores their digits and `get_path` then returns the `i`-th code
under the key `i - 1`, the key `n` of an `n`-element sequence being nil. -/
theorem get_path_after_set_path (s : LuaContext) (m tr : Ref) (codes : List Int)
    (hk : (s.movements m).kind = .path)
    (hentries : List.Forall₂ (fun e c => e.2 = LuaValue.number c) (s.tables tr) codes)
    (hrange : ∀ c ∈ codes, 0 ≤ c ∧ c ≤ 7) :
    ∃ t, path_movement_api_get_path
        (path_movement_api_set_path s (.movement m) (.table tr)).ctx (.movement m) = .ok t ∧
      (∀ j, j < codes.length → lua_rawgeti t (j : Nat) = (codes[j]?).elim .nil .number) ∧
      lua_rawgeti t (codes.length : Nat) = .nil := by
  have h2 : List.Forall₂ (fun e n => lua_tointeger e.2 = some n) (s.tables tr) codes :=
    hentries.imp (fun _ _ h => by rw [h]; rfl)
  have hset : (path_movement_api_set_path s (.movement m) (.table tr)).ctx =
      PathMovement.set_path s m (codes.map (fun n => direction8_char (to_int n))) := by
    simp [path_movement_api_set_path, check_userdata_ok s m _ _ hk, set_path_loop_ok _ _ _ h2]
  have hget : path_movement_api_get_path (PathMovement.set_path s m
      (codes.map (fun n => direction8_char (to_int n)))) (.movement m) =
      .ok (get_path_loop (codes.map (fun n => direction8_char (to_int n))) 0 []) := by
    simp [path_movement_api_get_path, check_userdata, arg, PathMovement.set_path,
      modify_movement_movements, hk]
  rw [hset, hget]
  refine ⟨_, rfl, fun j hj => ?_, ?_⟩
  · unfold lua_rawgeti
    rw [get_path_loop_get, if_pos (by simp; exact hj)]
    simp only [Nat.sub_zero, List.getElem?_map]
    rw [List.getElem?_eq_getElem hj]
    simp only [Option.map_some', Option.getD_some, Option.elim]
    have := hrange codes[j] (List.getElem_mem _)
    rw [direction8_digit _ this.1 this.2]
  · unfold lua_rawgeti
    rw [get_path_loop_get, if_neg (by simp)]
    rfl

/-! ## Savegame: the map of saved values -/

theorem solarus_assert_true (debug : Bool) (message : String) :
    solarus_assert debug true message = .ok () := by
  cases debug <;> rfl

theorem solarus_assert_off (condition : Bool) (message : String) :
    solarus_assert false condition message = .ok () := rfl

theorem check_assertion_true (message : String) :
    check_assertion true message = .ok () := rfl

theorem map_index_index (values : SavedValues) (key : String) (f g : SavedValue → SavedValue) :
    map_index (map_index values key f) key g = map_index values key (fun v => g (f v)) := by
  induction values with
  | nil => simp [map_index]
  | cons e rest ih =>
    obtain ⟨k, v⟩ := e
    by_cases h1 : k = key
    · simp [map_index, h1]
    · by_cases h2 : key < k
      · simp [map_index, h1, h2]
      · simp [map_index, h1, h2, ih]

theorem map_find_index_self (values : SavedValues) (key : String) (f : SavedValue → SavedValue) :
    ∃ x, map_find (map_index values key f) key = some (f x) := by
  induction values with
  | nil => exact ⟨SavedValue.new, by simp [map_index, map_find]⟩
  | cons e rest ih =>
    obtain ⟨k, v⟩ := e
    by_cases h1 : k = key
    · exact ⟨v, by simp [map_index, map_find, h1]⟩
    · by_cases h2 : key < k
      · exact ⟨SavedValue.new, by simp [map_index, map_find, h1, h2]⟩
      · obtain ⟨x, hx⟩ := ih
        exact ⟨x, by simp [map_index, map_find, h1, h2, hx]⟩

theorem map_find_index_other (values : SavedValues) (key other : String)
    (f : SavedValue → SavedValue) (h : other ≠ key) :
    map_find (map_index values key f) other = map_find values other := by
  induction values with
  | nil => simp [map_index, map_find, Ne.symm h]
  | cons e rest ih =>
    obtain ⟨k, v⟩ := e
    by_cases h1 : k = key
    · subst h1
      simp [map_index, map_find, Ne.symm h]
    · by_cases h2 : key < k
      · simp [map_index, map_find, h1, h2, Ne.symm h]
      · simp [map_index, map_find, h1, h2, ih]

theorem map_find_erase_self (values : SavedValues) (key : String) :
    map_find (map_erase values key) key = none := by
  induction values with
  | nil => rfl
  | cons e rest ih =>
    obtain ⟨k, v⟩ := e
    by_cases h1 : k = key
    · simpa [map_erase, List.filter_cons, h1] using ih
    · simpa [map_erase, List.filter_cons, h1, map_find] using ih

theorem map_find_erase_other (values : SavedValues) (key other : String) (h : other ≠ key) :
    map_find (map_erase values key) other = map_find values other := by
  induction values with
  | nil => rfl
  | cons e rest ih =>
    obtain ⟨k, v⟩ := e
    by_cases h1 : k = key
    · subst h1
      simpa [map_erase, List.filter_cons, map_find, Ne.symm h] using ih
    · by_cases h2 : k = other
      · subst h2
        simp [map_erase, List.filter_cons, h1, map_find]
      · simpa [map_erase, List.filter_cons, h1, map_find, h2] using ih

theorem map_erase_absent (values : SavedValues) (key : String)
    (h : map_find values key = none) : map_erase values key = values := by
  induction values with
  | nil => rfl
  | cons e rest ih =>
    obtain ⟨k, v⟩ := e
    by_cases h1 : k = key
    · simp [map_find, h1] at h
    · simp only [map_find, h1, if_false] at h
      have := ih h
      simp only [map_erase] at this ⊢
      rw [List.filter_cons, this]
      simp [h1]

theorem set_string_ok (s : Savegame) (key value : String)
    (hkey : is_valid_lua_identifier key = true) :
    s.set_string key value = .ok
      { s with
        saved_values := map_index s.saved_values key
          (fun v => { v with type := .VALUE_STRING, string_data := value }) } := by
  simp [Savegame.set_string, hkey, check_assertion, map_index_index]

theorem set_integer_ok (s : Savegame) (key : String) (value : Int)
    (hkey : is_valid_lua_identifier key = true) :
    s.set_integer key value = .ok
      { s with
        saved_values := map_index s.saved_values key
          (fun v => { v with type := .VALUE_INTEGER, int_data := value }) } := by
  simp [Savegame.set_integer, hkey, check_assertion, map_index_index]

theorem set_boolean_ok (s : Savegame) (key : String) (value : Bool)
    (hkey : is_valid_lua_identifier key = true) :
    s.set_boolean key value = .ok
      { s with
        saved_values := map_index s.saved_values key
          (fun v => { v with type := .VALUE_BOOLEAN, int_data := if value then 1 else 0 }) } := by
  simp [Savegame.set_boolean, hkey, check_assertion, map_index_index]

theorem unset_ok (s : Savegame) (key : String)
    (hkey : is_valid_lua_identifier key = true) :
    s.unset key = .ok { s with saved_values := map_erase s.saved_values key } := by
  simp [Savegame.unset, hkey, check_assertion]

/-- Claim C17: for a valid key, in every savegame, `set_string` succeeds and
`get_string` then returns the string that was set; likewise `get_integer` after
`set_integer` and `get_boolean` after `set_boolean`; whatever the key held
before, and whether or not the assertions of the getters are compiled in. -/
theorem C17_get_returns_value_set (debug : Bool) (s : Savegame) (key : String)
    (hkey : is_valid_lua_identifier key = true) :
    (∀ v : String, ∃ t, s.set_string key v = .ok t ∧ t.get_string debug key = .ok (v, t)) ∧
    (∀ n : Int, ∃ t, s.set_integer key n = .ok t ∧ t.get_integer debug key = .ok (n, t)) ∧
    (∀ b : Bool, ∃ t, s.set_boolean key b = .ok t ∧ t.get_boolean debug key = .ok (b, t)) := by
  refine ⟨fun v => ⟨_, set_string_ok s key v hkey, ?_⟩,
    fun n => ⟨_, set_integer_ok s key n hkey, ?_⟩,
    fun b => ⟨_, set_boolean_ok s key b hkey, ?_⟩⟩
  · obtain ⟨x, hx⟩ := map_find_index_self s.saved_values key
      (fun w => { w with type := .VALUE_STRING, string_data := v })
    simp [Savegame.get_string, hkey, solarus_assert_true, hx]
  · obtain ⟨x, hx⟩ := map_find_index_self s.saved_values key
      (fun w => { w with type := .VALUE_INTEGER, int_data := n })
    simp [Savegame.get_integer, hkey, solarus_assert_true, hx]
  · obtain ⟨x, hx⟩ := map_find_index_self s.saved_values key
      (fun w => { w with type := .VALUE_BOOLEAN, int_data := if b then 1 else 0 })
    cases b
    · simp only [Bool.false_eq_true, if_false] at hx
      simp [Savegame.get_boolean, hkey, solarus_assert_true, hx]
    · simp only [if_true] at hx
      simp [Savegame.get_boolean, hkey, solarus_assert_true, hx]

/-- Witness of C17: `life` holds an integer; after `set_string("life", "bow")`
the getter of strings returns "bow", also with the assertions compiled in. -/
theorem C17_get_returns_value_set_witness :
    is_valid_lua_identifier "life" = true ∧
    saved_type savegame_example "life" = some .VALUE_INTEGER ∧
    ∃ t, savegame_example.set_string "life" "bow" = .ok t ∧
      t.get_string true "life" = .ok ("bow", t) :=
  ⟨by decide, by decide,
    (C17_get_returns_value_set true savegame_example "life" (by decide)).1 "bow"⟩

/-- Claim C18: for a valid key that has no saved value, `get_string` returns
the empty string, `get_integer` returns 0 and `get_boolean` returns false, and
each leaves the savegame, so the saved values, as it was. -/
theorem C18_getters_default_when_absent (debug : Bool) (s : Savegame) (key : String)
    (hkey : is_valid_lua_identifier key = true)
    (habsent : map_find s.saved_values key = none) :
    s.get_string debug key = .ok ("", s) ∧
    s.get_integer debug key = .ok (0, s) ∧
    s.get_boolean debug key = .ok (false, s) := by
  simp [Savegame.get_string, Savegame.get_integer, Savegame.get_boolean, hkey,
    solarus_assert_true, habsent]

/-- Witness of C18: nothing is saved under `rupees` in the example. -/
theorem C18_getters_default_when_absent_witness :
    is_valid_lua_identifier "rupees" = true ∧
    map_find savegame_example.saved_values "rupees" = none ∧
    savegame_example.get_string true "rupees" = .ok ("", savegame_example) ∧
    savegame_example.get_integer true "rupees" = .ok (0, savegame_example) ∧
    savegame_example.get_boolean true "rupees" = .ok (false, savegame_example) :=
  ⟨by decide, by decide,
    C18_getters_default_when_absent true savegame_example "rupees" (by decide) (by decide)⟩

theorem saved_type_index_self (values : SavedValues) (key : String)
    (f : SavedValue → SavedValue) (type : SavedValueType) (hf : ∀ v, (f v).type = type) (empty : Bool) :
    saved_type ⟨empty, map_index values key f⟩ key = some type := by
  obtain ⟨x, hx⟩ := map_find_index_self values key f
  simp [saved_type, hx, hf]

theorem is_type_of_saved_type (debug : Bool) (s : Savegame) (key : String)
    (hkey : is_valid_lua_identifier key = true) :
    s.is_string debug key = .ok (decide (saved_type s key = some .VALUE_STRING), s) ∧
    s.is_integer debug key = .ok (decide (saved_type s key = some .VALUE_INTEGER), s) ∧
    s.is_boolean debug key = .ok (decide (saved_type s key = some .VALUE_BOOLEAN), s) := by
  cases h : map_find s.saved_values key <;>
    simp [Savegame.is_string, Savegame.is_integer, Savegame.is_boolean, hkey,
      solarus_assert_true, saved_type, h]

theorem is_type_at_most_one (debug : Bool) (s : Savegame) (key : String) :
    ([s.is_string debug key, s.is_integer debug key, s.is_boolean debug key].filter
      returns_true).length ≤ 1 := by
  cases hassert : solarus_assert debug (is_valid_lua_identifier key) (not_a_valid_key key) with
  | error e =>
    simp [Savegame.is_string, Savegame.is_integer, Savegame.is_boolean, hassert, returns_true]
  | ok u =>
    cases h : map_find s.saved_values key with
    | none =>
      simp [Savegame.is_string, Savegame.is_integer, Savegame.is_boolean, hassert,
        returns_true, h]
    | some value =>
      cases ht : value.type <;>
        simp [Savegame.is_string, Savegame.is_integer, Savegame.is_boolean, hassert,
          returns_true, h, ht]

/-- Claim C19: for a valid key, `is_string`, `is_integer` and `is_boolean`
return true exactly when the key has a saved value of that type (and leave the
savegame as it was); for every key, valid or not, at most one of the three
returns true; and after `set_string`, `set_integer` or `set_boolean` on a valid
key exactly the matching one returns true, whatever the key held before. -/
theorem C19_is_type_exactly_matching (debug : Bool) (s : Savegame) (key : String) :
    ([s.is_string debug key, s.is_integer debug key, s.is_boolean debug key].filter
      returns_true).length ≤ 1 ∧
    (is_valid_lua_identifier key = true →
      (s.is_string debug key = .ok (decide (saved_type s key = some .VALUE_STRING), s) ∧
       s.is_integer debug key = .ok (decide (saved_type s key = some .VALUE_INTEGER), s) ∧
       s.is_boolean debug key = .ok (decide (saved_type s key = some .VALUE_BOOLEAN), s)) ∧
      (∀ v : String, ∃ t, s.set_string key v = .ok t ∧
        t.is_string debug key = .ok (true, t) ∧ t.is_integer debug key = .ok (false, t) ∧
        t.is_boolean debug key = .ok (false, t)) ∧
      (∀ n : Int, ∃ t, s.set_integer key n = .ok t ∧
        t.is_string debug key = .ok (false, t) ∧ t.is_integer debug key = .ok (true, t) ∧
        t.is_boolean debug key = .ok (false, t)) ∧
      (∀ b : Bool, ∃ t, s.set_boolean key b = .ok t ∧
        t.is_string debug key = .ok (false, t) ∧ t.is_integer debug key = .ok (false, t) ∧
        t.is_boolean debug key = .ok (true, t))) := by
  refine ⟨is_type_at_most_one debug s key, fun hkey =>
    ⟨is_type_of_saved_type debug s key hkey,
      fun v => ⟨_, set_string_ok s key v hkey, ?_⟩,
      fun n => ⟨_, set_integer_ok s key n hkey, ?_⟩,
      fun b => ⟨_, set_boolean_ok s key b hkey, ?_⟩⟩⟩
  · have ht := saved_type_index_self s.saved_values key
      (fun w => { w with type := .VALUE_STRING, string_data := v }) .VALUE_STRING
      (fun _ => rfl) s.empty
    have h := is_type_of_saved_type debug
      ⟨s.empty, map_index s.saved_values key
        (fun w => { w with type := .VALUE_STRING, string_data := v })⟩ key hkey
    rw [ht] at h
    simpa using h
  · have ht := saved_type_index_self s.saved_values key
      (fun w => { w with type := .VALUE_INTEGER, int_data := n }) .VALUE_INTEGER
      (fun _ => rfl) s.empty
    have h := is_type_of_saved_type debug
      ⟨s.empty, map_index s.saved_values key
        (fun w => { w with type := .VALUE_INTEGER, int_data := n })⟩ key hkey
    rw [ht] at h
    simpa using h
  · have ht := saved_type_index_self s.saved_values key
      (fun w => { w with type := .VALUE_BOOLEAN, int_data := if b then 1 else 0 })
      .VALUE_BOOLEAN (fun _ => rfl) s.empty
    have h := is_type_of_saved_type debug
      ⟨s.empty, map_index s.saved_values key
        (fun w => { w with type := .VALUE_BOOLEAN, int_data := if b then 1 else 0 })⟩ key hkey
    rw [ht] at h
    simpa using h

/-- Witness of C19: `item` holds a string; after `set_integer("item", 3)` only
`is_integer` returns true. -/
theorem C19_is_type_exactly_matching_witness :
    is_valid_lua_identifier "item" = true ∧
    saved_type savegame_example "item" = some .VALUE_STRING ∧
    savegame_example.is_string true "item" = .ok (true, savegame_example) ∧
    ∃ t, savegame_example.set_integer "item" 3 = .ok t ∧
      t.is_string true "item" = .ok (false, t) ∧ t.is_integer true "item" = .ok (true, t) ∧
      t.is_boolean true "item" = .ok (false, t) :=
  ⟨by decide, by decide, by rfl,
    ((C19_is_type_exactly_matching true savegame_example "item").2 (by decide)).2.2.1 3⟩

/-- Claim C20: for a valid key, `unset` succeeds; afterwards the key has no
saved value: `is_string`, `is_integer` and `is_boolean` return false and the
getters return their defaults; every other key finds the same saved value, of
the same type, as before; and when the key had no saved value the savegame is
unchanged. -/
theorem C20_unset_removes_only_key (debug : Bool) (s : Savegame) (key : String)
    (hkey : is_valid_lua_identifier key = true) :
    ∃ t, s.unset key = .ok t ∧
      map_find t.saved_values key = none ∧
      t.is_string debug key = .ok (false, t) ∧
      t.is_integer debug key = .ok (false, t) ∧
      t.is_boolean debug key = .ok (false, t) ∧
      t.get_string debug key = .ok ("", t) ∧
      t.get_integer debug key = .ok (0, t) ∧
      t.get_boolean debug key = .ok (false, t) ∧
      (∀ other, other ≠ key →
        map_find t.saved_values other = map_find s.saved_values other ∧
        saved_type t other = saved_type s other) ∧
      t.empty = s.empty ∧
      (map_find s.saved_values key = none → t = s) := by
  refine ⟨_, unset_ok s key hkey, ?_⟩
  have hnone := map_find_erase_self s.saved_values key
  refine ⟨hnone, ?_, ?_, ?_, ?_, ?_, ?_, ?_, rfl, ?_⟩
  · simp [Savegame.is_string, hkey, solarus_assert_true, hnone]
  · simp [Savegame.is_integer, hkey, solarus_assert_true, hnone]
  · simp [Savegame.is_boolean, hkey, solarus_assert_true, hnone]
  · simp [Savegame.get_string, hkey, solarus_assert_true, hnone]
  · simp [Savegame.get_integer, hkey, solarus_assert_true, hnone]
  · simp [Savegame.get_boolean, hkey, solarus_assert_true, hnone]
  · intro other hother
    have h := map_find_erase_other s.saved_values key other hother
    exact ⟨h, by simp [saved_type, h]⟩
  · intro habsent
    simp [map_erase_absent s.saved_values key habsent]

/-- Witness of C20: `unset("life")` on the example leaves `item` and `open`. -/
theorem C20_unset_removes_only_key_witness :
    is_valid_lua_identifier "life" = true ∧
    saved_type savegame_example "life" = some .VALUE_INTEGER ∧
    ∃ t, savegame_example.unset "life" = .ok t ∧
      map_find t.saved_values "life" = none ∧
      t.is_integer true "life" = .ok (false, t) ∧
      t.get_integer true "life" = .ok (0, t) ∧
      map_find t.saved_values "item" = some ⟨.VALUE_STRING, "sword", 0⟩ ∧
      map_find t.saved_values "open" = some ⟨.VALUE_BOOLEAN, "", 1⟩ := by
  obtain ⟨t, h1, h2, _, h4, _, _, h7, _, h9, _, _⟩ :=
    C20_unset_removes_only_key true savegame_example "life" (by decide)
  exact ⟨by decide, by decide, t, h1, h2, h4, h7,
    by rw [(h9 "item" (by decide)).1]; rfl, by rw [(h9 "open" (by decide)).1]; rfl⟩

/-! ## Savegame: the keys are valid and in ascending order -/

theorem map_index_keys (values : SavedValues) (key : String) (f : SavedValue → SavedValue)
    (k : String) (h : k ∈ (map_index values key f).map Prod.fst) :
    k = key ∨ k ∈ values.map Prod.fst := by
  induction values with
  | nil => simpa [map_index] using h
  | cons e rest ih =>
    obtain ⟨k1, v⟩ := e
    by_cases h1 : k1 = key
    · right
      simpa [map_index, h1] using h
    · by_cases h2 : key < k1
      · simp only [map_index, h1, h2, if_true, if_false, List.map_cons, List.mem_cons] at h
        rcases h with h | h | h
        · exact Or.inl h
        · exact Or.inr (by simp [h])
        · exact Or.inr (by simp only [List.map_cons, List.mem_cons]; exact Or.inr h)
      · simp only [map_index, h1, h2, if_false, List.map_cons, List.mem_cons] at h
        rcases h with h | h
        · exact Or.inr (by simp [h])
        · rcases ih h with h3 | h3
          · exact Or.inl h3
          · exact Or.inr (by simp only [List.map_cons, List.mem_cons]; exact Or.inr h3)

theorem map_index_sorted (values : SavedValues) (key : String) (f : SavedValue → SavedValue)
    (h : (values.map Prod.fst).Pairwise (fun a b => a < b)) :
    ((map_index values key f).map Prod.fst).Pairwise (fun a b => a < b) := by
  induction values with
  | nil => simp [map_index]
  | cons e rest ih =>
    obtain ⟨k1, v⟩ := e
    simp only [List.map_cons, List.pairwise_cons] at h
    by_cases h1 : k1 = key
    · simp only [map_index, h1, if_true, List.map_cons, List.pairwise_cons]
      exact ⟨fun a ha => h1 ▸ h.1 a ha, h.2⟩
    · by_cases h2 : key < k1
      · simp only [map_index, h1, h2, if_true, if_false, List.map_cons, List.pairwise_cons,
          List.mem_cons]
        refine ⟨fun a ha => ?_, h⟩
        rcases ha with ha | ha
        · exact ha ▸ h2
        · exact lt_trans h2 (h.1 a ha)
      · simp only [map_index, h1, h2, if_false, List.map_cons, List.pairwise_cons]
        refine ⟨fun a ha => ?_, ih h.2⟩
        rcases map_index_keys rest key f a ha with h3 | h3
        · rw [h3]
          exact lt_of_le_of_ne (not_lt.mp h2) h1
        · exact h.1 a h3

theorem map_erase_sorted (values : SavedValues) (key : String)
    (h : (values.map Prod.fst).Pairwise (fun a b => a < b)) :
    ((map_erase values key).map Prod.fst).Pairwise (fun a b => a < b) :=
  h.sublist ((List.filter_sublist values).map Prod.fst)

theorem map_erase_keys (values : SavedValues) (key : String) (k : String)
    (h : k ∈ (map_erase values key).map Prod.fst) : k ∈ values.map Prod.fst :=
  ((List.filter_sublist values).map Prod.fst).subset h

theorem set_string_returns {s t : Savegame} {key value : String}
    (h : s.set_string key value = .ok t) :
    is_valid_lua_identifier key = true ∧
    t = { s with
          saved_values := map_index s.saved_values key
            (fun v => { v with type := .VALUE_STRING, string_data := value }) } := by
  cases hk : is_valid_lua_identifier key with
  | false => simp [Savegame.set_string, check_assertion, hk] at h
  | true =>
    rw [set_string_ok s key value hk] at h
    exact ⟨rfl, (Except.ok.inj h).symm⟩

theorem set_integer_returns {s t : Savegame} {key : String} {value : Int}
    (h : s.set_integer key value = .ok t) :
    is_valid_lua_identifier key = true ∧
    t = { s with
          saved_values := map_index s.saved_values key
            (fun v => { v with type := .VALUE_INTEGER, int_data := value }) } := by
  cases hk : is_valid_lua_identifier key with
  | false => simp [Savegame.set_integer, check_assertion, hk] at h
  | true =>
    rw [set_integer_ok s key value hk] at h
    exact ⟨rfl, (Except.ok.inj h).symm⟩

theorem set_boolean_returns {s t : Savegame} {key : String} {value : Bool}
    (h : s.set_boolean key value = .ok t) :
    is_valid_lua_identifier key = true ∧
    t = { s with
          saved_values := map_index s.saved_values key
            (fun v => { v with type := .VALUE_BOOLEAN, int_data := if value then 1 else 0 }) } := by
  cases hk : is_valid_lua_identifier key with
  | false => simp [Savegame.set_boolean, check_assertion, hk] at h
  | true =>
    rw [set_boolean_ok s key value hk] at h
    exact ⟨rfl, (Except.ok.inj h).symm⟩

theorem unset_returns {s t : Savegame} {key : String} (h : s.unset key = .ok t) :
    is_valid_lua_identifier key = true ∧
    t = { s with saved_values := map_erase s.saved_values key } := by
  cases hk : is_valid_lua_identifier key with
  | false => simp [Savegame.unset, check_assertion, hk] at h
  | true =>
    rw [unset_ok s key hk] at h
    exact ⟨rfl, (Except.ok.inj h).symm⟩

theorem std_string_of_no_nul (chars : String) (h : Char.ofNat 0 ∉ chars.data) :
    std_string chars = chars := by
  have h2 : chars.data.takeWhile (fun c => decide (c ≠ Char.ofNat 0)) = chars.data :=
    List.takeWhile_eq_self_iff.2 (fun c hc => by
      simp only [ne_eq, decide_not, Bool.not_eq_true', decide_eq_false_iff_not]
      exact fun h3 => h (h3 ▸ hc))
  exact String.ext h2

theorem std_string_of_valid (key : String) (h : is_valid_lua_identifier key = true) :
    std_string key = key := by
  apply std_string_of_no_nul
  intro hc
  unfold is_valid_lua_identifier at h
  split at h
  · simp at h
  · next c rest heq =>
    rw [heq] at hc
    simp only [Bool.and_eq_true, List.all_eq_true, Bool.or_eq_true, decide_eq_true_eq] at h
    rcases h.2 _ hc with h1 | h1
    · exact absurd h1 (by decide)
    · exact absurd h1 (by decide)

theorem of_setter_returned {r : Except String Savegame} {t : Savegame}
    (h : NewindexResult.of_setter r = .returned t) : r = .ok t := by
  cases r with
  | error e => simp [NewindexResult.of_setter] at h
  | ok s =>
    simp only [NewindexResult.of_setter, NewindexResult.returned.injEq] at h
    rw [h]

theorem l_newindex_returns {s t : Savegame} {args : List LuaValue}
    (h : l_newindex s args = .returned t) :
    ∃ key, (∃ b, s.set_boolean key b = .ok t) ∨ (∃ n, s.set_integer key n = .ok t) ∨
      (∃ v, s.set_string key v = .ok t) := by
  unfold l_newindex at h
  cases hk : luaL_checkstring args 2 with
  | error e => simp [hk] at h
  | ok chars =>
    simp only [hk] at h
    refine ⟨std_string chars, ?_⟩
    cases hv : arg args 3 <;> simp only [hv] at h
    case boolean b => exact Or.inl ⟨_, of_setter_returned h⟩
    case number n => exact Or.inr (Or.inl ⟨_, of_setter_returned h⟩)
    case string v => exact Or.inr (Or.inr ⟨_, of_setter_returned h⟩)
    all_goals exact absurd h (by simp)

theorem valid_keys_map_index (values : SavedValues) (key : String) (f : SavedValue → SavedValue)
    (hkey : is_valid_lua_identifier key = true)
    (h : ∀ k ∈ values.map Prod.fst, is_valid_lua_identifier k = true) :
    ∀ k ∈ (map_index values key f).map Prod.fst, is_valid_lua_identifier k = true := by
  intro k hk
  rcases map_index_keys values key f k hk with h1 | h1
  · rw [h1]
    exact hkey
  · exact h k h1

theorem Reached.rd_sorted {s : Savegame} (h : Reached s) :
    (s.saved_values.map Prod.fst).Pairwise (fun a b => a < b) := by
  induction h with
  | new empty => simp
  | set_string key value _ hs ih =>
    rw [(set_string_returns hs).2]
    exact map_index_sorted _ _ _ ih
  | set_integer key value _ hs ih =>
    rw [(set_integer_returns hs).2]
    exact map_index_sorted _ _ _ ih
  | set_boolean key value _ hs ih =>
    rw [(set_boolean_returns hs).2]
    exact map_index_sorted _ _ _ ih
  | unset key _ hs ih =>
    rw [(unset_returns hs).2]
    exact map_erase_sorted _ _ ih
  | save _ ih => exact ih
  | l_newindex args _ hs ih =>
    obtain ⟨key, ⟨b, hb⟩ | ⟨n, hn⟩ | ⟨v, hv⟩⟩ := l_newindex_returns hs
    · rw [(set_boolean_returns hb).2]
      exact map_index_sorted _ _ _ ih
    · rw [(set_integer_returns hn).2]
      exact map_index_sorted _ _ _ ih
    · rw [(set_string_returns hv).2]
      exact map_index_sorted _ _ _ ih

theorem Reached.rd_valid {s : Savegame} (h : Reached s) :
    ∀ k ∈ s.saved_values.map Prod.fst, is_valid_lua_identifier k = true := by
  induction h with
  | new empty => simp
  | set_string key value _ hs ih =>
    rw [(set_string_returns hs).2]
    exact valid_keys_map_index _ _ _ (set_string_returns hs).1 ih
  | set_integer key value _ hs ih =>
    rw [(set_integer_returns hs).2]
    exact valid_keys_map_index _ _ _ (set_integer_returns hs).1 ih
  | set_boolean key value _ hs ih =>
    rw [(set_boolean_returns hs).2]
    exact valid_keys_map_index _ _ _ (set_boolean_returns hs).1 ih
  | unset key _ hs ih =>
    rw [(unset_returns hs).2]
    exact fun k hk => ih k (map_erase_keys _ _ k hk)
  | save _ ih => exact ih
  | l_newindex args _ hs ih =>
    obtain ⟨key, ⟨b, hb⟩ | ⟨n, hn⟩ | ⟨v, hv⟩⟩ := l_newindex_returns hs
    · rw [(set_boolean_returns hb).2]
      exact valid_keys_map_index _ _ _ (set_boolean_returns hb).1 ih
    · rw [(set_integer_returns hn).2]
      exact valid_keys_map_index _ _ _ (set_integer_returns hn).1 ih
    · rw [(set_string_returns hv).2]
      exact valid_keys_map_index _ _ _ (set_string_returns hv).1 ih

theorem map_find_of_not_mem (values : SavedValues) (key : String)
    (h : key ∉ values.map Prod.fst) : map_find values key = none := by
  induction values with
  | nil => rfl
  | cons e rest ih =>
    obtain ⟨k, v⟩ := e
    simp only [List.map_cons, List.mem_cons, not_or] at h
    simp [map_find, Ne.symm h.1, ih h.2]

theorem map_find_of_mem_sorted (values : SavedValues) (key : String) (value : SavedValue)
    (hs : (values.map Prod.fst).Pairwise (fun a b => a < b))
    (h : (key, value) ∈ values) : map_find values key = some value := by
  induction values with
  | nil => simp at h
  | cons e rest ih =>
    obtain ⟨k, v⟩ := e
    simp only [List.map_cons, List.pairwise_cons] at hs
    simp only [List.mem_cons, Prod.mk.injEq] at h
    rcases h with ⟨h1, h2⟩ | h
    · simp [map_find, h1, h2]
    · have hlt : k < key := hs.1 key (List.mem_map_of_mem Prod.fst h)
      simp [map_find, ne_of_lt hlt, ih hs.2 h]

theorem mem_of_map_find (values : SavedValues) (key : String) (value : SavedValue)
    (h : map_find values key = some value) : (key, value) ∈ values := by
  induction values with
  | nil => simp [map_find] at h
  | cons e rest ih =>
    obtain ⟨k, v⟩ := e
    by_cases h1 : k = key
    · simp only [map_find, h1, if_true, Option.some.injEq] at h
      simp [h1, h]
    · simp only [map_find, h1, if_false] at h
      exact List.mem_cons_of_mem _ (ih h)

/-! ## Savegame: the text written by `save()` -/

theorem save_loop_text (values : SavedValues) (oss : String) :
    save_loop values oss = oss ++ saved_text values := by
  induction values generalizing oss with
  | nil => simp [save_loop, saved_text]
  | cons e rest ih =>
    obtain ⟨key, value⟩ := e
    obtain ⟨type, string_data, int_data⟩ := value
    cases type
    · simp only [save_loop, saved_text, saved_line, value_text, ih, String.append_assoc,
        reduceCtorEq, if_false]
    · simp [save_loop, saved_text, saved_line, value_text, ih, String.append_assoc]
    · simp [save_loop, saved_text, saved_line, value_text, ih, String.append_assoc]

/-! ## The decimal text of an integer reads back as the integer -/

theorem digitChar_digit (k : Nat) (h : k < 10) :
    (Nat.digitChar k).isDigit = true ∧ (Nat.digitChar k).toNat - 48 = k := by
  interval_cases k <;> exact ⟨by decide, by decide⟩

theorem toDigitsCore_decimal (fuel : Nat) :
    ∀ (n : Nat) (ds : List Char), n < fuel →
      ∃ cs, Nat.toDigitsCore 10 fuel n ds = cs ++ ds ∧ cs ≠ [] ∧
        cs.all Char.isDigit = true ∧
        cs.foldl (fun a c => 10 * a + (c.toNat - 48)) 0 = n := by
  induction fuel with
  | zero => intro n ds h; omega
  | succ fuel ih =>
    intro n ds h
    have hd := digitChar_digit (n % 10) (Nat.mod_lt n (by decide))
    by_cases h0 : n / 10 = 0
    · refine ⟨[Nat.digitChar (n % 10)], by simp [Nat.toDigitsCore, h0], by simp,
        by simp [hd.1], ?_⟩
      simp only [List.foldl_cons, List.foldl_nil, hd.2]
      omega
    · obtain ⟨cs, h1, h2, h3, h4⟩ := ih (n / 10) (Nat.digitChar (n % 10) :: ds) (by omega)
      refine ⟨cs ++ [Nat.digitChar (n % 10)], by simp [Nat.toDigitsCore, h0, h1], by simp,
        by simp [h3, hd.1], ?_⟩
      simp only [List.foldl_append, List.foldl_cons, List.foldl_nil, h4, hd.2]
      omega

theorem decimal_repr (m : Nat) : decimal (Nat.repr m).data = some m ∧
    ∀ cs, (Nat.repr m).data ≠ '-' :: cs := by
  obtain ⟨cs, h1, h2, h3, h4⟩ := toDigitsCore_decimal (m + 1) m [] (by omega)
  have hdata : (Nat.repr m).data = cs := by
    simp [Nat.repr, Nat.toDigits, h1, List.asString]
  rw [hdata]
  refine ⟨by simp [decimal, h2, h3, h4], fun cs2 hcs => ?_⟩
  rw [hcs] at h3
  simp at h3

theorem lua_str2number_toString (n : Int) : lua_str2number (toString n) = some n := by
  cases n with
  | ofNat m =>
    have h := decimal_repr m
    have hs : toString (Int.ofNat m) = Nat.repr m := rfl
    rw [hs]
    unfold lua_str2number
    split
    · next cs heq => exact absurd heq (h.2 cs)
    · simp [h.1]
  | negSucc m =>
    have h := decimal_repr (m + 1)
    have hs : (toString (Int.negSucc m)).data = '-' :: (Nat.repr (m + 1)).data := rfl
    unfold lua_str2number
    rw [hs]
    simp only [h.1, Option.map_some']
    rfl

/-- Claim C22: `save()` writes the lines of the saved values one after the
other, each `key = value` ended by a newline, with `true` or `false` for a
boolean, the decimal text (which reads back as the number) for an integer and
the string between double quotes for a string; in every savegame reached from
one with no saved value the entries are visited in strictly ascending order of
the keys, and they are exactly the saved values found under their keys; after
`save()`, `is_empty()` returns false and the saved values are unchanged. -/
theorem C22_save_writes_lines_in_key_order (s : Savegame) (h : Reached s) :
    s.save.1 = saved_text s.saved_values ∧
    (∀ value : SavedValue, value.type = .VALUE_INTEGER →
      lua_str2number (value_text value) = some value.int_data) ∧
    (s.saved_values.map Prod.fst).Pairwise (fun a b => a < b) ∧
    (∀ key value, (key, value) ∈ s.saved_values ↔ map_find s.saved_values key = some value) ∧
    s.save.2.is_empty = false ∧
    s.save.2.saved_values = s.saved_values := by
  refine ⟨?_, fun value hv => ?_, h.rd_sorted, fun key value =>
    ⟨map_find_of_mem_sorted _ key value h.rd_sorted, mem_of_map_find _ key value⟩, rfl, rfl⟩
  · simp [Savegame.save, save_loop_text]
  · simp only [value_text, hv]
    exact lua_str2number_toString value.int_data

theorem savegame_example_reached : Reached savegame_example := by
  have h1 : Reached ⟨false, [("open", ⟨.VALUE_BOOLEAN, "", 1⟩)]⟩ :=
    Reached.set_boolean "open" true (Reached.new false) (by rfl)
  have h2 : Reached ⟨false, [("life", ⟨.VALUE_INTEGER, "", 7⟩),
      ("open", ⟨.VALUE_BOOLEAN, "", 1⟩)]⟩ :=
    Reached.set_integer "life" 7 h1 (by
      have hlt : "life" < "open" := by rw [String.lt_iff_toList_lt]; decide
      rw [set_integer_ok _ _ _ (by decide)]
      simp [map_index, hlt, SavedValue.new])
  exact Reached.set_string "item" "sword" h2 (by
    have hlt : "item" < "life" := by rw [String.lt_iff_toList_lt]; decide
    rw [set_string_ok _ _ _ (by decide)]
    simp [map_index, hlt, savegame_example, SavedValue.new])

/-- Witness of C22: the example is reached by three setters called in an order
that is not the order of the keys; its text has the three lines in key order. -/
theorem C22_save_writes_lines_in_key_order_witness :
    Reached savegame_example ∧
    savegame_example.save.1 = "item = \"sword\"\nlife = 7\nopen = true\n" ∧
    savegame_example.save.2.is_empty = false ∧
    savegame_example.save.2.saved_values = savegame_example.saved_values :=
  ⟨savegame_example_reached,
    (C22_save_writes_lines_in_key_order savegame_example savegame_example_reached).1.trans
      (by decide),
    (C22_save_writes_lines_in_key_order savegame_example savegame_example_reached).2.2.2.2⟩

/-! ## Savegame: what `l_newindex` stores -/

theorem stored_after_set_string (debug : Bool) (s : Savegame) (key value : String)
    (hkey : is_valid_lua_identifier key = true) :
    ∃ t, s.set_string key value = .ok t ∧ t.is_string debug key = .ok (true, t) ∧
      t.get_string debug key = .ok (value, t) := by
  refine ⟨_, set_string_ok s key value hkey, ?_⟩
  obtain ⟨x, hx⟩ := map_find_index_self s.saved_values key
    (fun w => { w with type := .VALUE_STRING, string_data := value })
  simp [Savegame.is_string, Savegame.get_string, hkey, solarus_assert_true, hx]

theorem stored_after_set_integer (debug : Bool) (s : Savegame) (key : String) (value : Int)
    (hkey : is_valid_lua_identifier key = true) :
    ∃ t, s.set_integer key value = .ok t ∧ t.is_integer debug key = .ok (true, t) ∧
      t.get_integer debug key = .ok (value, t) := by
  refine ⟨_, set_integer_ok s key value hkey, ?_⟩
  obtain ⟨x, hx⟩ := map_find_index_self s.saved_values key
    (fun w => { w with type := .VALUE_INTEGER, int_data := value })
  simp [Savegame.is_integer, Savegame.get_integer, hkey, solarus_assert_true, hx]

theorem stored_after_set_boolean (debug : Bool) (s : Savegame) (key : String) (value : Bool)
    (hkey : is_valid_lua_identifier key = true) :
    ∃ t, s.set_boolean key value = .ok t ∧ t.is_boolean debug key = .ok (true, t) ∧
      t.get_boolean debug key = .ok (value, t) := by
  refine ⟨_, set_boolean_ok s key value hkey, ?_⟩
  obtain ⟨x, hx⟩ := map_find_index_self s.saved_values key
    (fun w => { w with type := .VALUE_BOOLEAN, int_data := if value then 1 else 0 })
  cases value
  · simp only [Bool.false_eq_true, if_false] at hx
    simp [Savegame.is_boolean, Savegame.get_boolean, hkey, solarus_assert_true, hx]
  · simp only [if_true] at hx
    simp [Savegame.is_boolean, Savegame.get_boolean, hkey, solarus_assert_true, hx]

/-- C23 (amended). `l_newindex`, called for the assignment of `value` to the
valid key `key`, stores a boolean when the value is a Lua boolean, an integer
(the number converted to `int`) when it is a number and a string when it is a
string: the type test of that kind then returns true and the getter of that
kind returns the value, which for a string is the string read as a C string,
its characters before the first NUL: a string with no NUL is stored whole. For
a value of any other kind it raises the type error "string, number or boolean
expected" on argument 3 and the savegame is the one it was called on. -/
theorem C23_newindex_stores_by_type (debug : Bool) (s : Savegame) (env : LuaValue)
    (key : String) (hkey : is_valid_lua_identifier key = true) :
    (∀ b : Bool, ∃ t, l_newindex s [env, .string key, .boolean b] = .returned t ∧
      s.set_boolean key b = .ok t ∧ t.is_boolean debug key = .ok (true, t) ∧
      t.get_boolean debug key = .ok (b, t)) ∧
    (∀ n : Int, ∃ t, l_newindex s [env, .string key, .number n] = .returned t ∧
      s.set_integer key (to_int n) = .ok t ∧ t.is_integer debug key = .ok (true, t) ∧
      t.get_integer debug key = .ok (to_int n, t)) ∧
    (∀ v : String, ∃ t, l_newindex s [env, .string key, .string v] = .returned t ∧
      s.set_string key (std_string v) = .ok t ∧ t.is_string debug key = .ok (true, t) ∧
      t.get_string debug key = .ok (std_string v, t)) ∧
    (∀ v : String, Char.ofNat 0 ∉ v.data →
      ∃ t, l_newindex s [env, .string key, .string v] = .returned t ∧
        s.set_string key v = .ok t ∧ t.is_string debug key = .ok (true, t) ∧
        t.get_string debug key = .ok (v, t)) ∧
    (∀ value : LuaValue, (∀ b, value ≠ .boolean b) → (∀ n, value ≠ .number n) →
      (∀ v, value ≠ .string v) →
      l_newindex s [env, .string key, value] =
        .raised (.type_error 3 "string, number or boolean") s) := by
  have hk := std_string_of_valid key hkey
  have hstring : ∀ v : String, ∃ t, l_newindex s [env, .string key, .string v] = .returned t ∧
      s.set_string key (std_string v) = .ok t ∧ t.is_string debug key = .ok (true, t) ∧
      t.get_string debug key = .ok (std_string v, t) := by
    intro v
    obtain ⟨t, h1, h2, h3⟩ := stored_after_set_string debug s key (std_string v) hkey
    exact ⟨t, by simp [l_newindex, luaL_checkstring, arg, hk, h1,
      NewindexResult.of_setter], h1, h2, h3⟩
  refine ⟨fun b => ?_, fun n => ?_, hstring, fun v hv => ?_, fun value hb hn hv => ?_⟩
  · obtain ⟨t, h1, h2, h3⟩ := stored_after_set_boolean debug s key b hkey
    exact ⟨t, by simp [l_newindex, luaL_checkstring, arg, lua_toboolean, hk, h1,
      NewindexResult.of_setter], h1, h2, h3⟩
  · obtain ⟨t, h1, h2, h3⟩ := stored_after_set_integer debug s key (to_int n) hkey
    exact ⟨t, by simp [l_newindex, luaL_checkstring, arg, lua_tointeger, hk, h1,
      NewindexResult.of_setter], h1, h2, h3⟩
  · have h := hstring v
    rw [std_string_of_no_nul v hv] at h
    exact h
  · cases value with
    | boolean b => exact absurd rfl (hb b)
    | number n => exact absurd rfl (hn n)
    | string v => exact absurd rfl (hv v)
    | _ => simp [l_newindex, luaL_checkstring, arg]

/-- Witness of C23 (amended): the line `life = 300` of a savegame file stores
the integer 300 under `life`, the assignment of the string ab, NUL, cd to `name`
stores the string ab, and `life = nil` raises the type error and stores
nothing. -/
theorem C23_newindex_stores_by_type_witness :
    is_valid_lua_identifier "life" = true ∧
    (∃ t, l_newindex no_saved_value [.table 0, .string "life", .number 300] = .returned t ∧
      no_saved_value.set_integer "life" (to_int 300) = .ok t ∧
      t.is_integer true "life" = .ok (true, t) ∧
      t.get_integer true "life" = .ok (to_int 300, t)) ∧
    to_int 300 = 300 ∧
    (∃ t, l_newindex no_saved_value [.table 0, .string "name", .string "ab\x00cd"] =
        .returned t ∧
      no_saved_value.set_string "name" (std_string "ab\x00cd") = .ok t ∧
      t.is_string true "name" = .ok (true, t) ∧
      t.get_string true "name" = .ok (std_string "ab\x00cd", t)) ∧
    std_string "ab\x00cd" = "ab" ∧
    l_newindex no_saved_value [.table 0, .string "life", .nil] =
      .raised (.type_error 3 "string, number or boolean") no_saved_value :=
  ⟨by decide,
    (C23_newindex_stores_by_type true no_saved_value (.table 0) "life" (by decide)).2.1 300,
    by decide,
    (C23_newindex_stores_by_type true no_saved_value (.table 0) "name" (by decide)).2.2.1
      "ab\x00cd",
    by decide,
    (C23_newindex_stores_by_type true no_saved_value (.table 0) "life" (by decide)).2.2.2.2 .nil
      (fun _ h => by cases h) (fun _ h => by cases h) (fun _ h => by cases h)⟩

/-- C23, as stated, fails: the string assigned to `name` is made of ab, a NUL
and cd; `l_newindex` returns, and the string then saved under `name` is ab,
not the string of the assignment. -/
theorem C23_string_is_cut_counterexample :
    l_newindex no_saved_value [.table 0, .string "name", .string "ab\x00cd"] =
      .returned ⟨true, [("name", ⟨.VALUE_STRING, "ab", 0⟩)]⟩ ∧
    Savegame.get_string true ⟨true, [("name", ⟨.VALUE_STRING, "ab", 0⟩)]⟩ "name" =
      .ok ("ab", ⟨true, [("name", ⟨.VALUE_STRING, "ab", 0⟩)]⟩) ∧
    "ab" ≠ "ab\x00cd" :=
  ⟨rfl, rfl, by decide⟩

/-! ## Savegame: the assertions -/

/-- C24 (amended). With the assertions checked, a getter called on a valid key
whose saved value has another type than the getter's fails its assertion:
`get_string` with "Value 'key' is not a string", `get_integer` with "... is not
an integer", `get_boolean` with "... is not a boolean"; none returns a value. -/
theorem C24_getter_asserts_type (s : Savegame) (key : String) (value : SavedValue)
    (hkey : is_valid_lua_identifier key = true)
    (hfind : map_find s.saved_values key = some value) :
    (value.type ≠ .VALUE_STRING →
      s.get_string true key = .error ("Value '" ++ key ++ "' is not a string")) ∧
    (value.type ≠ .VALUE_INTEGER →
      s.get_integer true key = .error ("Value '" ++ key ++ "' is not an integer")) ∧
    (value.type ≠ .VALUE_BOOLEAN →
      s.get_boolean true key = .error ("Value '" ++ key ++ "' is not a boolean")) := by
  refine ⟨fun h => ?_, fun h => ?_, fun h => ?_⟩
  · simp [Savegame.get_string, hkey, solarus_assert, hfind, h]
  · simp [Savegame.get_integer, hkey, solarus_assert, hfind, h]
  · simp [Savegame.get_boolean, hkey, solarus_assert, hfind, h]

/-- Witness of C24: `life` holds the integer 7 in the example; `get_string` and
`get_boolean` fail their assertion on it. -/
theorem C24_getter_asserts_type_witness :
    is_valid_lua_identifier "life" = true ∧
    map_find savegame_example.saved_values "life" = some ⟨.VALUE_INTEGER, "", 7⟩ ∧
    savegame_example.get_string true "life" = .error "Value 'life' is not a string" ∧
    savegame_example.get_boolean true "life" = .error "Value 'life' is not a boolean" :=
  ⟨by decide, by decide,
    (C24_getter_asserts_type savegame_example "life" ⟨.VALUE_INTEGER, "", 7⟩ (by decide)
      (by decide)).1 (by decide),
    (C24_getter_asserts_type savegame_example "life" ⟨.VALUE_INTEGER, "", 7⟩ (by decide)
      (by decide)).2.2 (by decide)⟩

/-- C24, as stated, fails where `SOLARUS_ASSERT` expands to nothing: `life`
holds the integer 7, and `get_boolean` called on it fails no assertion and
returns true, which is not the default either; `get_string` returns the
string field of the entry. -/
theorem C24_getter_without_assertion_counterexample :
    map_find savegame_example.saved_values "life" = some ⟨.VALUE_INTEGER, "", 7⟩ ∧
    savegame_example.get_boolean false "life" = .ok (true, savegame_example) ∧
    savegame_example.get_string false "life" = .ok ("", savegame_example) :=
  ⟨by decide, rfl, rfl⟩

/-- Claim C25: `set_string`, `set_integer`, `set_boolean` and `unset` called
with a key that is not a valid Lua identifier fail the assertion on the key,
whatever the savegame and the value, and return no savegame: the assertion comes
before any access to the saved values; an assignment in a savegame file whose
key, read as a C string, is such a key fails the same assertion; and in every
savegame reached from one with no saved value, nothing is found under such a
key and every key of the map is a valid identifier. -/
theorem C25_invalid_key_rejected (s : Savegame) (key : String)
    (hkey : is_valid_lua_identifier key = false) :
    (∀ v : String, s.set_string key v = .error (not_a_valid_key key)) ∧
    (∀ n : Int, s.set_integer key n = .error (not_a_valid_key key)) ∧
    (∀ b : Bool, s.set_boolean key b = .error (not_a_valid_key key)) ∧
    s.unset key = .error (not_a_valid_key key) ∧
    (∀ (env value : LuaValue) (chars : String) (t : Savegame), std_string chars = key →
      l_newindex s [env, .string chars, value] ≠ .returned t) ∧
    (∀ t, Reached t → map_find t.saved_values key = none ∧
      ∀ k ∈ t.saved_values.map Prod.fst, is_valid_lua_identifier k = true) := by
  refine ⟨fun v => ?_, fun n => ?_, fun b => ?_, ?_, fun env value chars t hc h => ?_,
    fun t ht => ?_⟩
  · simp [Savegame.set_string, check_assertion, hkey]
  · simp [Savegame.set_integer, check_assertion, hkey]
  · simp [Savegame.set_boolean, check_assertion, hkey]
  · simp [Savegame.unset, check_assertion, hkey]
  · cases value <;>
      simp [l_newindex, luaL_checkstring, arg, NewindexResult.of_setter, Savegame.set_string,
        Savegame.set_integer, Savegame.set_boolean, check_assertion, hc, hkey] at h
  · refine ⟨map_find_of_not_mem _ key fun hmem => ?_, ht.rd_valid⟩
    rw [ht.rd_valid key hmem] at hkey
    cases hkey

/-- Witness of C25: `1up` begins with a digit; the setters refuse it on the
example savegame. -/
theorem C25_invalid_key_rejected_witness :
    is_valid_lua_identifier "1up" = false ∧
    savegame_example.set_integer "1up" 3 = .error "Savegame variable '1up' is not a valid key" ∧
    savegame_example.unset "1up" = .error "Savegame variable '1up' is not a valid key" ∧
    map_find savegame_example.saved_values "1up" = none :=
  ⟨by decide,
    (C25_invalid_key_rejected savegame_example "1up" (by decide)).2.1 3,
    (C25_invalid_key_rejected savegame_example "1up" (by decide)).2.2.2.1,
    ((C25_invalid_key_rejected savegame_example "1up" (by decide)).2.2.2.2.2
      savegame_example savegame_example_reached).1⟩

/-! ## Savegame: two savegames with one text -/

/-- C21, evaluated on two savegames built by `set_string` from no saved value:
one holds under `a` the string made of x, a double quote, a newline and the
characters `b = "y`; the other holds the string x under `a` and the string y
under `b`. Their saved values differ (under `a`, and `b` exists in the second
only), and `save()` writes the same text for both: the string is written
between double quotes as it is, its own double quote and newline unescaped. -/
theorem C21_save_text_not_injective :
    no_saved_value.set_string "a" "x\"\nb = \"y" = .ok one_string_example ∧
    (∃ t, no_saved_value.set_string "a" "x" = .ok t ∧
      t.set_string "b" "y" = .ok two_strings_example) ∧
    one_string_example.save.1 = "a = \"x\"\nb = \"y\"\n" ∧
    two_strings_example.save.1 = "a = \"x\"\nb = \"y\"\n" ∧
    map_find one_string_example.saved_values "a" = some ⟨.VALUE_STRING, "x\"\nb = \"y", 0⟩ ∧
    map_find two_strings_example.saved_values "a" = some ⟨.VALUE_STRING, "x", 0⟩ ∧
    map_find one_string_example.saved_values "b" = none ∧
    map_find two_strings_example.saved_values "b" = some ⟨.VALUE_STRING, "y", 0⟩ := by
  refine ⟨rfl, ⟨⟨true, [("a", ⟨.VALUE_STRING, "x", 0⟩)]⟩, rfl, ?_⟩, by decide, by decide,
    by decide, by decide, by decide, by decide⟩
  have hlt : ¬ "b" < "a" := by rw [String.lt_iff_toList_lt]; decide
  rw [set_string_ok _ _ _ (by decide)]
  simp [map_index, hlt, two_strings_example, SavedValue.new]

/-! ## Savegame: the text determines the saved values when no string holds a newline -/

theorem split_at_first {α : Type} (sep : α) (a b r1 r2 : List α) (ha : sep ∉ a)
    (hb : sep ∉ b) (h : a ++ sep :: r1 = b ++ sep :: r2) : a = b ∧ r1 = r2 := by
  induction a generalizing b with
  | nil =>
    cases b with
    | nil => simpa using h
    | cons y b =>
      simp only [List.nil_append, List.cons_append, List.cons.injEq] at h
      exact absurd h.1 (fun hy => hb (by simp [hy]))
  | cons x a ih =>
    cases b with
    | nil =>
      simp only [List.nil_append, List.cons_append, List.cons.injEq] at h
      exact absurd h.1 (fun hx => ha (by simp [hx]))
    | cons y b =>
      simp only [List.cons_append, List.cons.injEq] at h
      simp only [List.mem_cons, not_or] at ha hb
      obtain ⟨h1, h2⟩ := ih b ha.2 hb.2 h.2
      exact ⟨by rw [h.1, h1], h2⟩

theorem valid_identifier_chars (key : String) (h : is_valid_lua_identifier key = true) :
    ∀ c ∈ key.data, c.isAlphanum = true ∨ c = '_' := by
  unfold is_valid_lua_identifier at h
  split at h
  · simp at h
  · next c rest heq =>
    rw [heq]
    simp only [Bool.and_eq_true, List.all_eq_true, Bool.or_eq_true, decide_eq_true_eq] at h
    exact h.2

theorem repr_digits (m : Nat) : (Nat.repr m).data.all Char.isDigit = true := by
  obtain ⟨cs, h1, _, h3, _⟩ := toDigitsCore_decimal (m + 1) m [] (by omega)
  have hdata : (Nat.repr m).data = cs := by
    simp [Nat.repr, Nat.toDigits, h1, List.asString]
  rw [hdata]
  exact h3

theorem toString_int_chars (n : Int) :
    ∀ c ∈ (toString n).data, c.isDigit = true ∨ c = '-' := by
  intro c hc
  cases n with
  | ofNat m =>
    have hs : toString (Int.ofNat m) = Nat.repr m := rfl
    rw [hs] at hc
    exact Or.inl (List.all_eq_true.mp (repr_digits m) c hc)
  | negSucc m =>
    have hs : (toString (Int.negSucc m)).data = '-' :: (Nat.repr (m + 1)).data := rfl
    rw [hs, List.mem_cons] at hc
    rcases hc with hc | hc
    · exact Or.inr hc
    · exact Or.inl (List.all_eq_true.mp (repr_digits (m + 1)) c hc)

theorem value_text_data (v : SavedValue) :
    (value_text v).data =
      match v.type with
      | .VALUE_BOOLEAN => if v.int_data ≠ 0 then ['t', 'r', 'u', 'e'] else ['f', 'a', 'l', 's', 'e']
      | .VALUE_INTEGER => (toString v.int_data).data
      | .VALUE_STRING => '"' :: (v.string_data.data ++ ['"']) := by
  obtain ⟨type, string_data, int_data⟩ := v
  cases type
  · simp [value_text, String.data_append]
  · simp [value_text]
  · by_cases h : int_data = 0 <;> simp [value_text, h]

theorem int_text_not_letter (n : Int) (c : Char) (rest : List Char)
    (hc : c.isDigit = false ∧ c ≠ '-') : (toString n).data ≠ c :: rest := by
  intro h
  rcases toString_int_chars n c (by rw [h]; simp) with h1 | h1
  · rw [hc.1] at h1
    cases h1
  · exact hc.2 h1

theorem value_text_injective (v w : SavedValue) (h : value_text v = value_text w) :
    same_saved_value v w := by
  have hd := congrArg String.data h
  rw [value_text_data, value_text_data] at hd
  obtain ⟨type1, string1, int1⟩ := v
  obtain ⟨type2, string2, int2⟩ := w
  cases type1 <;> cases type2 <;> simp only [same_saved_value] at hd ⊢
  · simp only [List.cons.injEq, true_and] at hd
    exact ⟨trivial, String.ext (List.append_cancel_right hd)⟩
  · exact absurd hd.symm (int_text_not_letter _ _ _ (by decide))
  · split at hd <;> simp at hd
  · exact absurd hd (int_text_not_letter _ _ _ (by decide))
  · have h2 := congrArg lua_str2number (String.ext hd)
    rw [lua_str2number_toString, lua_str2number_toString] at h2
    exact ⟨trivial, Option.some.inj h2⟩
  · split at hd
    · exact absurd hd (int_text_not_letter _ _ _ (by decide))
    · exact absurd hd (int_text_not_letter _ _ _ (by decide))
  · split at hd <;> simp at hd
  · split at hd
    · exact absurd hd.symm (int_text_not_letter _ _ _ (by decide))
    · exact absurd hd.symm (int_text_not_letter _ _ _ (by decide))
  · refine ⟨trivial, ?_⟩
    by_cases h1 : int1 = 0 <;> by_cases h2 : int2 = 0 <;> simp [h1, h2] at hd ⊢

theorem value_text_no_newline (v : SavedValue)
    (h : v.type = .VALUE_STRING → '\n' ∉ v.string_data.data) :
    '\n' ∉ (value_text v).data := by
  rw [value_text_data]
  obtain ⟨type, string_data, int_data⟩ := v
  cases type
  · simpa using h rfl
  · intro hc
    rcases toString_int_chars int_data '\n' hc with h1 | h1
    · exact absurd h1 (by decide)
    · exact absurd h1 (by decide)
  · simp only
    split <;> decide

theorem saved_text_cons_data (e : String × SavedValue) (rest : SavedValues) :
    (saved_text (e :: rest)).data =
      e.1.data ++ ' ' :: ('=' :: ' ' :: ((value_text e.2).data ++ '\n' :: (saved_text rest).data)) := by
  simp [saved_text, saved_line, String.data_append]

theorem key_no_space (key : String) (h : is_valid_lua_identifier key = true) :
    ' ' ∉ key.data := by
  intro hc
  rcases valid_identifier_chars key h ' ' hc with h1 | h1
  · exact absurd h1 (by decide)
  · exact absurd h1 (by decide)

theorem saved_text_injective (l1 : SavedValues) :
    ∀ l2 : SavedValues,
      (∀ k ∈ l1.map Prod.fst, is_valid_lua_identifier k = true) →
      (∀ k ∈ l2.map Prod.fst, is_valid_lua_identifier k = true) →
      NoNewline l1 → NoNewline l2 → saved_text l1 = saved_text l2 →
      List.Forall₂ (fun e1 e2 => e1.1 = e2.1 ∧ same_saved_value e1.2 e2.2) l1 l2 := by
  induction l1 with
  | nil =>
    intro l2 _ _ _ _ h
    cases l2 with
    | nil => exact List.Forall₂.nil
    | cons e2 rest2 =>
      have hd := congrArg String.data h
      rw [saved_text_cons_data] at hd
      simp [saved_text] at hd
  | cons e1 rest1 ih =>
    intro l2 hk1 hk2 hn1 hn2 h
    cases l2 with
    | nil =>
      have hd := congrArg String.data h
      rw [saved_text_cons_data] at hd
      simp [saved_text] at hd
    | cons e2 rest2 =>
      have hd := congrArg String.data h
      rw [saved_text_cons_data, saved_text_cons_data] at hd
      have hv1 := hk1 e1.1 (by simp)
      have hv2 := hk2 e2.1 (by simp)
      obtain ⟨hkey, hrest⟩ := split_at_first ' ' _ _ _ _ (key_no_space _ hv1)
        (key_no_space _ hv2) hd
      simp only [List.cons.injEq, true_and] at hrest
      obtain ⟨hvalue, htail⟩ := split_at_first '\n' _ _ _ _
        (value_text_no_newline e1.2 (hn1 e1 (by simp)))
        (value_text_no_newline e2.2 (hn2 e2 (by simp))) hrest
      refine List.Forall₂.cons ⟨String.ext hkey, value_text_injective _ _ (String.ext hvalue)⟩
        (ih rest2 (fun k hk => hk1 k (by simp only [List.map_cons, List.mem_cons]; exact Or.inr hk))
          (fun k hk => hk2 k (by simp only [List.map_cons, List.mem_cons]; exact Or.inr hk))
          (fun e he => hn1 e (List.mem_cons_of_mem _ he))
          (fun e he => hn2 e (List.mem_cons_of_mem _ he)) (String.ext htail))

theorem save_determines_saved_values (s t : Savegame) (hs : Reached s) (ht : Reached t)
    (hn1 : NoNewline s.saved_values) (hn2 : NoNewline t.saved_values)
    (h : s.save.1 = t.save.1) :
    List.Forall₂ (fun e1 e2 => e1.1 = e2.1 ∧ same_saved_value e1.2 e2.2)
      s.saved_values t.saved_values := by
  simp only [Savegame.save, save_loop_text, String.empty_append] at h
  have h2 : saved_text s.saved_values = saved_text t.saved_values := by simpa using h
  exact saved_text_injective _ _ hs.rd_valid ht.rd_valid hn1 hn2 h2

theorem getter_without_assertion (s : Savegame) (key : String) (value : SavedValue)
    (hfind : map_find s.saved_values key = some value) :
    s.get_string false key = .ok (value.string_data, s) ∧
    s.get_integer false key = .ok (value.int_data, s) ∧
    s.get_boolean false key = .ok (decide (value.int_data ≠ 0), s) := by
  simp [Savegame.get_string, Savegame.get_integer, Savegame.get_boolean, solarus_assert, hfind]

end solarus
